import Mathlib

/-!
# etcd-operator: cluster state tracker and membership reconciliation

A shallow embedding of the reconciliation core of the operator
(`pkg/apis/cache/v1alpha1/cluster_types.go`, `pkg/clustercache/*.go`).

* Go structs become Lean structures with the same field names.
* Methods that mutate their receiver become functions returning the new value.
* Calls to the collaborators (workload API, store admin API, event sink) are
  answered by an `Env` of response functions and are recorded, in order, in a
  call log, so that ordering and frame properties can be stated.
* A Go `error` result is an `Outcome`: `ok` (nil), `err e`, or `panic`.
-/

set_option linter.dupNamespace false

namespace EtcdOperator

/-! ## API types (`cluster_types.go`) -/

abbrev ClusterPhase := String
abbrev ClusterConditionType := String
abbrev ConditionStatus := String

def ClusterPhaseNone : ClusterPhase := ""
def ClusterPhaseCreating : ClusterPhase := "Creating"
def ClusterPhaseRunning : ClusterPhase := "Running"
def ClusterPhaseFailed : ClusterPhase := "Failed"

def ClusterConditionAvailable : ClusterConditionType := "Available"
def ClusterConditionRecovering : ClusterConditionType := "Recovering"
def ClusterConditionScaling : ClusterConditionType := "Scaling"
def ClusterConditionUpgrading : ClusterConditionType := "Upgrading"

def ConditionTrue : ConditionStatus := "True"
def ConditionFalse : ConditionStatus := "False"
def ConditionUnknown : ConditionStatus := "Unknown"

def defaultRepository : String := "quay.io/coreos/etcd"
def DefaultEtcdVersion : String := "3.2.13"

/-- ClusterCondition: one current condition of a cluster (field `Type` is `Type_`). -/
structure ClusterCondition where
  Type_ : ClusterConditionType
  Status : ConditionStatus
  LastUpdateTime : String
  LastTransitionTime : String
  Reason : String
  Message : String
deriving DecidableEq, Repr

structure MembersStatus where
  Ready : List String
  Unready : List String
deriving DecidableEq, Repr

/-- ClusterStatus: the observed state of a cluster. -/
structure ClusterStatus where
  Phase : ClusterPhase
  Reason : String
  ControlPaused : Bool
  Conditions : List ClusterCondition
  Size : Int
  ServiceName : String
  ClientPort : Int
  Members : MembersStatus
  CurrentVersion : String
  TargetVersion : String
deriving DecidableEq, Repr

structure MemberSecret where
  PeerSecret : String
  ServerSecret : String
deriving DecidableEq, Repr

structure StaticTLS where
  Member : Option MemberSecret
  OperatorSecret : String
deriving DecidableEq, Repr

structure TLSPolicy where
  Static : Option StaticTLS
deriving DecidableEq, Repr

/-- PodPolicy: the fields of the pod policy that the tracker reads. `Affinity` is `none`
for a nil pointer and otherwise carries the cluster label of the anti-affinity rule;
`PersistentVolumeClaimSpec` is `none` for a nil pointer. -/
structure PodPolicy where
  Affinity : Option String
  AntiAffinity : Bool
  PersistentVolumeClaimSpec : Option String
  ClusterDomain : String
deriving DecidableEq, Repr

/-- ClusterSpec: the desired state of a cluster. -/
structure ClusterSpec where
  Size : Int
  Repository : String
  Version : String
  Paused : Bool
  Pod : Option PodPolicy
  TLS : Option TLSPolicy
  Password : String
deriving DecidableEq, Repr

/-- Cluster: the desired-state document (object metadata, spec, status). -/
structure Cluster where
  Name : String
  Namespace : String
  ClusterName : String
  UID : String
  Spec : ClusterSpec
  Status : ClusterStatus
deriving DecidableEq, Repr

/-- The Go function `newClusterCondition`; `now` is `time.Now().Format(time.RFC3339)`. -/
def newClusterCondition (now : String) (condType : ClusterConditionType)
    (status : ConditionStatus) (reason message : String) : ClusterCondition :=
  { Type_ := condType, Status := status, LastUpdateTime := now, LastTransitionTime := now,
    Reason := reason, Message := message }

/-- The loop of `getClusterCondition`, started at index `i`. -/
def getClusterConditionFrom (t : ClusterConditionType) :
    Nat → List ClusterCondition → Int × Option ClusterCondition
  | _, [] => (-1, none)
  | i, c :: cs => if t = c.Type_ then ((i : Int), some c) else getClusterConditionFrom t (i + 1) cs

/-- The Go function `getClusterCondition`: position and value of the first condition of
type `t`, or `(-1, nil)`. -/
def getClusterCondition (status : ClusterStatus) (t : ClusterConditionType) :
    Int × Option ClusterCondition :=
  getClusterConditionFrom t 0 status.Conditions

/-- The Go method `(*ClusterStatus).setClusterCondition`. -/
def ClusterStatus.setClusterCondition (cs : ClusterStatus) (c : ClusterCondition) :
    ClusterStatus :=
  match getClusterCondition cs c.Type_ with
  | (pos, some cp) =>
    if cp.Status = c.Status ∧ cp.Reason = c.Reason ∧ cp.Message = c.Message then cs
    else { cs with Conditions := cs.Conditions.set pos.toNat c }
  | (_, none) => { cs with Conditions := cs.Conditions ++ [c] }

/-- The Go method `(*ClusterStatus).ClearCondition`:
`append(cs.Conditions[:pos], cs.Conditions[pos+1:]...)` unless `pos == -1`. -/
def ClusterStatus.ClearCondition (cs : ClusterStatus) (t : ClusterConditionType) :
    ClusterStatus :=
  let pos := (getClusterCondition cs t).1
  if pos = -1 then cs
  else { cs with Conditions := cs.Conditions.take pos.toNat ++ cs.Conditions.drop (pos.toNat + 1) }

/-- The Go function `scalingMsg`. -/
def scalingMsg (fromSize toSize : Int) : String :=
  s!"Current cluster size: {fromSize}, desired cluster size: {toSize}"

def ClusterStatus.SetReason (cs : ClusterStatus) (r : String) : ClusterStatus :=
  { cs with Reason := r }

def ClusterStatus.SetPhase (cs : ClusterStatus) (p : ClusterPhase) : ClusterStatus :=
  { cs with Phase := p }

def ClusterStatus.SetScalingUpCondition (cs : ClusterStatus) (now : String)
    (fromSize toSize : Int) : ClusterStatus :=
  cs.setClusterCondition
    (newClusterCondition now ClusterConditionScaling ConditionTrue "Scaling up"
      (scalingMsg fromSize toSize))

def ClusterStatus.SetScalingDownCondition (cs : ClusterStatus) (now : String)
    (fromSize toSize : Int) : ClusterStatus :=
  cs.setClusterCondition
    (newClusterCondition now ClusterConditionScaling ConditionTrue "Scaling down"
      (scalingMsg fromSize toSize))

def ClusterStatus.SetRecoveringCondition (cs : ClusterStatus) (now : String) : ClusterStatus :=
  (cs.setClusterCondition
    (newClusterCondition now ClusterConditionRecovering ConditionTrue "Disaster recovery"
      "Majority is down. Recovering from backup")).ClearCondition ClusterConditionAvailable

def ClusterStatus.SetUpgradingCondition (cs : ClusterStatus) (now : String) (toVersion : String) :
    ClusterStatus :=
  cs.setClusterCondition
    (newClusterCondition now ClusterConditionUpgrading ConditionTrue "Cluster upgrading"
      ("upgrading to " ++ toVersion))

def ClusterStatus.SetReadyCondition (cs : ClusterStatus) (now : String) : ClusterStatus :=
  cs.setClusterCondition
    (newClusterCondition now ClusterConditionAvailable ConditionTrue "Cluster available" "")

def ClusterStatus.PauseControl (cs : ClusterStatus) : ClusterStatus :=
  { cs with ControlPaused := true }

def ClusterStatus.Control (cs : ClusterStatus) : ClusterStatus :=
  { cs with ControlPaused := false }

def ClusterStatus.UpgradeVersionTo (cs : ClusterStatus) (v : String) : ClusterStatus :=
  { cs with TargetVersion := v }

def ClusterStatus.SetVersion (cs : ClusterStatus) (v : String) : ClusterStatus :=
  { cs with TargetVersion := "", CurrentVersion := v }

/-- The Go method `(*TLSPolicy).IsSecureClient` (a nil policy is `none`). -/
def TLSPolicy.IsSecureClient (tp : Option TLSPolicy) : Bool :=
  match tp with
  | none => false
  | some p =>
    match p.Static with
    | none => false
    | some s => s.OperatorSecret.length != 0

/-- The Go method `(*TLSPolicy).IsSecurePeer` (a nil policy is `none`). -/
def TLSPolicy.IsSecurePeer (tp : Option TLSPolicy) : Bool :=
  match tp with
  | none => false
  | some p =>
    match p.Static with
    | none => false
    | some s =>
      match s.Member with
      | none => false
      | some m => m.PeerSecret.length != 0

/-! ## Members and member sets (package `etcdutil`, used by `pkg/clustercache`) -/

/-- Modelled from the spec: the `etcdutil.Member` type is not part of the sources at hand; its
fields are those the tracker sets and reads (name, namespace, store-assigned id, secure-peer
and secure-client flags, cluster domain). -/
structure Member where
  Name : String
  Namespace : String
  ID : Nat
  SecurePeer : Bool
  SecureClient : Bool
  ClusterDomain : String
deriving DecidableEq, Repr

/-- Modelled from the spec: the `etcdutil.MemberSet` type is not part of the sources at hand.
The spec describes it as a mapping name → Member with unique keys; it is represented by the
list of its values, and the order of the list stands for the (arbitrary) iteration order of
the map. Every list order is a possible iteration order, so a statement proved for all lists
holds for every order in which the map may be traversed. -/
abbrev MemberSet := List Member

/-- Well-formed member sets: the names (the keys of the map) are pairwise distinct. -/
def MemberSet.WF (ms : MemberSet) : Prop := (ms.map Member.Name).Nodup

instance (ms : MemberSet) : Decidable ms.WF :=
  inferInstanceAs (Decidable (ms.map Member.Name).Nodup)

/-- The names of a member set, in representation order. -/
def MemberSet.names (ms : MemberSet) : List String := ms.map Member.Name

/-- Whether the set has a member named `name`. -/
def MemberSet.has (ms : MemberSet) (name : String) : Bool := ms.any (fun m => m.Name = name)

/-- Modelled from the spec: `MemberSet.Size`, the number of members of the set. -/
def MemberSet.Size (ms : MemberSet) : Nat := ms.length

/-- Modelled from the spec: `MemberSet.Add`, the map assignment `ms[m.Name] = m`: the entry of
that name is overwritten when there is one, and a new entry is made otherwise. -/
def MemberSet.Add (ms : MemberSet) (m : Member) : MemberSet :=
  if ms.has m.Name then ms.map (fun x => if x.Name = m.Name then m else x) else ms ++ [m]

/-- Modelled from the spec: `MemberSet.Remove`, remove-by-name. -/
def MemberSet.Remove (ms : MemberSet) (name : String) : MemberSet :=
  ms.filter (fun m => m.Name ≠ name)

/-- Modelled from the spec: `MemberSet.Diff`, the asymmetric set difference by name: the
members of `ms` whose name is not a name of `other`. -/
def MemberSet.Diff (ms other : MemberSet) : MemberSet :=
  ms.filter (fun m => !other.has m.Name)

/-- Modelled from the spec: `MemberSet.IsEqual`, equality of member sets: the same name set. -/
def MemberSet.IsEqual (ms other : MemberSet) : Bool :=
  ms.all (fun m => other.has m.Name) && other.all (fun m => ms.has m.Name)

/-- Modelled from the spec: `MemberSet.PickOne`, an arbitrary but deterministic member of the
set (the first in iteration order); `none` stands for the absence of a member to pick. -/
def MemberSet.PickOne (ms : MemberSet) : Option Member := ms.head?

/-! ## Workloads, errors, collaborator calls -/

/-- Pod: the fields of a workload that the tracker reads or patches. `OwnerReferences`
lists the owner UIDs, `Image` is the image of the first container, `EtcdVersion` the recorded
version marker, `Ready` the readiness reported for the pod. -/
structure Pod where
  Name : String
  Namespace : String
  DeletionTimestamp : Option String
  OwnerReferences : List String
  Phase : String
  Ready : Bool
  Image : String
  EtcdVersion : String
deriving DecidableEq, Repr

def PodRunning : String := "Running"
def PodPending : String := "Pending"

/-- Go `error` values seen by the tracker: the package sentinels `ErrLostQuorum` and
`errCreatedCluster`, the admin API sentinel `rpctypes.ErrMemberNotFound`, a `*fatalError`,
a workload-API not-found answer, any other collaborator error, the errors made by
`fmt.Errorf`, and the errors made by `errors.Wrap`. -/
inductive Error where
  | ErrLostQuorum
  | errCreatedCluster
  | ErrMemberNotFound
  | fatalError (reason : String)
  | notFound (text : String)
  | other (text : String)
  | errorf (text : String)
  | wrap (cause : Error) (message : String)
deriving DecidableEq, Repr

/-- The `Error()` text of an error value. -/
def Error.Error : Error → String
  | .ErrLostQuorum => "lost quorum"
  | .errCreatedCluster => "cluster failed to be created"
  | .ErrMemberNotFound => "etcdserver: member not found"
  | .fatalError reason => reason
  | .notFound text => text
  | .other text => text
  | .errorf text => text
  | .wrap cause message => message ++ ": " ++ cause.Error

/-- Modelled from the spec: `k8sutil.IsKubernetesResourceNotFoundError` is not part of the
sources at hand; it recognises the not-found answer of the workload API ("not-found on
delete/remove treated as success"). -/
def IsKubernetesResourceNotFoundError : Error → Bool
  | .notFound _ => true
  | _ => false

/-- Events handed to the event sink (the constructors of package `k8sutil`). -/
inductive Event where
  | NewMemberAddEvent (memberName : String)
  | MemberRemoveEvent (memberName : String)
  | ReplacingDeadMemberEvent (memberName : String)
  | MemberUpgradedEvent (memberName oldVersion newVersion : String)
deriving DecidableEq, Repr

/-- One call to a collaborator, with the arguments that identify its target. -/
inductive Call where
  | podDelete (ns name : String)
  | podCreate (ns : String) (m : Member) (peers : List (String × String)) (state : String)
  | podGet (ns name : String)
  | podPatch (ns name : String) (patched : Pod)
  | pvcCreate (ns : String) (m : Member)
  | pvcDelete (ns name : String)
  | etcdClientNew (endpoints : List String)
  | MemberAdd (peerURLs : List String)
  | RemoveMember (endpoints : List String) (id : Nat)
  | eventCreate (e : Event)
  | podList (ns clusterName : String)
  | UpdateCluster (ns : String) (cluster : Cluster)
  | ListMembers (endpoints : List String)
  | secretGet (ns name : String)
  | CreateClientService (clusterName ns : String)
  | CreatePeerService (clusterName ns : String)
deriving DecidableEq, Repr

/-- A member as the store's admin API lists it (`etcdserverpb.Member`): id and peer URLs. -/
structure EtcdMember where
  ID : Nat
  PeerURLs : List String
deriving DecidableEq, Repr

/-- The TLS material read from a secret (`k8sutil.TLSData`). -/
structure TLSData where
  CertData : String
  KeyData : String
  CAData : String
deriving DecidableEq, Repr

/-- The answers of the collaborators and the helper functions and constants of packages
`k8sutil` and `etcdutil` that are parameters of the model. -/
structure Env where
  now : String
  UniqueMemberName : String → String
  PeerURL : Member → String
  ClientURL : Member → String
  PVCNameFromMember : String → String
  ImageName : String → String → String
  podDelete : String → String → Option Error
  podCreate : String → Member → String → Option Error
  podGet : String → String → Except Error Pod
  CreatePatch : Pod → Pod → Option Error
  podPatch : String → String → Pod → Option Error
  pvcCreate : String → Member → Option Error
  pvcDelete : String → String → Option Error
  etcdClientNew : List String → Option Error
  MemberAdd : List String → Except Error Nat
  RemoveMember : List String → Nat → Option Error
  eventCreate : Event → Option Error
  MaxNameLength : Nat
  ClientServiceName : String → String
  EtcdClientPort : Int
  podList : String → String → Except Error (List Pod)
  UpdateCluster : String → Cluster → Option Error
  ListMembers : List String → Except Error (List EtcdMember)
  MemberNameFromPeerURL : String → Except Error String
  GetTLSDataFromSecret : String → String → Except Error TLSData
  NewTLSConfig : TLSData → Except Error String
  CreateClientService : String → String → Option Error
  CreatePeerService : String → String → Option Error

/-- Modelled from the spec: `MemberSet.ClientURLs`, the client-URL list. -/
def MemberSet.ClientURLs (env : Env) (ms : MemberSet) : List String := ms.map env.ClientURL

/-- Modelled from the spec: `MemberSet.PeerURLPairs`, the peer-URL-pair list. -/
def MemberSet.PeerURLPairs (env : Env) (ms : MemberSet) : List (String × String) :=
  ms.map (fun m => (m.Name, env.PeerURL m))

/-- The result of a Go function returning `error`. -/
inductive Outcome where
  | ok
  | err (e : Error)
  | panic
deriving DecidableEq, Repr

/-! ## The cluster state tracker (`etcdcluster.go`) -/

/-- MetaCluster: the per-cluster tracker. `Members` is `none` for the nil map. `Cluster` is
the stored document, held here by value. In Go it is held by pointer, and once the tracker's
status has been assigned into it (`UpdateCRStatus`, `create`) the document's
`Status.Conditions` share their backing array with the tracker's. The sharing is not
represented: after a later write to the tracker's conditions, `Cluster.Status.Conditions`
is the value last assigned, which need not be what the Go document then shows. The
tracker's own `Status` is not affected by this. -/
structure MetaCluster where
  Name : String
  Cluster : Cluster
  Status : ClusterStatus
  Members : Option MemberSet
  tlsConfig : Option String
deriving DecidableEq, Repr

/-- A tracker together with the log of the collaborator calls made so far. -/
structure Run where
  c : MetaCluster
  log : List Call
deriving DecidableEq, Repr

/-- Record one collaborator call. -/
def Run.call (r : Run) (k : Call) : Run := { r with log := r.log ++ [k] }

/-- Replace the status of the tracker. -/
def Run.setStatus (r : Run) (st : ClusterStatus) : Run := { r with c := { r.c with Status := st } }

/-- Replace the member set of the tracker. -/
def Run.setMembers (r : Run) (ms : Option MemberSet) : Run :=
  { r with c := { r.c with Members := ms } }

/-- The member set read through a possibly nil map: a nil map reads as the empty map. -/
def MetaCluster.members (c : MetaCluster) : MemberSet := c.Members.getD []

def MetaCluster.isPodPVEnabled (c : MetaCluster) : Bool :=
  match c.Cluster.Spec.Pod with
  | some podPolicy => podPolicy.PersistentVolumeClaimSpec.isSome
  | none => false

def MetaCluster.isSecurePeer (c : MetaCluster) : Bool :=
  TLSPolicy.IsSecurePeer c.Cluster.Spec.TLS

def MetaCluster.IsSecureClient (c : MetaCluster) : Bool :=
  TLSPolicy.IsSecureClient c.Cluster.Spec.TLS

/-- Modelled from the spec: `k8sutil.GetEtcdVersion`, the recorded version of a workload. -/
def GetEtcdVersion (pod : Pod) : String := pod.EtcdVersion

/-- Modelled from the spec: `k8sutil.SetEtcdVersion`, set the version marker of a workload. -/
def SetEtcdVersion (pod : Pod) (version : String) : Pod := { pod with EtcdVersion := version }

/-- The Go function `PodsToMemberSet` (`member.go`). -/
def PodsToMemberSet (pods : List Pod) (sc : Bool) : MemberSet :=
  pods.foldl
    (fun members pod =>
      members.Add
        { Name := pod.Name, Namespace := pod.Namespace, ID := 0, SecurePeer := false,
          SecureClient := sc, ClusterDomain := "" })
    []

/-- The Go method `(*MetaCluster).newMember` (`member.go`). -/
def MetaCluster.newMember (env : Env) (c : MetaCluster) : Member :=
  { Name := env.UniqueMemberName c.Cluster.Name
    Namespace := c.Cluster.Namespace
    ID := 0
    SecurePeer := c.isSecurePeer
    SecureClient := c.IsSecureClient
    ClusterDomain :=
      match c.Cluster.Spec.Pod with
      | some podPolicy => podPolicy.ClusterDomain
      | none => "" }

/-- The Go method `(*MetaCluster).removePod`: a not-found answer counts as success. -/
def removePod (env : Env) (name : String) (r : Run) : Outcome × Run :=
  let ns := r.c.Cluster.Namespace
  let r1 := r.call (.podDelete ns name)
  match env.podDelete ns name with
  | some e => if !IsKubernetesResourceNotFoundError e then (.err e, r1) else (.ok, r1)
  | none => (.ok, r1)

/-- The Go method `(*MetaCluster).removePVC` (`reconcile.go`). -/
def removePVC (env : Env) (pvcName : String) (r : Run) : Outcome × Run :=
  let ns := r.c.Cluster.Namespace
  let r1 := r.call (.pvcDelete ns pvcName)
  match env.pvcDelete ns pvcName with
  | some e =>
    if !IsKubernetesResourceNotFoundError e then
      (.err (.errorf ("remove pvc (" ++ pvcName ++ ") failed: " ++ e.Error)), r1)
    else (.ok, r1)
  | none => (.ok, r1)

/-- The Go method `(*MetaCluster).createPod`: the volume claim first when persistent-volume
mode is enabled, then the pod. -/
def createPod (env : Env) (members : MemberSet) (m : Member) (state : String) (r : Run) :
    Outcome × Run :=
  let ns := r.c.Cluster.Namespace
  let podCall := Call.podCreate ns m (members.PeerURLPairs env) state
  if r.c.isPodPVEnabled then
    let r1 := r.call (.pvcCreate ns m)
    match env.pvcCreate ns m with
    | some e =>
      (.err (.errorf ("failed to create PVC for member (" ++ m.Name ++ "): " ++ e.Error)), r1)
    | none =>
      let r2 := r1.call podCall
      match env.podCreate ns m state with
      | some e => (.err e, r2)
      | none => (.ok, r2)
  else
    let r1 := r.call podCall
    match env.podCreate ns m state with
    | some e => (.err e, r1)
    | none => (.ok, r1)

/-- The deferred function of `removeMember`: a non-nil result is wrapped. -/
def removeMemberDeferred (toRemove : Member) : Outcome × Run → Outcome × Run
  | (.err e, r) =>
    (.err (.errorf ("remove member (" ++ toRemove.Name ++ ") failed: " ++ e.Error)), r)
  | res => res

/-- The Go method `(*MetaCluster).removeMember`; `toRemove` is a pointer, `none` when nil
(its first dereference then panics before any call is made). -/
def removeMember (env : Env) (toRemove : Option Member) (r : Run) : Outcome × Run :=
  match toRemove with
  | none => (.panic, r)
  | some toRemove =>
    let endpoints := r.c.members.ClientURLs env
    let r1 := r.call (.RemoveMember endpoints toRemove.ID)
    let rest : Outcome × Run :=
      let r2 := r1.setMembers (r1.c.Members.map (fun ms => ms.Remove toRemove.Name))
      let r3 := r2.call (.eventCreate (.MemberRemoveEvent toRemove.Name))
      match removePod env toRemove.Name r3 with
      | (.ok, r4) =>
        if r4.c.isPodPVEnabled then removePVC env (env.PVCNameFromMember toRemove.Name) r4
        else (.ok, r4)
      | res => res
    removeMemberDeferred toRemove
      (match env.RemoveMember endpoints toRemove.ID with
       | some e => if e = Error.ErrMemberNotFound then rest else (.err e, r1)
       | none => rest)

/-- The Go method `(*MetaCluster).removeDeadMember`. -/
def removeDeadMember (env : Env) (toRemove : Option Member) (r : Run) : Outcome × Run :=
  match toRemove with
  | none => (.panic, r)
  | some m => removeMember env (some m) (r.call (.eventCreate (.ReplacingDeadMemberEvent m.Name)))

/-- The Go method `(*MetaCluster).removeOneMember`. -/
def removeOneMember (env : Env) (r : Run) : Outcome × Run :=
  let r1 := r.setStatus
    (r.c.Status.SetScalingDownCondition env.now r.c.members.Size r.c.Cluster.Spec.Size)
  removeMember env r1.c.members.PickOne r1

/-- The Go method `(*MetaCluster).addOneMember`: register the new member with the store,
then create its workload in join mode "existing". -/
def addOneMember (env : Env) (r : Run) : Outcome × Run :=
  let r1 := r.setStatus
    (r.c.Status.SetScalingUpCondition env.now r.c.members.Size r.c.Cluster.Spec.Size)
  let endpoints := r1.c.members.ClientURLs env
  let r2 := r1.call (.etcdClientNew endpoints)
  match env.etcdClientNew endpoints with
  | some e =>
    (.err (.errorf ("add one member failed: creating etcd client failed " ++ e.Error)), r2)
  | none =>
    let newMember := r2.c.newMember env
    let r3 := r2.call (.MemberAdd [env.PeerURL newMember])
    match env.MemberAdd [env.PeerURL newMember] with
    | .error e =>
      (.err (.errorf ("fail to add new member (" ++ newMember.Name ++ "): " ++ e.Error)), r3)
    | .ok id =>
      let newMember := { newMember with ID := id }
      match r3.c.Members with
      | none => (.panic, r3)
      | some ms =>
        let r4 := r3.setMembers (some (ms.Add newMember))
        match createPod env r4.c.members newMember "existing" r4 with
        | (.ok, r5) => (.ok, r5.call (.eventCreate (.NewMemberAddEvent newMember.Name)))
        | (.err e, r5) =>
          (.err (.errorf ("fail to create member's pod (" ++ newMember.Name ++ "): " ++ e.Error)),
            r5)
        | res => res

/-- The Go method `(*MetaCluster).resize`. -/
def resize (env : Env) (r : Run) : Outcome × Run :=
  if (r.c.members.Size : Int) = r.c.Cluster.Spec.Size then (.ok, r)
  else if (r.c.members.Size : Int) < r.c.Cluster.Spec.Size then addOneMember env r
  else removeOneMember env r

/-- The loop of `reconcileMembers` over the unknown members: delete each workload, stop at
the first failure. -/
def removeUnknownPods (env : Env) : List Member → Run → Outcome × Run
  | [], r => (.ok, r)
  | m :: ms, r =>
    match removePod env m.Name r with
    | (.ok, r1) => removeUnknownPods env ms r1
    | res => res

/-- The Go method `(*MetaCluster).reconcileMembers`. -/
def reconcileMembers (env : Env) (running : MemberSet) (r : Run) : Outcome × Run :=
  let unknownMembers := running.Diff r.c.members
  match removeUnknownPods env unknownMembers r with
  | (.ok, r1) =>
    let L := running.Diff unknownMembers
    if L.Size = r1.c.members.Size then resize env r1
    else if L.Size < r1.c.members.Size / 2 + 1 then (.err .ErrLostQuorum, r1)
    else removeDeadMember env (r1.c.members.Diff L).PickOne r1
  | res => res

/-- The Go function `pickOneOldMember`: the first pod, in list order, whose recorded version
is not `newVersion`. -/
def pickOneOldMember : List Pod → String → Option Member
  | [], _ => none
  | pod :: pods, newVersion =>
    if GetEtcdVersion pod = newVersion then pickOneOldMember pods newVersion
    else some { Name := pod.Name, Namespace := pod.Namespace, ID := 0, SecurePeer := false,
                SecureClient := false, ClusterDomain := "" }

/-- The Go function `needUpgrade`. -/
def needUpgrade (pods : List Pod) (cs : ClusterSpec) : Bool :=
  ((pods.length : Int) = cs.Size) && (pickOneOldMember pods cs.Version).isSome

/-- The Go method `(*MetaCluster).upgradeOneMember` (`etcdcluster.go`). -/
def upgradeOneMember (env : Env) (memberName : String) (r : Run) : Outcome × Run :=
  let sp := r.c.Cluster.Spec
  let r1 := r.setStatus (r.c.Status.SetUpgradingCondition env.now sp.Version)
  let ns := r1.c.Cluster.Namespace
  let r2 := r1.call (.podGet ns memberName)
  match env.podGet ns memberName with
  | .error e => (.err (.errorf ("fail to get pod (" ++ memberName ++ "): " ++ e.Error)), r2)
  | .ok oldpod =>
    let pod := SetEtcdVersion { oldpod with Image := env.ImageName sp.Repository sp.Version }
      sp.Version
    match env.CreatePatch oldpod pod with
    | some e => (.err (.errorf ("error creating patch: " ++ e.Error)), r2)
    | none =>
      let r3 := r2.call (.podPatch ns pod.Name pod)
      match env.podPatch ns pod.Name pod with
      | some e =>
        (.err (.errorf ("fail to update the etcd member (" ++ memberName ++ "): " ++ e.Error)),
          r3)
      | none =>
        (.ok, r3.call (.eventCreate
          (.MemberUpgradedEvent memberName (GetEtcdVersion oldpod) sp.Version)))

/-- The body of `reconcile`, without its deferred size update. -/
def reconcileBody (env : Env) (pods : List Pod) (r : Run) : Outcome × Run :=
  let sp := r.c.Cluster.Spec
  let running := PodsToMemberSet pods r.c.IsSecureClient
  if !running.IsEqual r.c.members || (r.c.members.Size : Int) ≠ sp.Size then
    reconcileMembers env running r
  else
    let r1 := r.setStatus (r.c.Status.ClearCondition ClusterConditionScaling)
    if needUpgrade pods sp then
      let r2 := r1.setStatus (r1.c.Status.UpgradeVersionTo sp.Version)
      match pickOneOldMember pods sp.Version with
      | none => (.panic, r2)
      | some m => upgradeOneMember env m.Name r2
    else
      let r2 := r1.setStatus (r1.c.Status.ClearCondition ClusterConditionUpgrading)
      let r3 := r2.setStatus (r2.c.Status.SetVersion sp.Version)
      (.ok, r3.setStatus (r3.c.Status.SetReadyCondition env.now))

/-- The Go method `(*MetaCluster).reconcile`: the body, then the deferred
`c.Status.Size = c.Members.Size()`, which runs on every way out. -/
def reconcile (env : Env) (pods : List Pod) (r : Run) : Outcome × Run :=
  let res := reconcileBody env pods r
  (res.1, res.2.setStatus { res.2.c.Status with Size := res.2.c.members.Size })

/-! ## Defaults, registry and update path (`cluster_types.go`, `etcdcluster.go`) -/

/-- The Go builtin `len` on a string: its length in bytes. -/
def len (s : String) : Nat := s.utf8ByteSize

/-- The Go function `strings.TrimLeft`: remove every leading character that occurs in
`cutset`. -/
def TrimLeft (s cutset : String) : String :=
  String.mk (s.data.dropWhile (fun ch => cutset.data.contains ch))

/-- The Go method `(*Cluster).SetDefaults`. The anti-affinity rule that is synthesised is
represented by the cluster name it is keyed by. -/
def Cluster.SetDefaults (e : Cluster) : Cluster :=
  let c := e.Spec
  let c := if len c.Repository = 0 then { c with Repository := defaultRepository } else c
  let c := if len c.Version = 0 then { c with Version := DefaultEtcdVersion } else c
  let c := { c with Version := TrimLeft c.Version "v" }
  let c :=
    match c.Pod with
    | some pod =>
      if pod.AntiAffinity && pod.Affinity.isNone then
        { c with Pod := some { pod with Affinity := some e.Name } }
      else c
    | none => c
  { e with Spec := c }

/-- The Go function `isSpecEqual`: size, paused and version are compared, nothing else. -/
def isSpecEqual (s1 s2 : ClusterSpec) : Bool :=
  if s1.Size ≠ s2.Size ∨ s1.Paused ≠ s2.Paused ∨ s1.Version ≠ s2.Version then false else true

/-- The Go method `(*MetaCluster).handleUpdateEvent`: the stored document is replaced first;
the comparison of the specs only selects what is logged. It always returns nil. -/
def handleUpdateEvent (cl : Cluster) (r : Run) : Outcome × Run :=
  let oldSpec := r.c.Cluster.Spec
  let r1 : Run := { r with c := { r.c with Cluster := cl } }
  if isSpecEqual cl.Spec oldSpec then (.ok, r1) else (.ok, r1)

/-- The Go function `getNamespaceName`. -/
def getNamespaceName (ns name : String) : String := ns ++ "/" ++ name

/-- The Go function `newCluster`: nil (`none`) when a name is longer than
`k8sutil.MaxNameLength`, else a tracker holding the document and a copy of its status, with
no member set and no TLS context. -/
def newCluster (env : Env) (cl : Cluster) : Option MetaCluster :=
  if len cl.Name > env.MaxNameLength ∨ len cl.ClusterName > env.MaxNameLength then none
  else some { Name := "", Cluster := cl, Status := cl.Status, Members := none, tlsConfig := none }

/-- MetaMap: the registry, a map from the key `namespace/name` to a tracker pointer; a stored
nil pointer is `none`. -/
abbrev MetaMap := List (String × Option MetaCluster)

/-- The method `Load` of the registry map: the stored pointer, if the key is present. -/
def MetaMap.Load (c : MetaMap) (key : String) : Option (Option MetaCluster) :=
  (c.find? (fun kv => kv.1 = key)).map (fun kv => kv.2)

/-- The method `Store` of the registry map. -/
def MetaMap.Store (c : MetaMap) (key : String) (value : Option MetaCluster) : MetaMap :=
  if (c.find? (fun kv => kv.1 = key)).isSome then
    c.map (fun kv => if kv.1 = key then (key, value) else kv)
  else c ++ [(key, value)]

/-- The handler state: the registry and the log of the collaborator calls made so far. -/
structure Handler where
  MetaCache : MetaMap
  log : List Call
deriving DecidableEq, Repr

/-- The result of `Cache`: the tracker pointer (`none` when nil) and whether it existed. -/
structure Cached where
  tracker : Option MetaCluster
  existed : Bool
deriving DecidableEq, Repr

/-- The Go method `(*MetaMap).Add`: whatever `newCluster` returns is stored under the key. -/
def MetaMap.Add (env : Env) (c : MetaMap) (cluster : Cluster) : MetaMap :=
  c.Store (getNamespaceName cluster.Namespace cluster.Name) (newCluster env cluster)

/-- The Go method `(*MetaMap).Get`: the stored pointer; the type assertion panics (`none`)
when the key is absent. -/
def MetaMap.Get (c : MetaMap) (cluster : Cluster) : Option (Option MetaCluster) :=
  c.Load (getNamespaceName cluster.Namespace cluster.Name)

/-- The Go method `(*MetaMap).Update` applied to the tracker stored under the key: a nil
tracker is dereferenced by `handleUpdateEvent` (panic, `none`); otherwise the tracker, which
the registry holds by pointer, is updated in place. -/
def MetaMap.Update (c : MetaMap) (tracker : Option MetaCluster) (cluster : Cluster) :
    Option MetaMap :=
  match tracker with
  | none => none
  | some t =>
    let res := handleUpdateEvent cluster { c := t, log := [] }
    match res.1 with
    | .err e =>
      some (c.Store (getNamespaceName cluster.Namespace cluster.Name)
        (some { res.2.c with Status := res.2.c.Status.SetReason e.Error }))
    | _ => some (c.Store (getNamespaceName cluster.Namespace cluster.Name) (some res.2.c))

/-- The Go method `(*MetaMap).Cache`: the registry afterwards and the tracker returned with
its `existed` flag, or `none` for a panic. -/
def MetaMap.Cache (env : Env) (c : MetaMap) (cluster : Cluster) : Option (MetaMap × Cached) :=
  match c.Load (getNamespaceName cluster.Namespace cluster.Name) with
  | none =>
    let c1 := c.Add env cluster
    match c1.Get cluster with
    | none => none
    | some t => some (c1, { tracker := t, existed := false })
  | some stored =>
    match c.Update stored cluster with
    | none => none
    | some c1 =>
      match c1.Get cluster with
      | none => none
      | some t => some (c1, { tracker := t, existed := true })

/-! ## Setup, polling and the reconciliation driver (`etcdcluster.go`, `member.go`, `handler.go`) -/

/-- The Go method `(*MetaCluster).UpdateCRStatus`: nothing when the stored document already
carries the tracker's status; otherwise the status is copied into the stored document, which
is handed to the collaborator that persists it. The answer of the collaborator is discarded
and the method always returns nil. The guard is Go's `reflect.DeepEqual`; here the two
statuses are compared as values, so a nil slice and an empty one count as equal, and the
document's conditions are the value last assigned (see `MetaCluster`). -/
def UpdateCRStatus (env : Env) (r : Run) : Outcome × Run :=
  if r.c.Cluster.Status = r.c.Status then (.ok, r)
  else
    let newCluster : Cluster := { r.c.Cluster with Status := r.c.Status }
    let r1 : Run := { r with c := { r.c with Cluster := newCluster } }
    let _answer := env.UpdateCluster newCluster.Namespace newCluster
    (.ok, r1.call (.UpdateCluster newCluster.Namespace newCluster))

/-- Modelled from the spec: `k8sutil.IsPodReady`, the readiness reported for a workload. -/
def IsPodReady (pod : Pod) : Bool := pod.Ready

/-- The Go method `(*MetaCluster).updateMemberStatus`: the ready and unready name lists are
recomputed from the running pods. -/
def updateMemberStatus (running : List Pod) (r : Run) : Run :=
  let ready := (running.filter (fun pod => IsPodReady pod)).map Pod.Name
  let unready := (running.filter (fun pod => !IsPodReady pod)).map Pod.Name
  r.setStatus { r.c.Status with Members := { Ready := ready, Unready := unready } }

/-- The Go method `(*MetaCluster).startSeedMember`. -/
def startSeedMember (env : Env) (r : Run) : Outcome × Run :=
  let m : Member :=
    { Name := env.UniqueMemberName r.c.Cluster.Name
      Namespace := r.c.Cluster.Namespace
      ID := 0
      SecurePeer := r.c.isSecurePeer
      SecureClient := r.c.IsSecureClient
      ClusterDomain :=
        match r.c.Cluster.Spec.Pod with
        | some podPolicy => podPolicy.ClusterDomain
        | none => "" }
  let ms : MemberSet := [m]
  match createPod env ms m "new" r with
  | (.ok, r1) =>
    (.ok, (r1.setMembers (some ms)).call (.eventCreate (.NewMemberAddEvent m.Name)))
  | (.err e, r1) =>
    (.err (.errorf ("failed to create seed member (" ++ m.Name ++ "): " ++ e.Error)), r1)
  | res => res

/-- The Go method `(*MetaCluster).bootstrap`. -/
def bootstrap (env : Env) (r : Run) : Outcome × Run := startSeedMember env r

/-- The Go method `(*MetaCluster).prepareSeedMember`. -/
def prepareSeedMember (env : Env) (r : Run) : Outcome × Run :=
  let r1 := r.setStatus (r.c.Status.SetScalingUpCondition env.now 0 r.c.Cluster.Spec.Size)
  match bootstrap env r1 with
  | (.ok, r2) => (.ok, r2.setStatus { r2.c.Status with Size := 1 })
  | res => res

/-- The Go method `(*MetaCluster).create`. -/
def create (env : Env) (r : Run) : Outcome × Run :=
  let r1 := r.setStatus (r.c.Status.SetPhase ClusterPhaseCreating)
  let r2 : Run := { r1 with c := { r1.c with Cluster := r1.c.Cluster.SetDefaults } }
  match UpdateCRStatus env r2 with
  | (.ok, r3) =>
    let r4 : Run :=
      { r3 with c := { r3.c with Cluster := { r3.c.Cluster with Status := r3.c.Status } } }
    prepareSeedMember env r4
  | (.err e, r3) =>
    (.err (.errorf ("cluster create: failed to update cluster phase (" ++ ClusterPhaseCreating
      ++ "): " ++ e.Error)), r3)
  | res => res

/-- The operator secret named by a TLS policy that has a static part. -/
def TLSPolicy.OperatorSecret (tp : Option TLSPolicy) : String :=
  match tp with
  | some p =>
    match p.Static with
    | some s => s.OperatorSecret
    | none => ""
  | none => ""

/-- The part of `Setup` after the switch on the phase: the TLS context, then the creation of
the cluster when it is new. -/
def setupAfterPhase (env : Env) (shouldCreateCluster : Bool) (r : Run) : Outcome × Run :=
  let tls : Outcome × Run :=
    if r.c.IsSecureClient then
      let ns := r.c.Cluster.Namespace
      let secret := TLSPolicy.OperatorSecret r.c.Cluster.Spec.TLS
      let r1 := r.call (.secretGet ns secret)
      match env.GetTLSDataFromSecret ns secret with
      | .error e => (.err e, r1)
      | .ok d =>
        match env.NewTLSConfig d with
        | .error e => (.err e, { r1 with c := { r1.c with tlsConfig := none } })
        | .ok cfg => (.ok, { r1 with c := { r1.c with tlsConfig := some cfg } })
    else (.ok, r)
  match tls with
  | (.ok, r2) => if shouldCreateCluster then create env r2 else (.ok, r2)
  | res => res

/-- The Go method `(*MetaCluster).Setup`. -/
def Setup (env : Env) (r : Run) : Outcome × Run :=
  if r.c.Status.Phase = ClusterPhaseNone then setupAfterPhase env true r
  else if r.c.Status.Phase = ClusterPhaseCreating then (.err .errCreatedCluster, r)
  else if r.c.Status.Phase = ClusterPhaseRunning then setupAfterPhase env false r
  else (.err (.errorf ("unexpected cluster phase: " ++ r.c.Status.Phase)), r)

/-- The Go method `(*MetaCluster).setupServices`. -/
def setupServices (env : Env) (r : Run) : Outcome × Run :=
  let name := r.c.Cluster.Name
  let ns := r.c.Cluster.Namespace
  let r1 := r.call (.CreateClientService name ns)
  match env.CreateClientService name ns with
  | some e => (.err e, r1)
  | none =>
    let r2 := r1.call (.CreatePeerService name ns)
    match env.CreatePeerService name ns with
    | some e => (.err e, r2)
    | none => (.ok, r2)

/-- The loop of `PollPods` over the listed pods, with the lists built so far. -/
def pollLoop (uid : String) : List Pod → List Pod × List Pod → List Pod × List Pod
  | [], acc => acc
  | pod :: rest, (running, pending) =>
    if pod.DeletionTimestamp.isSome then pollLoop uid rest (running, pending)
    else if pod.OwnerReferences.length < 1 then pollLoop uid rest (running, pending)
    else if pod.OwnerReferences.head? ≠ some uid then pollLoop uid rest (running, pending)
    else if pod.Phase = PodRunning then pollLoop uid rest (running ++ [pod], pending)
    else if pod.Phase = PodPending then pollLoop uid rest (running, pending ++ [pod])
    else pollLoop uid rest (running, pending)

/-- The Go method `(*MetaCluster).PollPods`: the running and the pending pods of the cluster,
or the error of the listing. -/
def PollPods (env : Env) (r : Run) : Except Error (List Pod × List Pod) × Run :=
  let ns := r.c.Cluster.Namespace
  let r1 := r.call (.podList ns r.c.Cluster.Name)
  match env.podList ns r.c.Cluster.Name with
  | .error e => (.error (.errorf ("failed to list running pods: " ++ e.Error)), r1)
  | .ok items => (.ok (pollLoop r.c.Cluster.UID items ([], [])), r1)

/-- The loop of `UpdateMembers` over the members listed by the store: the member set built
from them, an error when a peer URL does not yield a name, or a panic (`none`) when a member
has no peer URL. -/
def membersFromList (env : Env) (c : MetaCluster) :
    List EtcdMember → MemberSet → Option (Except Error MemberSet)
  | [], members => some (.ok members)
  | m :: rest, members =>
    match m.PeerURLs.head? with
    | none => none
    | some url =>
      match env.MemberNameFromPeerURL url with
      | .error e =>
        some (.error (.wrap (.fatalError ("invalid member peerURL (" ++ url ++ "): " ++ e.Error))
          "get member name failed"))
      | .ok name =>
        membersFromList env c rest
          (members.Add { Name := name, Namespace := c.Cluster.Namespace, ID := m.ID,
                         SecurePeer := c.isSecurePeer, SecureClient := c.IsSecureClient,
                         ClusterDomain := "" })

/-- The Go method `(*MetaCluster).UpdateMembers` (`member.go`). -/
def UpdateMembers (env : Env) (known : MemberSet) (r : Run) : Outcome × Run :=
  let r1 := r.call (.ListMembers (known.ClientURLs env))
  match env.ListMembers (known.ClientURLs env) with
  | .error e => (.err e, r1)
  | .ok listed =>
    match membersFromList env r1.c listed [] with
    | none => (.panic, r1)
    | some (.error e) => (.err e, r1)
    | some (.ok members) => (.ok, r1.setMembers (some members))

/-- The part of `Check` from the poll on. Every failure is logged and the pass returns nil. -/
def checkFromPoll (env : Env) (r : Run) : Outcome × Run :=
  match PollPods env r with
  | (.error _, r1) => (.ok, r1)
  | (.ok (running, pending), r1) =>
    if pending.length > 0 then (.ok, r1)
    else
      let refreshed : Outcome × Run :=
        if r1.c.Members.isNone then
          UpdateMembers env (PodsToMemberSet running r1.c.IsSecureClient) r1
        else (.ok, r1)
      match refreshed with
      | (.ok, r2) =>
        match reconcile env running r2 with
        | (.ok, r3) => (.ok, (UpdateCRStatus env (updateMemberStatus running r3)).2)
        | (.err _, r3) => (.ok, r3)
        | res => res
      | (.err _, r2) => (.ok, r2)
      | res => res

/-- The Go method `(*EtcdClusterHandler).Check`: one pass on a tracker. -/
def Check (env : Env) (r : Run) : Outcome × Run :=
  if r.c.Cluster.Spec.Paused then (.ok, r.setStatus r.c.Status.PauseControl)
  else checkFromPoll env (r.setStatus r.c.Status.Control)

/-- The body of `if !ok` in `Do`, for a tracker seen for the first time: `Setup`, and in its
error branch the transition to Failed followed, in the same branch, by the set-up of the
services and the transition to Running. -/
def doFirstSeen (env : Env) (r : Run) : Outcome × Run :=
  match Setup env r with
  | (.err err, r1) =>
    let r2 :=
      if r1.c.Status.Phase ≠ ClusterPhaseFailed then
        (UpdateCRStatus env
          (r1.setStatus ((r1.c.Status.SetReason err.Error).SetPhase ClusterPhaseFailed))).2
      else r1
    let r3 := (setupServices env r2).2
    let r4 := r3.setStatus
      { r3.c.Status with ServiceName := env.ClientServiceName r3.c.Cluster.Name,
                         ClientPort := env.EtcdClientPort }
    let r5 := r4.setStatus (r4.c.Status.SetPhase ClusterPhaseRunning)
    (.ok, (UpdateCRStatus env r5).2)
  | res => res

/-- The Go method `(*EtcdClusterHandler).Do`: observe the document through the registry, set
the tracker up when it is new, run one pass. The tracker is held by pointer, so its final
state is the one the registry holds. `Do` itself always returns nil. -/
def Do (env : Env) (cl : Cluster) (h : Handler) : Outcome × Handler :=
  match h.MetaCache.Cache env cl with
  | none => (.panic, h)
  | some (cache, cached) =>
    match cached.tracker with
    | none => (.panic, { h with MetaCache := cache })
    | some t =>
      let key := getNamespaceName cl.Namespace cl.Name
      let r0 : Run := { c := t, log := h.log }
      let first : Outcome × Run := if !cached.existed then doFirstSeen env r0 else (.ok, r0)
      match first with
      | (.panic, r1) => (.panic, { MetaCache := cache.Store key (some r1.c), log := r1.log })
      | (_, r1) =>
        match Check env r1 with
        | (.panic, r2) => (.panic, { MetaCache := cache.Store key (some r2.c), log := r2.log })
        | (_, r2) => (.ok, { MetaCache := cache.Store key (some r2.c), log := r2.log })

/-! ## Predicates and example data used by the statements -/

/-- At most one entry per condition type. -/
def UniquePerType (l : List ClusterCondition) : Prop := (l.map ClusterCondition.Type_).Nodup

instance (l : List ClusterCondition) : Decidable (UniquePerType l) :=
  inferInstanceAs (Decidable (l.map ClusterCondition.Type_).Nodup)

/-- A status in phase Running with a Scaling and an Available condition. -/
def exampleStatus : ClusterStatus :=
  { Phase := ClusterPhaseRunning, Reason := "", ControlPaused := false,
    Conditions :=
      [newClusterCondition "t0" ClusterConditionScaling ConditionTrue "Scaling up" "1 to 3",
       newClusterCondition "t0" ClusterConditionAvailable ConditionTrue "Cluster available" ""],
    Size := 3, ServiceName := "example-client", ClientPort := 2379,
    Members := { Ready := [], Unready := [] }, CurrentVersion := "3.2.13", TargetVersion := "" }

/-- A collaborator environment in which every call succeeds. -/
def exampleEnv : Env :=
  { now := "t1"
    UniqueMemberName := fun clusterName => clusterName ++ "-new"
    PeerURL := fun m => "http://" ++ m.Name ++ ":2380"
    ClientURL := fun m => "http://" ++ m.Name ++ ":2379"
    PVCNameFromMember := fun memberName => memberName
    ImageName := fun repo version => repo ++ ":v" ++ version
    podDelete := fun _ _ => none
    podCreate := fun _ _ _ => none
    podGet := fun ns name =>
      .ok { Name := name, Namespace := ns, DeletionTimestamp := none, OwnerReferences := ["uid-1"],
            Phase := PodRunning, Ready := true, Image := "quay.io/coreos/etcd:v3.1.0",
            EtcdVersion := "3.1.0" }
    CreatePatch := fun _ _ => none
    podPatch := fun _ _ _ => none
    pvcCreate := fun _ _ => none
    pvcDelete := fun _ _ => none
    etcdClientNew := fun _ => none
    MemberAdd := fun _ => .ok 7
    RemoveMember := fun _ _ => none
    eventCreate := fun _ => none
    MaxNameLength := 52
    ClientServiceName := fun clusterName => clusterName ++ "-client"
    EtcdClientPort := 2379
    podList := fun _ _ => .ok []
    UpdateCluster := fun _ _ => none
    ListMembers := fun _ => .ok []
    MemberNameFromPeerURL := fun url => .ok url
    GetTLSDataFromSecret := fun _ _ => .ok { CertData := "cert", KeyData := "key", CAData := "ca" }
    NewTLSConfig := fun _ => .ok "tls"
    CreateClientService := fun _ _ => none
    CreatePeerService := fun _ _ => none }

/-- A member of the example cluster. -/
def exampleMember (name : String) (id : Nat) : Member :=
  { Name := name, Namespace := "default", ID := id, SecurePeer := false, SecureClient := false,
    ClusterDomain := "" }

/-- A running pod of the example cluster with the given recorded version. -/
def examplePod (name version : String) : Pod :=
  { Name := name, Namespace := "default", DeletionTimestamp := none, OwnerReferences := ["uid-1"],
    Phase := PodRunning, Ready := true, Image := "quay.io/coreos/etcd:v" ++ version,
    EtcdVersion := version }

/-- The example tracker: cluster `example` of the given desired size and pod policy, desired
version 3.2.13, with the given membership and an empty call log. -/
def exampleRun (size : Int) (pod : Option PodPolicy) (members : Option MemberSet) : Run :=
  { c :=
      { Name := "example"
        Cluster :=
          { Name := "example", Namespace := "default", ClusterName := "", UID := "uid-1"
            Spec := { Size := size, Repository := "quay.io/coreos/etcd", Version := "3.2.13",
                      Paused := false, Pod := pod, TLS := none, Password := "" }
            Status := exampleStatus }
        Status := exampleStatus
        Members := members
        tlsConfig := none }
    log := [] }

/-- A pod policy with persistent-volume mode enabled. -/
def examplePVPolicy : PodPolicy :=
  { Affinity := none, AntiAffinity := false, PersistentVolumeClaimSpec := some "pvc-spec",
    ClusterDomain := "" }

/-- The admin-API calls that change the membership of the store: member add and member
remove. -/
def Call.isMembershipChange : Call → Bool
  | .MemberAdd _ => true
  | .RemoveMember _ _ => true
  | _ => false

/-- The calls that create a workload: a pod or a volume claim. -/
def Call.isWorkloadCreate : Call → Bool
  | .podCreate _ _ _ _ => true
  | .pvcCreate _ _ => true
  | _ => false

/-- The calls that change something outside the tracker: every admin-API add or remove and
every workload or volume-claim create, delete or patch. -/
def Call.isMutation : Call → Bool
  | .podDelete _ _ => true
  | .podCreate _ _ _ _ => true
  | .podPatch _ _ _ => true
  | .pvcCreate _ _ => true
  | .pvcDelete _ _ => true
  | .MemberAdd _ => true
  | .RemoveMember _ _ => true
  | _ => false

/-- Two name lists differ by at most one name: they are equal, or one name was added, or one
name was removed (never both). -/
def NamesDifferByAtMostOne (before after : List String) : Prop :=
  after = before ∨ (∃ n, n ∉ before ∧ after = before ++ [n]) ∨
    (∃ n, n ∈ before ∧ after = before.filter (fun x => x ≠ n))

/-- At most one membership change between the run `r` and a later run `r1`: the calls made in
between contain at most one admin-API member add or remove, and the member names differ by at
most one name. -/
def AtMostOneMembershipChange (r r1 : Run) : Prop :=
  ∃ ext, r1.log = r.log ++ ext ∧ ext.countP Call.isMembershipChange ≤ 1 ∧
    NamesDifferByAtMostOne r.c.members.names r1.c.members.names

/-- The event that announces the replacement of a dead member; `removeDeadMember` emits it
first, and nothing else does. -/
def Call.isReplacingDeadMember : Call → Bool
  | .eventCreate (.ReplacingDeadMemberEvent _) => true
  | _ => false

/-- The calls made between the run `r` and the later run `r1`. -/
def Run.callsSince (r1 r : Run) : List Call := r1.log.drop r.log.length

/-- Whether `reconcileMembers running`, started in `r`, reaches its third branch, the
dead-member removal: it is the only branch that announces the replacement of a dead member. -/
def ReachesDeadMemberRemoval (env : Env) (running : MemberSet) (r : Run) : Bool :=
  ((reconcileMembers env running r).2.callsSince r).any Call.isReplacingDeadMember

/-- Between `r` and `r1` only calls outside the class `P` were made. -/
def OnlyCallsOutside (P : Call → Bool) (r r1 : Run) : Prop :=
  ∃ ext, r1.log = r.log ++ ext ∧ ∀ k ∈ ext, P k = false

/-- Three members `a`, `b`, `c` with store ids 1, 2, 3. -/
def exampleMembers3 : MemberSet :=
  [exampleMember "a" 1, exampleMember "b" 2, exampleMember "c" 3]

/-- Five members `a` to `e` with store ids 1 to 5. -/
def exampleMembers5 : MemberSet :=
  [exampleMember "a" 1, exampleMember "b" 2, exampleMember "c" 3, exampleMember "d" 4,
   exampleMember "e" 5]

/-- In the list of calls `ext`, in the order in which they were made, every workload create
(pod or volume claim) comes after a member-add call that the store answered with success. -/
def CreatesFollowRegistration (env : Env) (ext : List Call) : Prop :=
  ∀ pre k post, ext = pre ++ k :: post → k.isWorkloadCreate = true →
    ∃ urls id, Call.MemberAdd urls ∈ pre ∧ env.MemberAdd urls = .ok id

/-- Whether `reconcile pods`, started in `r`, takes the upgrade path: the shapes match (the
running set equals the membership by name and the membership has the desired size), and
`needUpgrade` holds. -/
def TakesUpgradePath (pods : List Pod) (r : Run) : Bool :=
  (PodsToMemberSet pods r.c.IsSecureClient).IsEqual r.c.members &&
    decide ((r.c.members.Size : Int) = r.c.Cluster.Spec.Size) &&
    needUpgrade pods r.c.Cluster.Spec

/-- The example environment, except that looking up a pod fails. -/
def exampleEnvGetFails : Env :=
  { exampleEnv with podGet := fun _ _ => .error (.other "context deadline exceeded") }

/-- A listed pod that `PollPods` keeps: not marked for deletion, with at least one owner
reference, the first of which is the cluster with the given UID. -/
def keptByPoll (uid : String) (pod : Pod) : Bool :=
  pod.DeletionTimestamp.isNone && decide (1 ≤ pod.OwnerReferences.length) &&
    decide (pod.OwnerReferences.head? = some uid)

/-- The stored document of the example cluster. -/
def exampleCluster : Cluster := (exampleRun 3 none (some exampleMembers3)).c.Cluster

/-- The example environment, except that the poll returns the given pods. -/
def exampleEnvPolling (items : List Pod) : Env :=
  { exampleEnv with podList := fun _ _ => .ok items }

/-- A handler whose registry holds the example tracker (three members) under its key. -/
def exampleHandler : Handler :=
  { MetaCache := [("default/example", some (exampleRun 3 none (some exampleMembers3)).c)],
    log := [] }

/-- A document seen for the first time while its status says Creating. -/
def exampleCreatingCluster : Cluster :=
  { exampleCluster with
    Status := { exampleStatus with Phase := ClusterPhaseCreating, Conditions := [] } }

/-- A document whose name is 62 bytes long, more than the 52 bytes the example environment
allows. -/
def exampleLongNameCluster : Cluster :=
  { exampleCluster with
    Name := "a-cluster-name-that-is-longer-than-the-fifty-two-bytes-allowed" }

/-- The calls that write the stored document (and with it the status) back. -/
def Call.isUpdateCluster : Call → Bool
  | .UpdateCluster _ _ => true
  | _ => false

/-- The calls that create a pod. -/
def Call.isPodCreate : Call → Bool
  | .podCreate _ _ _ _ => true
  | _ => false

/-- Whether `reconcileMembers running`, started in `r`, takes its third branch: the unknown
pods were deleted without error, the number of known running members differs from the size
of the membership, and quorum is not lost. On this path the code evaluates
`c.Members.Diff(L).PickOne()` and calls `removeDeadMember`. -/
def TakesDeadMemberBranch (env : Env) (running : MemberSet) (r : Run) : Bool :=
  decide ((removeUnknownPods env (running.Diff r.c.members) r).1 = .ok) &&
    decide ((running.Diff (running.Diff r.c.members)).Size ≠ r.c.members.Size) &&
    decide (¬ (running.Diff (running.Diff r.c.members)).Size < r.c.members.Size / 2 + 1)

/-! ## Theorems -/

theorem getClusterConditionFrom_eq (t : ClusterConditionType) (l : List ClusterCondition) (i : Nat) :
    getClusterConditionFrom t i l =
      match l.find? (fun x => decide (t = x.Type_)) with
      | some x => (((i + l.findIdx (fun x => decide (t = x.Type_)) : Nat) : Int), some x)
      | none => (-1, none) := by
  induction l generalizing i with
  | nil => simp [getClusterConditionFrom]
  | cons x xs ih =>
    by_cases h : t = x.Type_
    · simp [getClusterConditionFrom, h, List.findIdx_cons]
    · simp [getClusterConditionFrom, h, List.findIdx_cons, ih]
      cases hf : List.find? (fun x => decide (t = x.Type_)) xs with
      | none => simp
      | some y => simp; omega

theorem filter_set_of_not (p : ClusterCondition → Bool) (l : List ClusterCondition) (i : Nat)
    (c : ClusterCondition) (hi : ∀ h : i < l.length, p (l.get ⟨i, h⟩) = false) (hc : p c = false) :
    (l.set i c).filter p = l.filter p := by
  induction l generalizing i with
  | nil => simp
  | cons x xs ih =>
    cases i with
    | zero =>
      have hx : p x = false := by simpa using hi (by simp)
      simp [List.filter_cons, hx, hc]
    | succ j =>
      have := ih j (fun h => by simpa using hi (by simpa using h))
      simp [List.filter_cons, this]

theorem findIdx_type_spec (t : ClusterConditionType) (l : List ClusterCondition) (cp : ClusterCondition)
    (h : l.find? (fun x => decide (t = x.Type_)) = some cp) :
    ∃ hlt : l.findIdx (fun x => decide (t = x.Type_)) < l.length,
      l.get ⟨l.findIdx (fun x => decide (t = x.Type_)), hlt⟩ = cp ∧ cp.Type_ = t := by
  induction l with
  | nil => simp at h
  | cons x xs ih =>
    by_cases hx : t = x.Type_
    · simp [hx] at h
      subst h
      simp [List.findIdx_cons, hx]
    · simp [hx] at h
      obtain ⟨hlt, h1, h2⟩ := ih h
      have hidx : List.findIdx (fun x => decide (t = x.Type_)) (x :: xs) =
          List.findIdx (fun x => decide (t = x.Type_)) xs + 1 := by
        simp [List.findIdx_cons, hx]
      refine ⟨by rw [hidx]; simpa using hlt, ?_, h2⟩
      simp only [hidx]
      simpa using h1

theorem setClusterCondition_spec (cs : ClusterStatus) (c : ClusterCondition) :
    let p := fun x : ClusterCondition => decide (c.Type_ = x.Type_)
    let other := fun x : ClusterCondition => decide (x.Type_ ≠ c.Type_)
    let out := cs.setClusterCondition c
    out = { cs with Conditions := out.Conditions } ∧
    (∀ cp, cs.Conditions.find? p = some cp →
      (cp.Status = c.Status ∧ cp.Reason = c.Reason ∧ cp.Message = c.Message → out = cs) ∧
      (¬ (cp.Status = c.Status ∧ cp.Reason = c.Reason ∧ cp.Message = c.Message) →
        cs.Conditions.findIdx p < cs.Conditions.length ∧
        out.Conditions = cs.Conditions.set (cs.Conditions.findIdx p) c)) ∧
    (cs.Conditions.find? p = none → out.Conditions = cs.Conditions ++ [c]) ∧
    out.Conditions.filter other = cs.Conditions.filter other := by
  intro p other out
  have hg := getClusterConditionFrom_eq c.Type_ cs.Conditions 0
  cases hf : cs.Conditions.find? p with
  | none =>
    have hout : out = { cs with Conditions := cs.Conditions ++ [c] } := by
      simp only [out, ClusterStatus.setClusterCondition, getClusterCondition, hg]
      simp only [p] at hf
      simp [hf]
    refine ⟨by rw [hout], by simp, fun _ => by rw [hout], ?_⟩
    rw [hout]
    simp [other, List.filter_append]
  | some cp =>
    obtain ⟨hlt, hget, hty⟩ := findIdx_type_spec c.Type_ cs.Conditions cp hf
    by_cases hs : cp.Status = c.Status ∧ cp.Reason = c.Reason ∧ cp.Message = c.Message
    · have hout : out = cs := by
        simp only [out, ClusterStatus.setClusterCondition, getClusterCondition, hg]
        simp only [p] at hf
        simp [hf, hs]
      refine ⟨by rw [hout], ?_, by simp, by rw [hout]⟩
      intro cp2 h2
      cases h2
      exact ⟨fun _ => hout, fun h => absurd hs h⟩
    · have hout : out = { cs with Conditions := cs.Conditions.set (cs.Conditions.findIdx p) c } := by
        simp only [out, ClusterStatus.setClusterCondition, getClusterCondition, hg]
        simp only [p] at hf
        simp [hf, hs]
      refine ⟨by rw [hout], ?_, by simp, ?_⟩
      · intro cp2 h2
        cases h2
        exact ⟨fun h => absurd h hs, fun _ => ⟨hlt, by rw [hout]⟩⟩
      · rw [hout]
        apply filter_set_of_not
        · intro h
          have : cs.Conditions.get ⟨cs.Conditions.findIdx p, h⟩ = cp := hget
          rw [this]
          simp [other, hty]
        · simp [other]

/-- C9. For every status and every condition c, `setClusterCondition c` is an upsert by type:
if the first (the existing) entry of c's type has the same status, reason and message, the
status is left exactly unchanged, timestamps included; otherwise, if an entry of c's type
exists, the conditions list is the same list with that entry replaced by c at the same
position; otherwise it is the old list with c appended at the end. In all cases no other
status field changes and the entries of every other type are unchanged, in their order. -/
theorem setClusterCondition_upsert (cs : ClusterStatus) (c : ClusterCondition) :
    let p := fun x : ClusterCondition => decide (c.Type_ = x.Type_)
    let other := fun x : ClusterCondition => decide (x.Type_ ≠ c.Type_)
    let out := cs.setClusterCondition c
    out = { cs with Conditions := out.Conditions } ∧
    (∀ cp, cs.Conditions.find? p = some cp →
      (cp.Status = c.Status ∧ cp.Reason = c.Reason ∧ cp.Message = c.Message → out = cs) ∧
      (¬ (cp.Status = c.Status ∧ cp.Reason = c.Reason ∧ cp.Message = c.Message) →
        cs.Conditions.findIdx p < cs.Conditions.length ∧
        out.Conditions = cs.Conditions.set (cs.Conditions.findIdx p) c)) ∧
    (cs.Conditions.find? p = none → out.Conditions = cs.Conditions ++ [c]) ∧
    out.Conditions.filter other = cs.Conditions.filter other :=
  setClusterCondition_spec cs c

theorem map_type_set (l : List ClusterCondition) (i : Nat) (c : ClusterCondition)
    (hi : ∀ h : i < l.length, (l.get ⟨i, h⟩).Type_ = c.Type_) :
    (l.set i c).map ClusterCondition.Type_ = l.map ClusterCondition.Type_ := by
  induction l generalizing i with
  | nil => simp
  | cons x xs ih =>
    cases i with
    | zero =>
      have hx : x.Type_ = c.Type_ := by simpa using hi (by simp)
      simp [hx]
    | succ j =>
      have := ih j (fun h => by simpa using hi (by simpa using h))
      simp [this]

theorem clear_list_eq_filter (t : ClusterConditionType) (l : List ClusterCondition)
    (hu : UniquePerType l) (cp : ClusterCondition)
    (hf : l.find? (fun x => decide (t = x.Type_)) = some cp) :
    l.take (l.findIdx (fun x => decide (t = x.Type_))) ++
        l.drop (l.findIdx (fun x => decide (t = x.Type_)) + 1) =
      l.filter (fun x => decide (x.Type_ ≠ t)) := by
  induction l with
  | nil => simp at hf
  | cons x xs ih =>
    have hu2 : UniquePerType xs := by
      unfold UniquePerType at hu ⊢
      rw [List.map_cons, List.nodup_cons] at hu
      exact hu.2
    by_cases hx : t = x.Type_
    · have hnot : ∀ y ∈ xs, y.Type_ ≠ t := by
        intro y hy hyt
        unfold UniquePerType at hu
        rw [List.map_cons, List.nodup_cons] at hu
        apply hu.1
        rw [← hx, ← hyt]
        exact List.mem_map_of_mem _ hy
      have hfil : xs.filter (fun x => decide (x.Type_ ≠ t)) = xs := by
        rw [List.filter_eq_self]
        intro y hy
        simpa using hnot y hy
      simp [List.findIdx_cons, hx, List.filter_cons]
      simpa [hx] using hfil.symm
    · have hx2 : x.Type_ ≠ t := fun h => hx h.symm
      simp [hx] at hf
      have := ih hu2 hf
      simp [List.findIdx_cons, hx, List.filter_cons, hx2]
      simpa using this

theorem find_none_iff (t : ClusterConditionType) (l : List ClusterCondition) :
    l.find? (fun x => decide (t = x.Type_)) = none ↔ ∀ x ∈ l, x.Type_ ≠ t := by
  simp [List.find?_eq_none]
  constructor
  · intro h x hx e; exact h x hx e.symm
  · intro h x hx e; exact h x hx e.symm

theorem ClearCondition_eq (cs : ClusterStatus) (t : ClusterConditionType)
    (hu : UniquePerType cs.Conditions) :
    cs.ClearCondition t =
      { cs with Conditions := cs.Conditions.filter (fun x => decide (x.Type_ ≠ t)) } := by
  have hg := getClusterConditionFrom_eq t cs.Conditions 0
  cases hf : cs.Conditions.find? (fun x => decide (t = x.Type_)) with
  | none =>
    have hnot := (find_none_iff t cs.Conditions).mp hf
    have hfil : cs.Conditions.filter (fun x => decide (x.Type_ ≠ t)) = cs.Conditions := by
      rw [List.filter_eq_self]
      intro y hy
      simpa using hnot y hy
    rw [hfil]
    simp [ClusterStatus.ClearCondition, getClusterCondition, hg, hf]
  | some cp =>
    have := clear_list_eq_filter t cs.Conditions hu cp hf
    simp only [ClusterStatus.ClearCondition, getClusterCondition, hg, hf]
    have hne : ¬ (((0 + List.findIdx (fun x => decide (t = x.Type_)) cs.Conditions : Nat) : Int) = -1) := by
      omega
    simp only [hne, if_false]
    simp
    simpa using this

theorem setClusterCondition_unique (cs : ClusterStatus) (c : ClusterCondition)
    (hu : UniquePerType cs.Conditions) : UniquePerType (cs.setClusterCondition c).Conditions := by
  have hg := getClusterConditionFrom_eq c.Type_ cs.Conditions 0
  cases hf : cs.Conditions.find? (fun x => decide (c.Type_ = x.Type_)) with
  | none =>
    have hnot := (find_none_iff c.Type_ cs.Conditions).mp hf
    simp only [ClusterStatus.setClusterCondition, getClusterCondition, hg, hf]
    unfold UniquePerType at hu ⊢
    simp only [List.map_append, List.map_cons, List.map_nil]
    rw [List.nodup_append]
    refine ⟨hu, by simp, ?_⟩
    intro a ha hb
    simp at hb
    obtain ⟨y, hy, rfl⟩ := List.mem_map.mp ha
    exact hnot y hy hb
  | some cp =>
    obtain ⟨hlt, hget, hty⟩ := findIdx_type_spec c.Type_ cs.Conditions cp hf
    simp only [ClusterStatus.setClusterCondition, getClusterCondition, hg, hf]
    split
    · exact hu
    · unfold UniquePerType at hu ⊢
      simp only [Int.toNat_ofNat, Nat.zero_add]
      rw [map_type_set]
      · exact hu
      · intro h
        have : cs.Conditions.get ⟨_, h⟩ = cp := hget
        rw [this, hty]

theorem filter_unique (l : List ClusterCondition) (p : ClusterCondition → Bool)
    (hu : UniquePerType l) : UniquePerType (l.filter p) := by
  unfold UniquePerType at hu ⊢
  exact hu.sublist ((List.filter_sublist l).map _)

/-- C10. Uniqueness per condition type is an invariant of the status: it is preserved by
`setClusterCondition`, by every `Set...Condition` operation and by `ClearCondition`; and under
it `ClearCondition t` leaves no entry of type `t`, keeps exactly the other entries in their
order (all other status fields unchanged), and is a no-op when no entry has type `t`. -/
theorem conditions_unique_per_type_invariant (cs : ClusterStatus) (c : ClusterCondition)
    (t : ClusterConditionType) (now toVersion : String) (fromSize toSize : Int)
    (hu : UniquePerType cs.Conditions) :
    UniquePerType (cs.setClusterCondition c).Conditions ∧
    UniquePerType (cs.SetScalingUpCondition now fromSize toSize).Conditions ∧
    UniquePerType (cs.SetScalingDownCondition now fromSize toSize).Conditions ∧
    UniquePerType (cs.SetRecoveringCondition now).Conditions ∧
    UniquePerType (cs.SetUpgradingCondition now toVersion).Conditions ∧
    UniquePerType (cs.SetReadyCondition now).Conditions ∧
    UniquePerType (cs.ClearCondition t).Conditions ∧
    (∀ x ∈ (cs.ClearCondition t).Conditions, x.Type_ ≠ t) ∧
    cs.ClearCondition t =
      { cs with Conditions := cs.Conditions.filter (fun x => decide (x.Type_ ≠ t)) } ∧
    ((∀ x ∈ cs.Conditions, x.Type_ ≠ t) → cs.ClearCondition t = cs) := by
  have hclear : ∀ (s : ClusterStatus) (u : ClusterConditionType), UniquePerType s.Conditions →
      UniquePerType (s.ClearCondition u).Conditions := by
    intro s u hs
    rw [ClearCondition_eq s u hs]
    exact filter_unique _ _ hs
  refine ⟨setClusterCondition_unique cs c hu, setClusterCondition_unique cs _ hu,
    setClusterCondition_unique cs _ hu, ?_, setClusterCondition_unique cs _ hu,
    setClusterCondition_unique cs _ hu, hclear cs t hu, ?_, ClearCondition_eq cs t hu, ?_⟩
  · exact hclear _ _ (setClusterCondition_unique cs _ hu)
  · rw [ClearCondition_eq cs t hu]
    intro x hx
    simpa using (List.mem_filter.mp hx).2
  · intro hnot
    rw [ClearCondition_eq cs t hu]
    have hfil : cs.Conditions.filter (fun x => decide (x.Type_ ≠ t)) = cs.Conditions := by
      rw [List.filter_eq_self]
      intro y hy
      simpa using hnot y hy
    rw [hfil]

/-- Witness of C10: a status with a Scaling and an Available condition. -/
theorem conditions_unique_per_type_invariant_witness :
    UniquePerType exampleStatus.Conditions ∧
    (exampleStatus.ClearCondition ClusterConditionScaling).Conditions =
      [newClusterCondition "t0" ClusterConditionAvailable ConditionTrue "Cluster available" ""] :=
  ⟨by decide,
   by
    have h := (conditions_unique_per_type_invariant exampleStatus
      (newClusterCondition "t1" ClusterConditionAvailable ConditionTrue "Cluster available" "")
      ClusterConditionScaling "t1" "3.2.13" 1 3 (by decide)).2.2.2.2.2.2.2.2.1
    rw [h]
    decide⟩

/-! ### Effects of the leaf operations -/

theorem removePod_run (env : Env) (name : String) (r : Run) :
    (removePod env name r).2 = r.call (.podDelete r.c.Cluster.Namespace name) := by
  unfold removePod
  dsimp only
  split
  · split <;> rfl
  · rfl

theorem removePod_ne_panic (env : Env) (name : String) (r : Run) :
    (removePod env name r).1 ≠ .panic := by
  unfold removePod
  dsimp only
  split
  · split <;> simp
  · simp

theorem removePVC_run (env : Env) (name : String) (r : Run) :
    (removePVC env name r).2 = r.call (.pvcDelete r.c.Cluster.Namespace name) := by
  unfold removePVC
  dsimp only
  split
  · split <;> rfl
  · rfl

theorem removePVC_ne_panic (env : Env) (name : String) (r : Run) :
    (removePVC env name r).1 ≠ .panic := by
  unfold removePVC
  dsimp only
  split
  · split <;> simp
  · simp

theorem createPod_c (env : Env) (members : MemberSet) (m : Member) (state : String) (r : Run) :
    (createPod env members m state r).2.c = r.c := by
  unfold createPod
  dsimp only
  split
  · split
    · rfl
    · split <;> rfl
  · split <;> rfl

theorem createPod_ne_panic (env : Env) (members : MemberSet) (m : Member) (state : String)
    (r : Run) : (createPod env members m state r).1 ≠ .panic := by
  unfold createPod
  dsimp only
  split
  · split
    · simp
    · split <;> simp
  · split <;> simp

theorem createPod_log (env : Env) (members : MemberSet) (m : Member) (state : String) (r : Run) :
    ∃ ext, (createPod env members m state r).2.log = r.log ++ ext ∧
      ∀ k ∈ ext, k.isWorkloadCreate = true := by
  unfold createPod
  dsimp only
  split
  · split
    · exact ⟨[_], rfl, by simp [Call.isWorkloadCreate]⟩
    · split <;>
        exact ⟨[Call.pvcCreate r.c.Cluster.Namespace m,
          Call.podCreate r.c.Cluster.Namespace m (members.PeerURLPairs env) state], by simp [Run.call],
          by simp [Call.isWorkloadCreate]⟩
  · split <;> exact ⟨[_], rfl, by simp [Call.isWorkloadCreate]⟩

theorem removeUnknownPods_c (env : Env) (ms : List Member) (r : Run) :
    (removeUnknownPods env ms r).2.c = r.c := by
  induction ms generalizing r with
  | nil => rfl
  | cons m ms ih =>
    unfold removeUnknownPods
    have h2 := removePod_run env m.Name r
    cases hp : removePod env m.Name r with
    | mk o r1 =>
      rw [hp] at h2
      simp only at h2
      cases o with
      | ok => simp only; rw [ih, h2]; rfl
      | err e => simp only; rw [h2]; rfl
      | panic => simp only; rw [h2]; rfl

theorem removeUnknownPods_log (env : Env) (ms : List Member) (r : Run) :
    ∃ ext, (removeUnknownPods env ms r).2.log = r.log ++ ext ∧
      ∀ k ∈ ext, ∃ name, k = Call.podDelete r.c.Cluster.Namespace name := by
  induction ms generalizing r with
  | nil => exact ⟨[], by simp [removeUnknownPods], by simp⟩
  | cons m ms ih =>
    unfold removeUnknownPods
    have h2 := removePod_run env m.Name r
    cases hp : removePod env m.Name r with
    | mk o r1 =>
      rw [hp] at h2
      simp only at h2
      cases o with
      | ok =>
        simp only
        obtain ⟨ext, h1, h3⟩ := ih r1
        refine ⟨Call.podDelete r.c.Cluster.Namespace m.Name :: ext, ?_, ?_⟩
        · rw [h1, h2]; simp [Run.call]
        · intro k hk
          rcases List.mem_cons.mp hk with rfl | hk
          · exact ⟨_, rfl⟩
          · have := h3 k hk
            rw [h2] at this
            exact this
      | err e => exact ⟨[_], by simp only; rw [h2]; rfl, by simp⟩
      | panic => exact ⟨[_], by simp only; rw [h2]; rfl, by simp⟩

theorem removeMemberDeferred_run (m : Member) (x : Outcome × Run) :
    (removeMemberDeferred m x).2 = x.2 := by
  obtain ⟨o, r⟩ := x
  cases o <;> rfl

theorem removeMemberDeferred_ne_lostQuorum (m : Member) (x : Outcome × Run) :
    (removeMemberDeferred m x).1 ≠ .err .ErrLostQuorum := by
  obtain ⟨o, r⟩ := x
  cases o <;> simp [removeMemberDeferred]

/-- The runs in which `removeMember` can end: after the refused admin call, after the workload
delete, or after the volume-claim delete. -/
theorem removeMember_run (env : Env) (m : Member) (r : Run) :
    let r1 := r.call (.RemoveMember (r.c.members.ClientURLs env) m.ID)
    let r3 := (r1.setMembers (r1.c.Members.map (fun ms => ms.Remove m.Name))).call
      (.eventCreate (.MemberRemoveEvent m.Name))
    let r4 := r3.call (.podDelete r.c.Cluster.Namespace m.Name)
    (removeMember env (some m) r).2 = r1 ∨ (removeMember env (some m) r).2 = r4 ∨
      (removeMember env (some m) r).2 = r4.call
        (.pvcDelete r.c.Cluster.Namespace (env.PVCNameFromMember m.Name)) := by
  intro r1 r3 r4
  have hrest : ∀ x : Outcome × Run,
      x = (match removePod env m.Name r3 with
        | (.ok, r4) =>
          if r4.c.isPodPVEnabled then removePVC env (env.PVCNameFromMember m.Name) r4
          else (.ok, r4)
        | res => res) →
      x.2 = r4 ∨ x.2 = r4.call (.pvcDelete r.c.Cluster.Namespace (env.PVCNameFromMember m.Name)) := by
    intro x hx
    have h2 := removePod_run env m.Name r3
    cases hp : removePod env m.Name r3 with
    | mk o q =>
      rw [hp] at h2 hx
      simp only at h2
      subst h2
      cases o with
      | ok =>
        simp only at hx
        split at hx
        · right; rw [hx, removePVC_run]; rfl
        · left; rw [hx]; rfl
      | err e => left; rw [hx]; rfl
      | panic => left; rw [hx]; rfl
  unfold removeMember
  simp only [removeMemberDeferred_run]
  split
  · split
    · right; exact hrest _ rfl
    · left; rfl
  · right; exact hrest _ rfl

theorem names_Remove (ms : MemberSet) (name : String) :
    (ms.Remove name).names = ms.names.filter (fun x => x ≠ name) := by
  unfold MemberSet.Remove MemberSet.names
  induction ms with
  | nil => rfl
  | cons x xs ih =>
    by_cases h : x.Name = name <;> simp [List.filter_cons, h] <;> simpa using ih

theorem names_Add (ms : MemberSet) (m : Member) :
    (ms.Add m).names = if m.Name ∈ ms.names then ms.names else ms.names ++ [m.Name] := by
  have hhas : ms.has m.Name = true ↔ m.Name ∈ ms.names := by
    simp [MemberSet.has, MemberSet.names]
  unfold MemberSet.Add
  by_cases h : ms.has m.Name = true
  · rw [if_pos h, if_pos (hhas.mp h)]
    unfold MemberSet.names
    rw [List.map_map]
    apply List.map_congr_left
    intro x _
    by_cases hx : x.Name = m.Name <;> simp [hx]
  · rw [if_neg h, if_neg (fun hh => h (hhas.mpr hh))]
    simp [MemberSet.names]

theorem namesDiffer_filter (l : List String) (n : String) :
    NamesDifferByAtMostOne l (l.filter (fun x => x ≠ n)) := by
  by_cases h : n ∈ l
  · exact Or.inr (Or.inr ⟨n, h, rfl⟩)
  · left
    rw [List.filter_eq_self]
    intro a ha
    simp
    rintro rfl
    exact h ha

theorem members_names_Remove (c : MetaCluster) (name : String) :
    (({ c with Members := c.Members.map (fun ms => ms.Remove name) } : MetaCluster).members).names =
      c.members.names.filter (fun x => x ≠ name) := by
  unfold MetaCluster.members
  cases c.Members with
  | none => simp [MemberSet.names]
  | some ms => simpa using names_Remove ms name

theorem removeMember_change (env : Env) (t : Option Member) (r : Run) :
    AtMostOneMembershipChange r (removeMember env t r).2 := by
  cases t with
  | none => exact ⟨[], by simp [removeMember], by simp, Or.inl rfl⟩
  | some m =>
    rcases removeMember_run env m r with h | h | h <;> rw [h]
    · exact ⟨[_], rfl, by simp [Call.isMembershipChange], Or.inl rfl⟩
    · refine ⟨[.RemoveMember (r.c.members.ClientURLs env) m.ID,
        .eventCreate (.MemberRemoveEvent m.Name), .podDelete r.c.Cluster.Namespace m.Name],
        by simp [Run.call, Run.setMembers], by simp [Call.isMembershipChange], ?_⟩
      simp only [Run.call, Run.setMembers]
      rw [members_names_Remove]
      exact namesDiffer_filter _ _
    · refine ⟨[.RemoveMember (r.c.members.ClientURLs env) m.ID,
        .eventCreate (.MemberRemoveEvent m.Name), .podDelete r.c.Cluster.Namespace m.Name,
        .pvcDelete r.c.Cluster.Namespace (env.PVCNameFromMember m.Name)],
        by simp [Run.call, Run.setMembers], by simp [Call.isMembershipChange], ?_⟩
      simp only [Run.call, Run.setMembers]
      rw [members_names_Remove]
      exact namesDiffer_filter _ _

/-! ### Bookkeeping of runs -/

@[simp] theorem Run.call_c (r : Run) (k : Call) : (r.call k).c = r.c := rfl

@[simp] theorem Run.call_log (r : Run) (k : Call) : (r.call k).log = r.log ++ [k] := rfl

@[simp] theorem Run.setStatus_log (r : Run) (st : ClusterStatus) : (r.setStatus st).log = r.log :=
  rfl

@[simp] theorem Run.setStatus_Members (r : Run) (st : ClusterStatus) :
    (r.setStatus st).c.Members = r.c.Members := rfl

@[simp] theorem Run.setStatus_members (r : Run) (st : ClusterStatus) :
    (r.setStatus st).c.members = r.c.members := rfl

@[simp] theorem Run.setStatus_Cluster (r : Run) (st : ClusterStatus) :
    (r.setStatus st).c.Cluster = r.c.Cluster := rfl

@[simp] theorem Run.setStatus_Status (r : Run) (st : ClusterStatus) :
    (r.setStatus st).c.Status = st := rfl

@[simp] theorem Run.setStatus_isPodPVEnabled (r : Run) (st : ClusterStatus) :
    (r.setStatus st).c.isPodPVEnabled = r.c.isPodPVEnabled := rfl

@[simp] theorem Run.setMembers_log (r : Run) (ms : Option MemberSet) :
    (r.setMembers ms).log = r.log := rfl

@[simp] theorem Run.setMembers_Members (r : Run) (ms : Option MemberSet) :
    (r.setMembers ms).c.Members = ms := rfl

@[simp] theorem Run.setMembers_Cluster (r : Run) (ms : Option MemberSet) :
    (r.setMembers ms).c.Cluster = r.c.Cluster := rfl

@[simp] theorem Run.setMembers_Status (r : Run) (ms : Option MemberSet) :
    (r.setMembers ms).c.Status = r.c.Status := rfl

@[simp] theorem Run.setMembers_isPodPVEnabled (r : Run) (ms : Option MemberSet) :
    (r.setMembers ms).c.isPodPVEnabled = r.c.isPodPVEnabled := rfl

@[simp] theorem Run.setMembers_some_members (r : Run) (ms : MemberSet) :
    (r.setMembers (some ms)).c.members = ms := rfl

theorem namesDiffer_Add (ms : MemberSet) (m : Member) :
    NamesDifferByAtMostOne ms.names (ms.Add m).names := by
  rw [names_Add]
  by_cases h : m.Name ∈ ms.names
  · rw [if_pos h]; exact Or.inl rfl
  · rw [if_neg h]; exact Or.inr (Or.inl ⟨m.Name, h, rfl⟩)

/-- The Go method `addOneMember`, with every intermediate run written out from the run it
starts in. -/
theorem addOneMember_eq (env : Env) (r : Run) :
    addOneMember env r =
      (let c1 : MetaCluster :=
        { r.c with Status :=
            r.c.Status.SetScalingUpCondition env.now r.c.members.Size r.c.Cluster.Spec.Size }
      let cn := Call.etcdClientNew (r.c.members.ClientURLs env)
      let ma := Call.MemberAdd [env.PeerURL (r.c.newMember env)]
      match env.etcdClientNew (r.c.members.ClientURLs env) with
      | some e =>
        (.err (.errorf ("add one member failed: creating etcd client failed " ++ e.Error)),
          { c := c1, log := r.log ++ [cn] })
      | none =>
        match env.MemberAdd [env.PeerURL (r.c.newMember env)] with
        | .error e =>
          (.err (.errorf ("fail to add new member (" ++ (r.c.newMember env).Name ++ "): "
            ++ e.Error)), { c := c1, log := r.log ++ [cn] ++ [ma] })
        | .ok id =>
          match r.c.Members with
          | none => (.panic, { c := c1, log := r.log ++ [cn] ++ [ma] })
          | some ms =>
            let nm : Member := { r.c.newMember env with ID := id }
            match createPod env (ms.Add nm) nm "existing"
                { c := { c1 with Members := some (ms.Add nm) }, log := r.log ++ [cn] ++ [ma] } with
            | (.ok, r5) => (.ok, r5.call (.eventCreate (.NewMemberAddEvent nm.Name)))
            | (.err e, r5) =>
              (.err (.errorf ("fail to create member's pod (" ++ nm.Name ++ "): " ++ e.Error)),
                r5)
            | res => res) := by
  rfl

theorem addOneMember_change (env : Env) (r : Run) :
    AtMostOneMembershipChange r (addOneMember env r).2 := by
  rw [addOneMember_eq]
  dsimp only
  split
  · exact ⟨[_], rfl, by simp [Call.isMembershipChange], Or.inl rfl⟩
  · split
    · exact ⟨[.etcdClientNew (r.c.members.ClientURLs env),
        .MemberAdd [env.PeerURL (r.c.newMember env)]], by simp,
        by simp [Call.isMembershipChange], Or.inl rfl⟩
    · rename_i id hadd
      split
      · exact ⟨[.etcdClientNew (r.c.members.ClientURLs env),
          .MemberAdd [env.PeerURL (r.c.newMember env)]], by simp,
          by simp [Call.isMembershipChange], Or.inl rfl⟩
      · rename_i ms hms
        have hmem : r.c.members = ms := by simp [MetaCluster.members, hms]
        generalize hnm : ({ (MetaCluster.newMember env r.c) with ID := id } : Member) = nm
        generalize hr4 : (Run.mk _ _) = r4
        have hc := createPod_c env (ms.Add nm) nm "existing" r4
        obtain ⟨ext, hlog, hwc⟩ := createPod_log env (ms.Add nm) nm "existing" r4
        have hext : ∀ k ∈ ext, k.isMembershipChange = false := by
          intro k hk
          have := hwc k hk
          cases k <;> simp_all [Call.isWorkloadCreate, Call.isMembershipChange]
        have hcount : ext.countP Call.isMembershipChange = 0 := by
          rw [List.countP_eq_zero]
          intro k hk
          simp [hext k hk]
        have hr4log : r4.log = r.log ++ [.etcdClientNew (r.c.members.ClientURLs env),
            .MemberAdd [env.PeerURL (r.c.newMember env)]] := by
          rw [← hr4]; simp
        have hr4mem : r4.c.members = ms.Add nm := by rw [← hr4]; rfl
        have hnames : NamesDifferByAtMostOne r.c.members.names (ms.Add nm).names := by
          rw [hmem]; exact namesDiffer_Add ms nm
        cases hcp : createPod env (ms.Add nm) nm "existing" r4 with
        | mk o r5 =>
          rw [hcp] at hc hlog
          simp only at hc hlog
          cases o with
          | ok =>
            refine ⟨[.etcdClientNew (r.c.members.ClientURLs env),
              .MemberAdd [env.PeerURL (r.c.newMember env)]] ++ ext ++
              [.eventCreate (.NewMemberAddEvent nm.Name)], ?_, ?_, ?_⟩
            · simp [hlog, hr4log, ← hnm]
            · simp [List.countP_append, hcount, List.countP_cons, Call.isMembershipChange]
            · simp only [Run.call_c, hc, hr4mem]; exact hnames
          | err e =>
            refine ⟨[.etcdClientNew (r.c.members.ClientURLs env),
              .MemberAdd [env.PeerURL (r.c.newMember env)]] ++ ext, ?_, ?_, ?_⟩
            · simp [hlog, hr4log]
            · simp [List.countP_append, hcount, List.countP_cons, Call.isMembershipChange]
            · simp only [hc, hr4mem]; exact hnames
          | panic =>
            refine ⟨[.etcdClientNew (r.c.members.ClientURLs env),
              .MemberAdd [env.PeerURL (r.c.newMember env)]] ++ ext, ?_, ?_, ?_⟩
            · simp [hlog, hr4log]
            · simp [List.countP_append, hcount, List.countP_cons, Call.isMembershipChange]
            · simp only [hc, hr4mem]; exact hnames

theorem AtMostOneMembershipChange.of_quiet {r r1 : Run} (ext : List Call)
    (hlog : r1.log = r.log ++ ext) (hno : ∀ k ∈ ext, k.isMembershipChange = false)
    (hm : r1.c.members = r.c.members) : AtMostOneMembershipChange r r1 := by
  refine ⟨ext, hlog, ?_, Or.inl (by rw [hm])⟩
  have : ext.countP Call.isMembershipChange = 0 := by
    rw [List.countP_eq_zero]
    intro k hk
    simp [hno k hk]
  omega

theorem AtMostOneMembershipChange.after_quiet (r1 : Run) {r r2 : Run} (ext : List Call)
    (hlog : r1.log = r.log ++ ext) (hno : ∀ k ∈ ext, k.isMembershipChange = false)
    (hm : r1.c.members = r.c.members) (h : AtMostOneMembershipChange r1 r2) :
    AtMostOneMembershipChange r r2 := by
  obtain ⟨ext2, h1, h2, h3⟩ := h
  refine ⟨ext ++ ext2, by rw [h1, hlog, List.append_assoc], ?_, by rw [← hm]; exact h3⟩
  have : ext.countP Call.isMembershipChange = 0 := by
    rw [List.countP_eq_zero]
    intro k hk
    simp [hno k hk]
  rw [List.countP_append]
  omega

theorem AtMostOneMembershipChange.then_setStatus {r r1 : Run} (st : ClusterStatus)
    (h : AtMostOneMembershipChange r r1) : AtMostOneMembershipChange r (r1.setStatus st) := by
  obtain ⟨ext, h1, h2, h3⟩ := h
  exact ⟨ext, h1, h2, h3⟩

theorem removeOneMember_change (env : Env) (r : Run) :
    AtMostOneMembershipChange r (removeOneMember env r).2 := by
  unfold removeOneMember
  exact AtMostOneMembershipChange.after_quiet _ [] (by simp) (by simp) rfl
    (removeMember_change env _ _)

theorem removeDeadMember_change (env : Env) (t : Option Member) (r : Run) :
    AtMostOneMembershipChange r (removeDeadMember env t r).2 := by
  cases t with
  | none => exact AtMostOneMembershipChange.of_quiet [] (by simp [removeDeadMember]) (by simp) rfl
  | some m =>
    show AtMostOneMembershipChange r (removeMember env (some m)
      (r.call (.eventCreate (.ReplacingDeadMemberEvent m.Name)))).2
    exact AtMostOneMembershipChange.after_quiet
      (r.call (.eventCreate (.ReplacingDeadMemberEvent m.Name)))
      [.eventCreate (.ReplacingDeadMemberEvent m.Name)] rfl (by simp [Call.isMembershipChange]) rfl (removeMember_change env _ _)

theorem resize_change (env : Env) (r : Run) :
    AtMostOneMembershipChange r (resize env r).2 := by
  unfold resize
  split
  · exact AtMostOneMembershipChange.of_quiet [] (by simp) (by simp) rfl
  · split
    · exact addOneMember_change env r
    · exact removeOneMember_change env r

theorem reconcileMembers_change (env : Env) (running : MemberSet) (r : Run) :
    AtMostOneMembershipChange r (reconcileMembers env running r).2 := by
  unfold reconcileMembers
  dsimp only
  have hc := removeUnknownPods_c env (running.Diff r.c.members) r
  obtain ⟨ext, hlog, hext⟩ := removeUnknownPods_log env (running.Diff r.c.members) r
  have hno : ∀ k ∈ ext, k.isMembershipChange = false := by
    intro k hk
    obtain ⟨name, rfl⟩ := hext k hk
    rfl
  cases hp : removeUnknownPods env (running.Diff r.c.members) r with
  | mk o r1 =>
    rw [hp] at hc hlog
    simp only at hc hlog
    have hm : r1.c.members = r.c.members := by rw [hc]
    cases o with
    | ok =>
      simp only
      split
      · exact AtMostOneMembershipChange.after_quiet r1 ext hlog hno hm (resize_change env r1)
      · split
        · exact AtMostOneMembershipChange.of_quiet ext hlog hno hm
        · exact AtMostOneMembershipChange.after_quiet r1 ext hlog hno hm
            (removeDeadMember_change env _ r1)
    | err e => exact AtMostOneMembershipChange.of_quiet ext hlog hno hm
    | panic => exact AtMostOneMembershipChange.of_quiet ext hlog hno hm

/-- The Go method `upgradeOneMember`, with every intermediate run written out. -/
theorem upgradeOneMember_eq (env : Env) (memberName : String) (r : Run) :
    upgradeOneMember env memberName r =
      (let sp := r.c.Cluster.Spec
      let ns := r.c.Cluster.Namespace
      let c1 : MetaCluster :=
        { r.c with Status := r.c.Status.SetUpgradingCondition env.now sp.Version }
      match env.podGet ns memberName with
      | .error e =>
        (.err (.errorf ("fail to get pod (" ++ memberName ++ "): " ++ e.Error)),
          { c := c1, log := r.log ++ [.podGet ns memberName] })
      | .ok oldpod =>
        let pod := SetEtcdVersion { oldpod with Image := env.ImageName sp.Repository sp.Version }
          sp.Version
        match env.CreatePatch oldpod pod with
        | some e =>
          (.err (.errorf ("error creating patch: " ++ e.Error)),
            { c := c1, log := r.log ++ [.podGet ns memberName] })
        | none =>
          match env.podPatch ns pod.Name pod with
          | some e =>
            (.err (.errorf ("fail to update the etcd member (" ++ memberName ++ "): "
              ++ e.Error)),
              { c := c1, log := r.log ++ [.podGet ns memberName] ++ [.podPatch ns pod.Name pod] })
          | none =>
            (.ok, { c := c1, log := r.log ++ [.podGet ns memberName] ++
              [.podPatch ns pod.Name pod] ++
              [.eventCreate (.MemberUpgradedEvent memberName (GetEtcdVersion oldpod)
                sp.Version)] })) := by
  rfl

theorem upgradeOneMember_change (env : Env) (memberName : String) (r : Run) :
    AtMostOneMembershipChange r (upgradeOneMember env memberName r).2 := by
  rw [upgradeOneMember_eq]
  dsimp only
  split
  · exact AtMostOneMembershipChange.of_quiet [_] rfl (by simp [Call.isMembershipChange]) rfl
  · split
    · exact AtMostOneMembershipChange.of_quiet [_] rfl (by simp [Call.isMembershipChange]) rfl
    · split
      · exact AtMostOneMembershipChange.of_quiet _ (by simp only [List.append_assoc]; rfl)
          (by simp [Call.isMembershipChange]) rfl
      · exact AtMostOneMembershipChange.of_quiet _ (by simp only [List.append_assoc]; rfl)
          (by simp [Call.isMembershipChange]) rfl

theorem reconcileBody_change (env : Env) (pods : List Pod) (r : Run) :
    AtMostOneMembershipChange r (reconcileBody env pods r).2 := by
  unfold reconcileBody
  dsimp only
  split
  · exact reconcileMembers_change env _ r
  · split
    · split
      · exact AtMostOneMembershipChange.of_quiet [] (by simp) (by simp) rfl
      · exact AtMostOneMembershipChange.after_quiet _ [] (by simp) (by simp) rfl
          (upgradeOneMember_change env _ _)
    · exact AtMostOneMembershipChange.of_quiet [] (by simp) (by simp) rfl

/-- C3. One call of `reconcile` performs at most one membership change, for every tracker
state, every running pod list and every answer of the collaborators: the calls it makes
contain at most one admin-API member add or remove, and the member names after the call
differ from those before by at most one name (equal, one added, or one removed). -/
theorem reconcile_at_most_one_membership_change (env : Env) (pods : List Pod) (r : Run) :
    AtMostOneMembershipChange r (reconcile env pods r).2 := by
  unfold reconcile
  exact AtMostOneMembershipChange.then_setStatus _ (reconcileBody_change env pods r)

theorem removePod_ok (env : Env) (name : String) (r : Run)
    (h : ∀ e, env.podDelete r.c.Cluster.Namespace name = some e →
      IsKubernetesResourceNotFoundError e = true) :
    removePod env name r = (.ok, r.call (.podDelete r.c.Cluster.Namespace name)) := by
  unfold removePod
  dsimp only
  split
  · rename_i e he
    simp [h e he]
  · rfl

theorem removeUnknownPods_ok (env : Env) (ms : List Member) (r : Run)
    (h : ∀ m ∈ ms, ∀ e, env.podDelete r.c.Cluster.Namespace m.Name = some e →
      IsKubernetesResourceNotFoundError e = true) :
    (removeUnknownPods env ms r).1 = .ok := by
  induction ms generalizing r with
  | nil => rfl
  | cons m ms ih =>
    unfold removeUnknownPods
    rw [removePod_ok env m.Name r (h m (List.mem_cons_self _ _))]
    simp only
    apply ih
    intro m2 hm2
    exact h m2 (List.mem_cons_of_mem _ hm2)

theorem removeMember_ne_lostQuorum (env : Env) (t : Option Member) (r : Run) :
    (removeMember env t r).1 ≠ .err .ErrLostQuorum := by
  cases t with
  | none => simp [removeMember]
  | some m =>
    unfold removeMember
    exact removeMemberDeferred_ne_lostQuorum _ _

theorem removeDeadMember_ne_lostQuorum (env : Env) (t : Option Member) (r : Run) :
    (removeDeadMember env t r).1 ≠ .err .ErrLostQuorum := by
  cases t with
  | none => simp [removeDeadMember]
  | some m => exact removeMember_ne_lostQuorum env _ _

theorem addOneMember_ne_lostQuorum (env : Env) (r : Run) :
    (addOneMember env r).1 ≠ .err .ErrLostQuorum := by
  rw [addOneMember_eq]
  dsimp only
  split
  · simp
  · split
    · simp
    · split
      · simp
      · generalize createPod _ _ _ _ _ = res
        obtain ⟨o, q⟩ := res
        cases o <;> simp

theorem resize_ne_lostQuorum (env : Env) (r : Run) :
    (resize env r).1 ≠ .err .ErrLostQuorum := by
  unfold resize
  split
  · simp
  · split
    · exact addOneMember_ne_lostQuorum env r
    · exact removeMember_ne_lostQuorum env _ _

/-- C1. For every non-empty known membership M (so in particular for 1 ≤ |M| ≤ 7) and every
running set R whose unknown workloads are all deleted successfully (the workload API answers
each delete with success or not-found), `reconcileMembers R` returns `ErrLostQuorum` if and
only if |L| < floor(|M|/2)+1, where L = R \ (R \ M). -/
theorem reconcileMembers_lost_quorum_iff (env : Env) (running : MemberSet) (r : Run)
    (hM : 1 ≤ r.c.members.Size)
    (hdel : ∀ m ∈ running.Diff r.c.members, ∀ e,
      env.podDelete r.c.Cluster.Namespace m.Name = some e →
        IsKubernetesResourceNotFoundError e = true) :
    (reconcileMembers env running r).1 = .err .ErrLostQuorum ↔
      (running.Diff (running.Diff r.c.members)).Size < r.c.members.Size / 2 + 1 := by
  unfold reconcileMembers
  dsimp only
  have hc := removeUnknownPods_c env (running.Diff r.c.members) r
  have hok := removeUnknownPods_ok env (running.Diff r.c.members) r hdel
  cases hp : removeUnknownPods env (running.Diff r.c.members) r with
  | mk o r1 =>
    rw [hp] at hc hok
    simp only at hc hok
    subst hok
    simp only [hc]
    split
    · rename_i heq
      constructor
      · intro h; exact absurd h (resize_ne_lostQuorum env r1)
      · intro h; omega
    · split
      · rename_i hlt
        simp [hlt]
      · rename_i hge
        constructor
        · intro h; exact absurd h (removeDeadMember_ne_lostQuorum env _ r1)
        · intro h; exact absurd h hge

theorem Diff_eq_nil_of_subset (running M : MemberSet)
    (hsub : ∀ m ∈ running, M.has m.Name = true) : running.Diff M = [] := by
  unfold MemberSet.Diff
  rw [List.filter_eq_nil_iff]
  intro m hm
  simp [hsub m hm]

theorem Diff_nil (running : MemberSet) : running.Diff [] = running := by
  unfold MemberSet.Diff
  rw [List.filter_eq_self]
  intro m _
  simp [MemberSet.has]

/-- C2 (as stated) fails for the empty membership: with M = ∅ and R = ∅ the premises hold
(R ⊆ M and |R| = 0 < floor(0/2)+1 = 1), but `reconcileMembers` goes to `resize`, which for
desired size 1 registers a new member with the store and returns success. -/
theorem reconcileMembers_empty_membership_resizes :
    (∀ m ∈ ([] : MemberSet), (exampleRun 1 none (some [])).c.members.has m.Name = true) ∧
    MemberSet.Size [] < (exampleRun 1 none (some [])).c.members.Size / 2 + 1 ∧
    (reconcileMembers exampleEnv [] (exampleRun 1 none (some []))).1 = .ok ∧
    Call.MemberAdd ["http://example-new:2380"] ∈
      (reconcileMembers exampleEnv [] (exampleRun 1 none (some []))).2.log ∧
    (reconcileMembers exampleEnv [] (exampleRun 1 none (some []))).2.c.Members =
      some [exampleMember "example-new" 7] := by
  decide

/-- C2 (amended). For every non-empty membership M and every running set R that is a subset
of M by name with |R| < floor(|M|/2)+1, `reconcileMembers R` returns `ErrLostQuorum` and
leaves the run exactly as it was: the tracker (member set, status) is unchanged and not a
single collaborator call is made. -/
theorem reconcileMembers_lost_quorum_no_mutation (env : Env) (running : MemberSet) (r : Run)
    (hM : 1 ≤ r.c.members.Size)
    (hsub : ∀ m ∈ running, r.c.members.has m.Name = true)
    (hq : running.Size < r.c.members.Size / 2 + 1) :
    reconcileMembers env running r = (.err .ErrLostQuorum, r) := by
  unfold reconcileMembers
  dsimp only
  rw [Diff_eq_nil_of_subset running r.c.members hsub, Diff_nil]
  simp only [removeUnknownPods]
  have h1 : ¬ (running.Size = r.c.members.Size) := by omega
  rw [if_neg h1, if_pos hq]

/-- Witness of C2 (amended): three members, only pod `a` running. -/
theorem reconcileMembers_lost_quorum_no_mutation_witness :
    reconcileMembers exampleEnv [exampleMember "a" 0] (exampleRun 3 none (some exampleMembers3)) =
      (.err .ErrLostQuorum, exampleRun 3 none (some exampleMembers3)) :=
  reconcileMembers_lost_quorum_no_mutation exampleEnv [exampleMember "a" 0]
    (exampleRun 3 none (some exampleMembers3)) (by decide) (by decide) (by decide)

/-- Witness of C1: three members, pod `a` and an unknown pod `x` running. -/
theorem reconcileMembers_lost_quorum_iff_witness :
    (reconcileMembers exampleEnv [exampleMember "a" 0, exampleMember "x" 0]
        (exampleRun 3 none (some exampleMembers3))).1 = .err .ErrLostQuorum ↔
      (MemberSet.Diff [exampleMember "a" 0, exampleMember "x" 0]
        (MemberSet.Diff [exampleMember "a" 0, exampleMember "x" 0]
          (exampleRun 3 none (some exampleMembers3)).c.members)).Size <
        (exampleRun 3 none (some exampleMembers3)).c.members.Size / 2 + 1 :=
  reconcileMembers_lost_quorum_iff exampleEnv [exampleMember "a" 0, exampleMember "x" 0]
    (exampleRun 3 none (some exampleMembers3)) (by decide)
    (fun _ _ e h => by simp [exampleEnv] at h)

/-! ### Which calls a function can make -/

theorem OnlyCallsOutside.refl (P : Call → Bool) (r r1 : Run) (h : r1.log = r.log) :
    OnlyCallsOutside P r r1 :=
  ⟨[], by simp [h], by simp⟩

theorem OnlyCallsOutside.trans {P : Call → Bool} (r1 : Run) {r r2 : Run}
    (h1 : OnlyCallsOutside P r r1) (h2 : OnlyCallsOutside P r1 r2) : OnlyCallsOutside P r r2 := by
  obtain ⟨e1, hl1, hp1⟩ := h1
  obtain ⟨e2, hl2, hp2⟩ := h2
  refine ⟨e1 ++ e2, by rw [hl2, hl1, List.append_assoc], ?_⟩
  intro k hk
  rcases List.mem_append.mp hk with h | h
  · exact hp1 k h
  · exact hp2 k h

theorem OnlyCallsOutside.of_ext {P : Call → Bool} {r r1 : Run} (ext : List Call)
    (hlog : r1.log = r.log ++ ext) (hp : ∀ k ∈ ext, P k = false) : OnlyCallsOutside P r r1 :=
  ⟨ext, hlog, hp⟩

theorem callsSince_of_ext {r r1 : Run} {ext : List Call} (h : r1.log = r.log ++ ext) :
    r1.callsSince r = ext := by
  unfold Run.callsSince
  rw [h, List.drop_left]

theorem OnlyCallsOutside.any_false {P : Call → Bool} {r r1 : Run}
    (h : OnlyCallsOutside P r r1) : (r1.callsSince r).any P = false := by
  obtain ⟨ext, hlog, hp⟩ := h
  rw [callsSince_of_ext hlog, List.any_eq_false]
  intro k hk
  simp [hp k hk]

theorem removeMember_noReplacing (env : Env) (t : Option Member) (r : Run) :
    OnlyCallsOutside Call.isReplacingDeadMember r (removeMember env t r).2 := by
  cases t with
  | none => exact OnlyCallsOutside.refl _ _ _ (by simp [removeMember])
  | some m =>
    rcases removeMember_run env m r with h | h | h <;> rw [h]
    · exact ⟨[_], rfl, by simp [Call.isReplacingDeadMember]⟩
    · exact ⟨_, by simp only [Run.call_log, Run.setMembers_log, List.append_assoc]; rfl,
        by simp [Call.isReplacingDeadMember]⟩
    · exact ⟨_, by simp only [Run.call_log, Run.setMembers_log, List.append_assoc]; rfl,
        by simp [Call.isReplacingDeadMember]⟩

theorem addOneMember_noReplacing (env : Env) (r : Run) :
    OnlyCallsOutside Call.isReplacingDeadMember r (addOneMember env r).2 := by
  rw [addOneMember_eq]
  dsimp only
  split
  · exact ⟨[_], rfl, by simp [Call.isReplacingDeadMember]⟩
  · split
    · exact ⟨_, by simp only [List.append_assoc]; rfl, by simp [Call.isReplacingDeadMember]⟩
    · rename_i id hadd
      split
      · exact ⟨_, by simp only [List.append_assoc]; rfl, by simp [Call.isReplacingDeadMember]⟩
      · rename_i ms hms
        generalize hnm : ({ (MetaCluster.newMember env r.c) with ID := id } : Member) = nm
        generalize hr4 : (Run.mk _ _) = r4
        obtain ⟨ext, hlog, hwc⟩ := createPod_log env (ms.Add nm) nm "existing" r4
        have hext : ∀ k ∈ ext, k.isReplacingDeadMember = false := by
          intro k hk
          have := hwc k hk
          cases k <;> simp_all [Call.isWorkloadCreate, Call.isReplacingDeadMember]
        have h04 : OnlyCallsOutside Call.isReplacingDeadMember r r4 :=
          ⟨_, by rw [← hr4]; simp only [List.append_assoc]; rfl,
            by simp [Call.isReplacingDeadMember]⟩
        have h45 : OnlyCallsOutside Call.isReplacingDeadMember r4
            (createPod env (ms.Add nm) nm "existing" r4).2 := ⟨ext, hlog, hext⟩
        cases hcp : createPod env (ms.Add nm) nm "existing" r4 with
        | mk o r5 =>
          rw [hcp] at h45
          simp only at h45
          have h05 := OnlyCallsOutside.trans r4 h04 h45
          cases o with
          | ok =>
            exact OnlyCallsOutside.trans r5 h05 ⟨[_], rfl, by simp [Call.isReplacingDeadMember]⟩
          | err e => exact h05
          | panic => exact h05

theorem resize_noReplacing (env : Env) (r : Run) :
    OnlyCallsOutside Call.isReplacingDeadMember r (resize env r).2 := by
  unfold resize
  split
  · exact OnlyCallsOutside.refl _ _ _ rfl
  · split
    · exact addOneMember_noReplacing env r
    · exact OnlyCallsOutside.trans _ (OnlyCallsOutside.refl _ r _ rfl)
        (removeMember_noReplacing env _ _)

theorem removeUnknownPods_noReplacing (env : Env) (ms : List Member) (r : Run) :
    OnlyCallsOutside Call.isReplacingDeadMember r (removeUnknownPods env ms r).2 := by
  obtain ⟨ext, hlog, hext⟩ := removeUnknownPods_log env ms r
  refine ⟨ext, hlog, ?_⟩
  intro k hk
  obtain ⟨name, rfl⟩ := hext k hk
  rfl

theorem has_iff (ms : MemberSet) (n : String) : ms.has n = true ↔ n ∈ ms.names := by
  simp [MemberSet.has, MemberSet.names]

theorem Diff_Diff (running M : MemberSet) :
    running.Diff (running.Diff M) = running.filter (fun m => M.has m.Name) := by
  unfold MemberSet.Diff
  apply List.filter_congr
  intro m hm
  by_cases h : M.has m.Name = true
  · have : MemberSet.has (List.filter (fun m => !M.has m.Name) running) m.Name = false := by
      rw [Bool.eq_false_iff]
      intro hh
      rw [MemberSet.has, List.any_eq_true] at hh
      obtain ⟨x, hx, hxn⟩ := hh
      have hx2 := (List.mem_filter.mp hx).2
      simp at hxn
      rw [hxn, h] at hx2
      simp at hx2
    simp [this, h]
  · have : MemberSet.has (List.filter (fun m => !M.has m.Name) running) m.Name = true := by
      rw [MemberSet.has, List.any_eq_true]
      exact ⟨m, List.mem_filter.mpr ⟨hm, by simp [h]⟩, by simp⟩
    simp [this, h]

theorem Size_inter_le (running M : MemberSet) (hwf : running.WF) :
    (running.Diff (running.Diff M)).Size ≤ M.Size := by
  rw [Diff_Diff]
  have hnd : ((running.filter (fun m => M.has m.Name)).map Member.Name).Nodup :=
    hwf.sublist ((List.filter_sublist running).map _)
  have hsub : (running.filter (fun m => M.has m.Name)).map Member.Name ⊆ M.map Member.Name := by
    intro n hn
    obtain ⟨m, hm, rfl⟩ := List.mem_map.mp hn
    exact (has_iff M m.Name).mp (List.mem_filter.mp hm).2
  have := (List.subperm_of_subset hnd hsub).length_le
  simpa [MemberSet.Size] using this

/-- C6 (as stated) fails: with five members and three of them running, quorum is intact
(3 ≥ floor(5/2)+1 = 3), `reconcileMembers` reaches the dead-member removal, and two members,
not one, have no running workload. -/
theorem dead_member_removal_with_two_members_down :
    ReachesDeadMemberRemoval exampleEnv
        [exampleMember "a" 0, exampleMember "b" 0, exampleMember "c" 0]
        (exampleRun 5 none (some exampleMembers5)) = true ∧
    (exampleRun 5 none (some exampleMembers5)).c.members.Size -
      (MemberSet.Diff [exampleMember "a" 0, exampleMember "b" 0, exampleMember "c" 0]
        (MemberSet.Diff [exampleMember "a" 0, exampleMember "b" 0, exampleMember "c" 0]
          (exampleRun 5 none (some exampleMembers5)).c.members)).Size = 2 := by
  decide

/-- C6 (amended). Whenever `reconcileMembers` reaches its third branch, the dead-member
removal, quorum is intact and at least one member (not necessarily exactly one) has no
running workload: floor(|M|/2)+1 ≤ |L| < |M|, i.e. 1 ≤ |M| - |L| ≤ |M| - (floor(|M|/2)+1). -/
theorem dead_member_removal_quorum_intact (env : Env) (running : MemberSet) (r : Run)
    (hwf : running.WF) (h : ReachesDeadMemberRemoval env running r = true) :
    r.c.members.Size / 2 + 1 ≤ (running.Diff (running.Diff r.c.members)).Size ∧
    (running.Diff (running.Diff r.c.members)).Size < r.c.members.Size ∧
    1 ≤ r.c.members.Size - (running.Diff (running.Diff r.c.members)).Size := by
  have hle := Size_inter_le running r.c.members hwf
  suffices hs : r.c.members.Size / 2 + 1 ≤ (running.Diff (running.Diff r.c.members)).Size ∧
      (running.Diff (running.Diff r.c.members)).Size ≠ r.c.members.Size by
    obtain ⟨h1, h2⟩ := hs
    refine ⟨h1, ?_, ?_⟩ <;> omega
  by_contra hcon
  have hquiet : OnlyCallsOutside Call.isReplacingDeadMember r
      (reconcileMembers env running r).2 := by
    unfold reconcileMembers
    dsimp only
    have hc := removeUnknownPods_c env (running.Diff r.c.members) r
    have h1 := removeUnknownPods_noReplacing env (running.Diff r.c.members) r
    cases hp : removeUnknownPods env (running.Diff r.c.members) r with
    | mk o r1 =>
      rw [hp] at hc h1
      simp only at hc h1
      cases o with
      | ok =>
        simp only [hc]
        split
        · exact OnlyCallsOutside.trans r1 h1 (resize_noReplacing env r1)
        · split
          · exact h1
          · rename_i hne hge
            exact absurd ⟨by omega, hne⟩ hcon
      | err e => exact h1
      | panic => exact h1
  have := hquiet.any_false
  unfold ReachesDeadMemberRemoval at h
  rw [h] at this
  exact absurd this (by simp)

/-- Witness of C6 (amended): three members, pods `a` and `b` running. -/
theorem dead_member_removal_quorum_intact_witness :
    3 / 2 + 1 ≤ (MemberSet.Diff [exampleMember "a" 0, exampleMember "b" 0]
      (MemberSet.Diff [exampleMember "a" 0, exampleMember "b" 0]
        (exampleRun 3 none (some exampleMembers3)).c.members)).Size :=
  (dead_member_removal_quorum_intact exampleEnv [exampleMember "a" 0, exampleMember "b" 0]
    (exampleRun 3 none (some exampleMembers3)) (by decide) (by decide)).1

theorem CreatesFollowRegistration.of_no_create (env : Env) (ext : List Call)
    (h : ∀ k ∈ ext, k.isWorkloadCreate = false) : CreatesFollowRegistration env ext := by
  intro pre k post he hk
  have : k ∈ ext := by rw [he]; simp
  rw [h k this] at hk
  exact absurd hk (by simp)

theorem CreatesFollowRegistration.of_registered (env : Env) (eps urls : List String) (id : Nat)
    (tail : List Call) (hok : env.MemberAdd urls = .ok id) :
    CreatesFollowRegistration env ([.etcdClientNew eps, .MemberAdd urls] ++ tail) := by
  intro pre k post he hk
  refine ⟨urls, id, ?_, hok⟩
  match pre, he with
  | [], he =>
    simp at he
    rw [← he.1] at hk
    simp [Call.isWorkloadCreate] at hk
  | [x], he =>
    simp at he
    rw [← he.2.1] at hk
    simp [Call.isWorkloadCreate] at hk
  | x :: y :: pre2, he =>
    simp at he
    rw [← he.2.1]
    simp

/-- The Go method `createPod`, with every intermediate run written out. -/
theorem createPod_eq (env : Env) (members : MemberSet) (m : Member) (state : String) (r : Run) :
    createPod env members m state r =
      (let ns := r.c.Cluster.Namespace
      let pvc := Call.pvcCreate ns m
      let pod := Call.podCreate ns m (members.PeerURLPairs env) state
      if r.c.isPodPVEnabled then
        match env.pvcCreate ns m with
        | some e =>
          (.err (.errorf ("failed to create PVC for member (" ++ m.Name ++ "): " ++ e.Error)),
            { r with log := r.log ++ [pvc] })
        | none =>
          match env.podCreate ns m state with
          | some e => (.err e, { r with log := r.log ++ [pvc] ++ [pod] })
          | none => (.ok, { r with log := r.log ++ [pvc] ++ [pod] })
      else
        match env.podCreate ns m state with
        | some e => (.err e, { r with log := r.log ++ [pod] })
        | none => (.ok, { r with log := r.log ++ [pod] })) := by
  rfl

/-- The calls of `addOneMember` in the order in which they are made: no workload create
before a member-add call that succeeded; none at all, and the member set unchanged, when the
etcd client cannot be made or the register call fails; and, on a member set that is a map,
the exact calls that follow a successful registration. -/
theorem addOneMember_calls (env : Env) (r : Run) :
    let ns := r.c.Cluster.Namespace
    let eps := r.c.members.ClientURLs env
    let nm0 := r.c.newMember env
    let out := addOneMember env r
    let ext := out.2.callsSince r
    out.2.log = r.log ++ ext ∧
    CreatesFollowRegistration env ext ∧
    ((env.etcdClientNew eps ≠ none ∨ ∀ id, env.MemberAdd [env.PeerURL nm0] ≠ .ok id) →
      (∀ k ∈ ext, k.isWorkloadCreate = false) ∧ out.2.c.Members = r.c.Members) ∧
    (∀ ms id, r.c.Members = some ms → env.etcdClientNew eps = none →
      env.MemberAdd [env.PeerURL nm0] = .ok id →
      let nm : Member := { nm0 with ID := id }
      let pvc := Call.pvcCreate ns nm
      let pod := Call.podCreate ns nm ((ms.Add nm).PeerURLPairs env) "existing"
      let evt := Call.eventCreate (.NewMemberAddEvent nm.Name)
      nm.ID = id ∧ out.2.c.Members = some (ms.Add nm) ∧
      ext = [.etcdClientNew eps, .MemberAdd [env.PeerURL nm0]] ++
        (if r.c.isPodPVEnabled then
          match env.pvcCreate ns nm with
          | some _ => [pvc]
          | none =>
            match env.podCreate ns nm "existing" with
            | some _ => [pvc, pod]
            | none => [pvc, pod, evt]
        else
          match env.podCreate ns nm "existing" with
          | some _ => [pod]
          | none => [pod, evt])) := by
  intro ns eps nm0 out ext
  -- a summary of the run that the cases below establish
  suffices hs : ∃ e, out.2.log = r.log ++ e ∧ CreatesFollowRegistration env e ∧
      ((env.etcdClientNew eps ≠ none ∨ ∀ id, env.MemberAdd [env.PeerURL nm0] ≠ .ok id) →
        (∀ k ∈ e, k.isWorkloadCreate = false) ∧ out.2.c.Members = r.c.Members) ∧
      (∀ ms id, r.c.Members = some ms → env.etcdClientNew eps = none →
        env.MemberAdd [env.PeerURL nm0] = .ok id →
        ({ nm0 with ID := id } : Member).ID = id ∧
        out.2.c.Members = some (ms.Add { nm0 with ID := id }) ∧
        e = [.etcdClientNew eps, .MemberAdd [env.PeerURL nm0]] ++
          (if r.c.isPodPVEnabled then
            match env.pvcCreate ns { nm0 with ID := id } with
            | some _ => [Call.pvcCreate ns { nm0 with ID := id }]
            | none =>
              match env.podCreate ns { nm0 with ID := id } "existing" with
              | some _ => [Call.pvcCreate ns { nm0 with ID := id },
                  Call.podCreate ns { nm0 with ID := id }
                    ((ms.Add { nm0 with ID := id }).PeerURLPairs env) "existing"]
              | none => [Call.pvcCreate ns { nm0 with ID := id },
                  Call.podCreate ns { nm0 with ID := id }
                    ((ms.Add { nm0 with ID := id }).PeerURLPairs env) "existing",
                  Call.eventCreate (.NewMemberAddEvent ({ nm0 with ID := id } : Member).Name)]
          else
            match env.podCreate ns { nm0 with ID := id } "existing" with
            | some _ => [Call.podCreate ns { nm0 with ID := id }
                ((ms.Add { nm0 with ID := id }).PeerURLPairs env) "existing"]
            | none => [Call.podCreate ns { nm0 with ID := id }
                ((ms.Add { nm0 with ID := id }).PeerURLPairs env) "existing",
                Call.eventCreate (.NewMemberAddEvent ({ nm0 with ID := id } : Member).Name)])) by
    obtain ⟨e, h1, h2, h3, h4⟩ := hs
    have he : ext = e := callsSince_of_ext h1
    rw [he]
    exact ⟨h1, h2, h3, h4⟩
  cases hcn : env.etcdClientNew eps with
  | some e0 =>
    have hlog : out.2.log = r.log ++ [.etcdClientNew eps] := by
      simp only [out, addOneMember_eq, eps] at hcn ⊢
      simp only [hcn]
    have hmem : out.2.c.Members = r.c.Members := by
      simp only [out, addOneMember_eq, eps] at hcn ⊢
      simp only [hcn]
    refine ⟨[.etcdClientNew eps], hlog, ?_, ?_, ?_⟩
    · exact CreatesFollowRegistration.of_no_create _ _ (by simp [Call.isWorkloadCreate])
    · intro _
      exact ⟨by simp [Call.isWorkloadCreate], hmem⟩
    · intro ms id _ h
      exact absurd h (by simp)
  | none =>
    cases hma : env.MemberAdd [env.PeerURL nm0] with
    | error e0 =>
      have hlog : out.2.log =
          r.log ++ [.etcdClientNew eps] ++ [.MemberAdd [env.PeerURL nm0]] := by
        simp only [out, addOneMember_eq, eps, nm0] at hcn hma ⊢
        simp only [hcn, hma]
      have hmem : out.2.c.Members = r.c.Members := by
        simp only [out, addOneMember_eq, eps, nm0] at hcn hma ⊢
        simp only [hcn, hma]
      refine ⟨[.etcdClientNew eps, .MemberAdd [env.PeerURL nm0]], by rw [hlog]; simp, ?_, ?_, ?_⟩
      · exact CreatesFollowRegistration.of_no_create _ _ (by simp [Call.isWorkloadCreate])
      · intro _
        exact ⟨by simp [Call.isWorkloadCreate], hmem⟩
      · intro ms id _ _ h
        exact absurd h (by simp)
    | ok id0 =>
      cases hms : r.c.Members with
      | none =>
        have hlog : out.2.log =
            r.log ++ [.etcdClientNew eps] ++ [.MemberAdd [env.PeerURL nm0]] := by
          simp only [out, addOneMember_eq, eps, nm0] at hcn hma ⊢
          simp only [hcn, hma, hms]
        have hmem : out.2.c.Members = r.c.Members := by
          simp only [out, addOneMember_eq, eps, nm0] at hcn hma ⊢
          simp only [hcn, hma, hms]
        refine ⟨[.etcdClientNew eps, .MemberAdd [env.PeerURL nm0]], by rw [hlog]; simp, ?_, ?_,
          ?_⟩
        · exact CreatesFollowRegistration.of_no_create _ _ (by simp [Call.isWorkloadCreate])
        · intro _
          exact ⟨by simp [Call.isWorkloadCreate], by rw [hmem, hms]⟩
        · intro ms id h
          exact absurd h (by simp)
      | some ms0 =>
        have key : ∃ tail, out.2.log = r.log ++ ([.etcdClientNew eps,
            .MemberAdd [env.PeerURL nm0]] ++ tail) ∧
            out.2.c.Members = some (ms0.Add { nm0 with ID := id0 }) ∧
            tail = (if r.c.isPodPVEnabled then
            match env.pvcCreate ns { nm0 with ID := id0 } with
            | some _ => [Call.pvcCreate ns { nm0 with ID := id0 }]
            | none =>
              match env.podCreate ns { nm0 with ID := id0 } "existing" with
              | some _ => [Call.pvcCreate ns { nm0 with ID := id0 },
                  Call.podCreate ns { nm0 with ID := id0 }
                    ((ms0.Add { nm0 with ID := id0 }).PeerURLPairs env) "existing"]
              | none => [Call.pvcCreate ns { nm0 with ID := id0 },
                  Call.podCreate ns { nm0 with ID := id0 }
                    ((ms0.Add { nm0 with ID := id0 }).PeerURLPairs env) "existing",
                  Call.eventCreate (.NewMemberAddEvent ({ nm0 with ID := id0 } : Member).Name)]
          else
            match env.podCreate ns { nm0 with ID := id0 } "existing" with
            | some _ => [Call.podCreate ns { nm0 with ID := id0 }
                ((ms0.Add { nm0 with ID := id0 }).PeerURLPairs env) "existing"]
            | none => [Call.podCreate ns { nm0 with ID := id0 }
                ((ms0.Add { nm0 with ID := id0 }).PeerURLPairs env) "existing",
                Call.eventCreate (.NewMemberAddEvent ({ nm0 with ID := id0 } : Member).Name)]) := by
          simp only [out, addOneMember_eq, createPod_eq, eps, nm0, ns] at hcn hma ⊢
          simp only [hcn, hma, hms]
          by_cases hpv : r.c.isPodPVEnabled = true
          · simp only [MetaCluster.isPodPVEnabled] at hpv ⊢
            simp only [hpv, if_true]
            cases hpvc : env.pvcCreate r.c.Cluster.Namespace
                { r.c.newMember env with ID := id0 } with
            | some e1 => exact ⟨_, by simp, rfl, rfl⟩
            | none =>
              cases hpod : env.podCreate r.c.Cluster.Namespace
                  { r.c.newMember env with ID := id0 } "existing" with
              | some e1 => exact ⟨_, by simp, rfl, rfl⟩
              | none => exact ⟨_, by simp, rfl, rfl⟩
          · simp only [MetaCluster.isPodPVEnabled] at hpv ⊢
            simp only [hpv, if_false]
            cases hpod : env.podCreate r.c.Cluster.Namespace
                { r.c.newMember env with ID := id0 } "existing" with
            | some e1 => exact ⟨_, by simp, rfl, rfl⟩
            | none => exact ⟨_, by simp, rfl, rfl⟩
        obtain ⟨tail, hlog, hmem, htail⟩ := key
        refine ⟨_, hlog, CreatesFollowRegistration.of_registered env _ _ id0 _ hma, ?_, ?_⟩
        · rintro (h | h)
          · exact absurd rfl h
          · exact absurd rfl (h id0)
        · intro ms id hms2 _ hma2
          have h1 : ms = ms0 := (Option.some.inj hms2).symm
          have h2 : id = id0 := (Except.ok.inj hma2).symm
          subst h1 h2
          exact ⟨rfl, hmem, by rw [htail]⟩

/-- The result of `addOneMember`: an error when the etcd client cannot be made or the register
call fails; after a successful registration on a member set that is a map, success exactly
when the volume-claim create (if persistent-volume mode is on) and the pod create both
succeed, and never a panic; after a successful registration on the nil map, a panic right
after the member-add call. -/
theorem addOneMember_outcome (env : Env) (r : Run) :
    let ns := r.c.Cluster.Namespace
    let eps := r.c.members.ClientURLs env
    let nm0 := r.c.newMember env
    let out := addOneMember env r
    ((env.etcdClientNew eps ≠ none ∨ ∀ id, env.MemberAdd [env.PeerURL nm0] ≠ .ok id) →
      ∃ e, out.1 = .err e) ∧
    (∀ ms id, r.c.Members = some ms → env.etcdClientNew eps = none →
      env.MemberAdd [env.PeerURL nm0] = .ok id →
      out.1 ≠ .panic ∧
      (out.1 = .ok ↔
        (r.c.isPodPVEnabled = true → env.pvcCreate ns { nm0 with ID := id } = none) ∧
        env.podCreate ns { nm0 with ID := id } "existing" = none)) ∧
    (∀ id, r.c.Members = none → env.etcdClientNew eps = none →
      env.MemberAdd [env.PeerURL nm0] = .ok id →
      out.1 = .panic ∧
      out.2.log = r.log ++ [.etcdClientNew eps, .MemberAdd [env.PeerURL nm0]] ∧
      out.2.c.Members = none) := by
  intro ns eps nm0 out
  refine ⟨?_, ?_, ?_⟩
  · intro h
    cases hcn : env.etcdClientNew eps with
    | some e0 =>
      simp only [out, addOneMember_eq, eps] at hcn ⊢
      simp only [hcn]
      exact ⟨_, rfl⟩
    | none =>
      cases hma : env.MemberAdd [env.PeerURL nm0] with
      | error e0 =>
        simp only [out, addOneMember_eq, eps, nm0] at hcn hma ⊢
        simp only [hcn, hma]
        exact ⟨_, rfl⟩
      | ok id0 =>
        rcases h with h | h
        · exact absurd hcn h
        · exact absurd hma (h id0)
  · intro ms id hms hcn hma
    simp only [out, addOneMember_eq, createPod_eq, eps, nm0, ns] at hcn hma ⊢
    simp only [hcn, hma, hms]
    by_cases hpv : r.c.isPodPVEnabled = true
    · simp only [MetaCluster.isPodPVEnabled] at hpv ⊢
      simp only [hpv, if_true]
      cases hpvc : env.pvcCreate r.c.Cluster.Namespace { r.c.newMember env with ID := id } with
      | some e1 => simp
      | none =>
        cases hpod : env.podCreate r.c.Cluster.Namespace
            { r.c.newMember env with ID := id } "existing" with
        | some e1 => simp
        | none => simp
    · simp only [MetaCluster.isPodPVEnabled] at hpv ⊢
      simp only [hpv, if_false]
      cases hpod : env.podCreate r.c.Cluster.Namespace
          { r.c.newMember env with ID := id } "existing" with
      | some e1 => simp
      | none => simp
  · intro id hms hcn hma
    simp only [out, addOneMember_eq, eps, nm0] at hcn hma ⊢
    simp only [hcn, hma, hms]
    simp

/-- C4 (as stated) fails: persistent-volume mode is on, the register call succeeds (the store
assigns id 7) and the volume-claim create fails. `addOneMember` returns the error after the
volume-claim create call: no pod create is made for the member that was registered. -/
theorem addOneMember_registered_without_pod_create :
    Env.MemberAdd { exampleEnv with pvcCreate := fun _ _ => some (.other "quota exceeded") }
      ["http://example-new:2380"] = .ok 7 ∧
    (addOneMember { exampleEnv with pvcCreate := fun _ _ => some (.other "quota exceeded") }
      (exampleRun 5 (some examplePVPolicy) (some exampleMembers3))).2.log =
      [.etcdClientNew ["http://a:2379", "http://b:2379", "http://c:2379"],
       .MemberAdd ["http://example-new:2380"],
       .pvcCreate "default" (exampleMember "example-new" 7)] ∧
    (addOneMember { exampleEnv with pvcCreate := fun _ _ => some (.other "quota exceeded") }
      (exampleRun 5 (some examplePVPolicy) (some exampleMembers3))).2.log.any Call.isPodCreate
      = false ∧
    (addOneMember { exampleEnv with pvcCreate := fun _ _ => some (.other "quota exceeded") }
      (exampleRun 5 (some examplePVPolicy) (some exampleMembers3))).1 =
      .err (.errorf ("fail to create member's pod (example-new): " ++
        "failed to create PVC for member (example-new): quota exceeded")) :=
  ⟨rfl, by decide, by decide, by decide⟩

/-- C4 (amended). In every execution of `addOneMember`, over the recorded order of the
collaborator calls: a workload create (pod or volume claim) never occurs before a member-add
call that succeeded. If the etcd client cannot be made or the register call fails, the call
returns an error, no workload create is issued and the member set is unchanged. If the
register call succeeds and the member set is a map, the set gains the new member with the id
the store assigned, and the calls that follow the registration are the creates for that
member: its volume claim first when persistent-volume mode is on; its pod, in join mode
"existing", exactly when that volume-claim create did not fail; the member-add event after a
pod create that succeeded. The call then returns success exactly when these creates
succeeded, and does not panic. If the register call succeeds and the member set is the nil
map, the call panics right after the member-add call, without any create. -/
theorem addOneMember_registers_before_create (env : Env) (r : Run) :
    let ns := r.c.Cluster.Namespace
    let eps := r.c.members.ClientURLs env
    let nm0 := r.c.newMember env
    let out := addOneMember env r
    let ext := out.2.callsSince r
    out.2.log = r.log ++ ext ∧
    CreatesFollowRegistration env ext ∧
    ((env.etcdClientNew eps ≠ none ∨ ∀ id, env.MemberAdd [env.PeerURL nm0] ≠ .ok id) →
      (∃ e, out.1 = .err e) ∧
      (∀ k ∈ ext, k.isWorkloadCreate = false) ∧ out.2.c.Members = r.c.Members) ∧
    (∀ ms id, r.c.Members = some ms → env.etcdClientNew eps = none →
      env.MemberAdd [env.PeerURL nm0] = .ok id →
      let nm : Member := { nm0 with ID := id }
      let pvc := Call.pvcCreate ns nm
      let pod := Call.podCreate ns nm ((ms.Add nm).PeerURLPairs env) "existing"
      let evt := Call.eventCreate (.NewMemberAddEvent nm.Name)
      nm.ID = id ∧ out.2.c.Members = some (ms.Add nm) ∧
      ext = [.etcdClientNew eps, .MemberAdd [env.PeerURL nm0]] ++
        (if r.c.isPodPVEnabled then
          match env.pvcCreate ns nm with
          | some _ => [pvc]
          | none =>
            match env.podCreate ns nm "existing" with
            | some _ => [pvc, pod]
            | none => [pvc, pod, evt]
        else
          match env.podCreate ns nm "existing" with
          | some _ => [pod]
          | none => [pod, evt]) ∧
      (ext.any Call.isPodCreate = true ↔
        (r.c.isPodPVEnabled = true → env.pvcCreate ns nm = none)) ∧
      (pod ∈ ext ↔ (r.c.isPodPVEnabled = true → env.pvcCreate ns nm = none)) ∧
      out.1 ≠ .panic ∧
      (out.1 = .ok ↔
        (r.c.isPodPVEnabled = true → env.pvcCreate ns nm = none) ∧
        env.podCreate ns nm "existing" = none)) ∧
    (∀ id, r.c.Members = none → env.etcdClientNew eps = none →
      env.MemberAdd [env.PeerURL nm0] = .ok id →
      out.1 = .panic ∧ ext = [.etcdClientNew eps, .MemberAdd [env.PeerURL nm0]] ∧
      out.2.c.Members = none) := by
  intro ns eps nm0 out ext
  obtain ⟨h1, h2, h3, h4⟩ := addOneMember_calls env r
  obtain ⟨o1, o2, o3⟩ := addOneMember_outcome env r
  refine ⟨h1, h2, fun h => ⟨o1 h, (h3 h).1, (h3 h).2⟩, ?_, ?_⟩
  · intro ms id hms hcn hma
    obtain ⟨a1, a2, a3⟩ := h4 ms id hms hcn hma
    obtain ⟨b1, b2⟩ := o2 ms id hms hcn hma
    refine ⟨a1, a2, a3, ?_, ?_, b1, b2⟩
    · show ((addOneMember env r).2.callsSince r).any Call.isPodCreate = true ↔ _
      rw [a3]
      by_cases hpv : r.c.isPodPVEnabled = true
      · simp only [hpv, if_true, true_implies]
        cases hpvc : env.pvcCreate r.c.Cluster.Namespace { r.c.newMember env with ID := id } with
        | some e1 => simp [Call.isPodCreate]
        | none =>
          cases hpod : env.podCreate r.c.Cluster.Namespace
              { r.c.newMember env with ID := id } "existing" <;> simp [Call.isPodCreate]
      · simp only [hpv, Bool.false_eq_true, if_false, false_implies, iff_true]
        cases hpod : env.podCreate r.c.Cluster.Namespace
            { r.c.newMember env with ID := id } "existing" <;> simp [Call.isPodCreate]
    · show _ ∈ (addOneMember env r).2.callsSince r ↔ _
      rw [a3]
      by_cases hpv : r.c.isPodPVEnabled = true
      · simp only [hpv, if_true, true_implies]
        cases hpvc : env.pvcCreate r.c.Cluster.Namespace { r.c.newMember env with ID := id } with
        | some e1 => simp
        | none =>
          cases hpod : env.podCreate r.c.Cluster.Namespace
              { r.c.newMember env with ID := id } "existing" <;> simp
      · simp only [hpv, Bool.false_eq_true, if_false, false_implies, iff_true]
        cases hpod : env.podCreate r.c.Cluster.Namespace
            { r.c.newMember env with ID := id } "existing" <;> simp
  · intro id hms hcn hma
    obtain ⟨c1, c2, c3⟩ := o3 id hms hcn hma
    exact ⟨c1, callsSince_of_ext c2, c3⟩

/-- Witness of C4 (amended): scaling the three-member example cluster up with persistent
volumes enabled; the member registered with id 7 joins the set and the call succeeds. -/
theorem addOneMember_registers_before_create_witness :
    CreatesFollowRegistration exampleEnv
      ((addOneMember exampleEnv
        (exampleRun 5 (some examplePVPolicy) (some exampleMembers3))).2.callsSince
        (exampleRun 5 (some examplePVPolicy) (some exampleMembers3))) ∧
    (addOneMember exampleEnv (exampleRun 5 (some examplePVPolicy) (some exampleMembers3))).2.c.Members
      = some (exampleMembers3 ++ [exampleMember "example-new" 7]) ∧
    (addOneMember exampleEnv (exampleRun 5 (some examplePVPolicy) (some exampleMembers3))).1
      = .ok :=
  ⟨(addOneMember_registers_before_create exampleEnv
      (exampleRun 5 (some examplePVPolicy) (some exampleMembers3))).2.1,
   ((addOneMember_registers_before_create exampleEnv
      (exampleRun 5 (some examplePVPolicy) (some exampleMembers3))).2.2.2.1
      exampleMembers3 7 rfl rfl rfl).2.1,
   ((addOneMember_registers_before_create exampleEnv
      (exampleRun 5 (some examplePVPolicy) (some exampleMembers3))).2.2.2.1
      exampleMembers3 7 rfl rfl rfl).2.2.2.2.2.2.mpr ⟨fun _ => rfl, rfl⟩⟩

theorem removePVC_ok (env : Env) (name : String) (r : Run)
    (h : ∀ e, env.pvcDelete r.c.Cluster.Namespace name = some e →
      IsKubernetesResourceNotFoundError e = true) :
    removePVC env name r = (.ok, r.call (.pvcDelete r.c.Cluster.Namespace name)) := by
  unfold removePVC
  dsimp only
  split
  · rename_i e he
    simp [h e he]
  · rfl

/-- C5. For every member m: when the admin-API remove call answers member-not-found and the
workload delete and the volume-claim delete succeed or answer not-found, `removeMember`
returns success, no member named like m is left in the member set, and the calls made are, in
order, the admin remove, the member-removed event, the delete of m's workload and, exactly
when persistent-volume mode is enabled, the delete of m's volume claim. Any other admin-API
error is returned (wrapped by the deferred function, with its text) after the admin call
alone: the member set and the status are unchanged and no other call is made. -/
theorem removeMember_tolerates_member_not_found (env : Env) (m : Member) (r : Run) :
    let ns := r.c.Cluster.Namespace
    let eps := r.c.members.ClientURLs env
    let out := removeMember env (some m) r
    (env.RemoveMember eps m.ID = some .ErrMemberNotFound →
      (∀ e, env.podDelete ns m.Name = some e → IsKubernetesResourceNotFoundError e = true) →
      (∀ e, env.pvcDelete ns (env.PVCNameFromMember m.Name) = some e →
        IsKubernetesResourceNotFoundError e = true) →
      out.1 = .ok ∧
      out.2.c.members.has m.Name = false ∧
      out.2.c.Members = r.c.Members.map (fun ms => ms.Remove m.Name) ∧
      out.2.log = r.log ++
        ([.RemoveMember eps m.ID, .eventCreate (.MemberRemoveEvent m.Name),
          .podDelete ns m.Name] ++
          (if r.c.isPodPVEnabled then [.pvcDelete ns (env.PVCNameFromMember m.Name)] else []))) ∧
    (∀ e, env.RemoveMember eps m.ID = some e → e ≠ .ErrMemberNotFound →
      out.1 = .err (.errorf ("remove member (" ++ m.Name ++ ") failed: " ++ e.Error)) ∧
      out.2 = r.call (.RemoveMember eps m.ID)) := by
  intro ns eps out
  constructor
  · intro hnf hpod hpvc
    have hhas : ∀ c : MetaCluster,
        MemberSet.has (MetaCluster.members
          { c with Members := c.Members.map (fun ms => ms.Remove m.Name) }) m.Name = false := by
      intro c
      rw [Bool.eq_false_iff]
      intro hh
      rw [has_iff, members_names_Remove] at hh
      simpa using (List.mem_filter.mp hh).2
    have hout : out = (if r.c.isPodPVEnabled then
        (Outcome.ok, (((r.call (.RemoveMember eps m.ID)).setMembers
          (r.c.Members.map (fun ms => ms.Remove m.Name))).call
          (.eventCreate (.MemberRemoveEvent m.Name))).call (.podDelete ns m.Name) |>.call
          (.pvcDelete ns (env.PVCNameFromMember m.Name)))
      else
        (Outcome.ok, (((r.call (.RemoveMember eps m.ID)).setMembers
          (r.c.Members.map (fun ms => ms.Remove m.Name))).call
          (.eventCreate (.MemberRemoveEvent m.Name))).call (.podDelete ns m.Name))) := by
      simp only [out, removeMember, eps] at hnf ⊢
      simp only [hnf, if_true]
      have hp := removePod_ok env m.Name
        (((r.call (.RemoveMember (r.c.members.ClientURLs env) m.ID)).setMembers
          (Option.map (fun ms => ms.Remove m.Name)
            (r.call (.RemoveMember (r.c.members.ClientURLs env) m.ID)).c.Members)).call
          (.eventCreate (.MemberRemoveEvent m.Name))) hpod
      rw [hp]
      simp only [removeMemberDeferred_run]
      by_cases hpv : r.c.isPodPVEnabled = true
      · have hpv2 : ((((r.call (.RemoveMember (r.c.members.ClientURLs env) m.ID)).setMembers
            (Option.map (fun ms => ms.Remove m.Name)
              (r.call (.RemoveMember (r.c.members.ClientURLs env) m.ID)).c.Members)).call
            (.eventCreate (.MemberRemoveEvent m.Name))).call
            (.podDelete r.c.Cluster.Namespace m.Name)).c.isPodPVEnabled = true := hpv
        rw [if_pos hpv]
        simp only [Run.call_c, Run.setMembers_Cluster] at hpv2 ⊢
        have hq := removePVC_ok env (env.PVCNameFromMember m.Name)
          ((((r.call (.RemoveMember (r.c.members.ClientURLs env) m.ID)).setMembers
            (Option.map (fun ms => ms.Remove m.Name) r.c.Members)).call
            (.eventCreate (.MemberRemoveEvent m.Name))).call
            (.podDelete r.c.Cluster.Namespace m.Name)) hpvc
        rw [if_pos hpv2, hq]
        rfl
      · have hpv2 : ¬ ((((r.call (.RemoveMember (r.c.members.ClientURLs env) m.ID)).setMembers
            (Option.map (fun ms => ms.Remove m.Name)
              (r.call (.RemoveMember (r.c.members.ClientURLs env) m.ID)).c.Members)).call
            (.eventCreate (.MemberRemoveEvent m.Name))).call
            (.podDelete r.c.Cluster.Namespace m.Name)).c.isPodPVEnabled = true := hpv
        rw [if_neg hpv]
        simp only [Run.call_c, Run.setMembers_Cluster] at hpv2 ⊢
        rw [if_neg hpv2]
        rfl
    rw [hout]
    by_cases hpv : r.c.isPodPVEnabled = true
    · rw [if_pos hpv, if_pos hpv]
      exact ⟨rfl, hhas r.c, rfl, by simp⟩
    · rw [if_neg hpv, if_neg hpv]
      exact ⟨rfl, hhas r.c, rfl, by simp⟩
  · intro e he hne
    simp only [out, removeMember, eps] at he ⊢
    simp only [he, if_neg hne, removeMemberDeferred]
    refine ⟨?_, ?_⟩ <;> first | rfl | trivial

/-- Witness of C5: removing member `c` of the example cluster, persistent volumes enabled, the
store answering member-not-found. -/
theorem removeMember_tolerates_member_not_found_witness :
    (removeMember { exampleEnv with RemoveMember := fun _ _ => some .ErrMemberNotFound }
      (some (exampleMember "c" 3))
      (exampleRun 3 (some examplePVPolicy) (some exampleMembers3))).1 = .ok :=
  ((removeMember_tolerates_member_not_found
      { exampleEnv with RemoveMember := fun _ _ => some .ErrMemberNotFound }
      (exampleMember "c" 3) (exampleRun 3 (some examplePVPolicy) (some exampleMembers3))).1
    rfl (fun _ h => by simp [exampleEnv] at h) (fun _ h => by simp [exampleEnv] at h)).1

/-- Witness of C9: a Scaling condition with a new reason replaces the old one in place. -/
theorem setClusterCondition_upsert_witness :
    (exampleStatus.setClusterCondition
      (newClusterCondition "t1" ClusterConditionScaling ConditionTrue "Scaling down"
        "3 to 1")).Conditions =
      [newClusterCondition "t1" ClusterConditionScaling ConditionTrue "Scaling down" "3 to 1",
       newClusterCondition "t0" ClusterConditionAvailable ConditionTrue "Cluster available" ""] :=
  (((setClusterCondition_upsert exampleStatus
      (newClusterCondition "t1" ClusterConditionScaling ConditionTrue "Scaling down"
        "3 to 1")).2.1
      (newClusterCondition "t0" ClusterConditionScaling ConditionTrue "Scaling up" "1 to 3")
      rfl).2 (by decide)).2

theorem pickOneOldMember_none_iff (pods : List Pod) (v : String) :
    pickOneOldMember pods v = none ↔ ∀ p ∈ pods, GetEtcdVersion p = v := by
  induction pods with
  | nil => simp [pickOneOldMember]
  | cons p ps ih =>
    unfold pickOneOldMember
    by_cases h : GetEtcdVersion p = v
    · simp [h, ih]
    · simp [h]

theorem pickOneOldMember_some (pods : List Pod) (v : String) (m : Member)
    (h : pickOneOldMember pods v = some m) :
    ∃ pre old post, pods = pre ++ old :: post ∧ (∀ p ∈ pre, GetEtcdVersion p = v) ∧
      GetEtcdVersion old ≠ v ∧ m.Name = old.Name ∧ m.Namespace = old.Namespace := by
  induction pods with
  | nil => simp [pickOneOldMember] at h
  | cons p ps ih =>
    unfold pickOneOldMember at h
    by_cases hv : GetEtcdVersion p = v
    · rw [if_pos hv] at h
      obtain ⟨pre, old, post, h1, h2, h3, h4⟩ := ih h
      refine ⟨p :: pre, old, post, by rw [h1]; rfl, ?_, h3, h4⟩
      intro q hq
      rcases List.mem_cons.mp hq with rfl | hq
      · exact hv
      · exact h2 q hq
    · rw [if_neg hv] at h
      cases h
      exact ⟨[], p, ps, rfl, by simp, hv, rfl, rfl⟩

/-- C7 (as stated) fails: in the example cluster with pods `b` and `c` still on version 3.1.0
`reconcile` takes the upgrade path, but when the lookup of pod `b` fails the pass ends with an
error after that lookup alone: no workload is patched and no image or version marker
changes. -/
theorem upgrade_path_without_patch :
    TakesUpgradePath
      [examplePod "a" "3.2.13", examplePod "b" "3.1.0", examplePod "c" "3.1.0"]
      (exampleRun 3 none (some exampleMembers3)) = true ∧
    (reconcile exampleEnvGetFails
      [examplePod "a" "3.2.13", examplePod "b" "3.1.0", examplePod "c" "3.1.0"]
      (exampleRun 3 none (some exampleMembers3))).1 =
      .err (.errorf "fail to get pod (b): context deadline exceeded") ∧
    (reconcile exampleEnvGetFails
      [examplePod "a" "3.2.13", examplePod "b" "3.1.0", examplePod "c" "3.1.0"]
      (exampleRun 3 none (some exampleMembers3))).2.log = [.podGet "default" "b"] := by
  decide

theorem upgradeOneMember_trace (env : Env) (name : String) (r : Run) :
    let sp := r.c.Cluster.Spec
    let ns := r.c.Cluster.Namespace
    let out := upgradeOneMember env name r
    out.2.c.Members = r.c.Members ∧
    match env.podGet ns name with
    | .error _ => out.2.log = r.log ++ [.podGet ns name]
    | .ok oldpod =>
      let pod : Pod :=
        { oldpod with Image := env.ImageName sp.Repository sp.Version,
                      EtcdVersion := sp.Version }
      match env.CreatePatch oldpod pod with
      | some _ => out.2.log = r.log ++ [.podGet ns name]
      | none =>
        match env.podPatch ns oldpod.Name pod with
        | some _ => out.2.log = r.log ++ [.podGet ns name, .podPatch ns oldpod.Name pod]
        | none =>
          out.2.log = r.log ++ [.podGet ns name, .podPatch ns oldpod.Name pod,
            .eventCreate (.MemberUpgradedEvent name (GetEtcdVersion oldpod) sp.Version)] := by
  intro sp ns out
  simp only [out, upgradeOneMember_eq, SetEtcdVersion, sp, ns]
  cases env.podGet r.c.Cluster.Namespace name with
  | error e => exact ⟨rfl, rfl⟩
  | ok oldpod =>
    simp only
    split
    · exact ⟨rfl, rfl⟩
    · split
      · exact ⟨rfl, by simp⟩
      · exact ⟨rfl, by simp⟩

/-- C7 (amended). For every running pod list and desired version, when `reconcile` takes the
upgrade path it touches at most one workload. `pickOneOldMember` returns nil if and only if
every pod's version equals the desired one; the one pod that is looked up is the first pod in
poll order whose recorded version differs from the desired version; when the lookup and the
construction of the patch succeed, exactly one patch is issued, for the pod that the lookup
returned, and in it the image and the version marker are those of the desired version; when
the lookup or the construction of the patch fails, nothing is patched. No other workload is
patched, created or deleted, and the member set is unchanged. -/
theorem reconcile_upgrade_path_one_workload (env : Env) (pods : List Pod) (r : Run)
    (h : TakesUpgradePath pods r = true) :
    let sp := r.c.Cluster.Spec
    let ns := r.c.Cluster.Namespace
    let out := reconcile env pods r
    (pickOneOldMember pods sp.Version = none ↔ ∀ p ∈ pods, GetEtcdVersion p = sp.Version) ∧
    out.2.c.Members = r.c.Members ∧
    ∃ pre old post, pods = pre ++ old :: post ∧
      (∀ p ∈ pre, GetEtcdVersion p = sp.Version) ∧ GetEtcdVersion old ≠ sp.Version ∧
      match env.podGet ns old.Name with
      | .error _ => out.2.log = r.log ++ [.podGet ns old.Name]
      | .ok oldpod =>
        let pod : Pod :=
          { oldpod with Image := env.ImageName sp.Repository sp.Version,
                        EtcdVersion := sp.Version }
        match env.CreatePatch oldpod pod with
        | some _ => out.2.log = r.log ++ [.podGet ns old.Name]
        | none =>
          match env.podPatch ns oldpod.Name pod with
          | some _ => out.2.log = r.log ++ [.podGet ns old.Name, .podPatch ns oldpod.Name pod]
          | none =>
            out.2.log = r.log ++ [.podGet ns old.Name, .podPatch ns oldpod.Name pod,
              .eventCreate
                (.MemberUpgradedEvent old.Name (GetEtcdVersion oldpod) sp.Version)] := by
  intro sp ns out
  refine ⟨pickOneOldMember_none_iff pods sp.Version, ?_⟩
  unfold TakesUpgradePath at h
  simp only [Bool.and_eq_true, decide_eq_true_eq] at h
  obtain ⟨⟨heq, hsize⟩, hneed⟩ := h
  have hguard : ¬ ((!(PodsToMemberSet pods r.c.IsSecureClient).IsEqual r.c.members ||
      decide ((r.c.members.Size : Int) ≠ r.c.Cluster.Spec.Size)) = true) := by
    simp [heq, hsize]
  have hneed2 := hneed
  unfold needUpgrade at hneed2
  simp only [Bool.and_eq_true, decide_eq_true_eq] at hneed2
  obtain ⟨m, hm⟩ := Option.isSome_iff_exists.mp hneed2.2
  obtain ⟨pre, old, post, hp1, hp2, hp3, hp4, _⟩ := pickOneOldMember_some pods _ m hm
  have hout : out = ((upgradeOneMember env m.Name
      ((r.setStatus (r.c.Status.ClearCondition ClusterConditionScaling)).setStatus
        ((r.c.Status.ClearCondition ClusterConditionScaling).UpgradeVersionTo
          r.c.Cluster.Spec.Version))).1,
      (upgradeOneMember env m.Name
      ((r.setStatus (r.c.Status.ClearCondition ClusterConditionScaling)).setStatus
        ((r.c.Status.ClearCondition ClusterConditionScaling).UpgradeVersionTo
          r.c.Cluster.Spec.Version))).2.setStatus
        { (upgradeOneMember env m.Name
      ((r.setStatus (r.c.Status.ClearCondition ClusterConditionScaling)).setStatus
        ((r.c.Status.ClearCondition ClusterConditionScaling).UpgradeVersionTo
          r.c.Cluster.Spec.Version))).2.c.Status with
          Size := (upgradeOneMember env m.Name
      ((r.setStatus (r.c.Status.ClearCondition ClusterConditionScaling)).setStatus
        ((r.c.Status.ClearCondition ClusterConditionScaling).UpgradeVersionTo
          r.c.Cluster.Spec.Version))).2.c.members.Size }) := by
    simp only [out, reconcile, reconcileBody]
    rw [if_neg hguard]
    simp only [hneed, if_true, Run.setStatus_Status]
    rw [hm]
  have htr := upgradeOneMember_trace env m.Name
    ((r.setStatus (r.c.Status.ClearCondition ClusterConditionScaling)).setStatus
      ((r.c.Status.ClearCondition ClusterConditionScaling).UpgradeVersionTo
        r.c.Cluster.Spec.Version))
  rw [hp4] at hout htr
  rw [hout]
  exact ⟨htr.1, pre, old, post, hp1, hp2, hp3, htr.2⟩

/-- Witness of C7 (amended): the example cluster with pods `b` and `c` on version 3.1.0. -/
theorem reconcile_upgrade_path_one_workload_witness :
    (reconcile exampleEnv
      [examplePod "a" "3.2.13", examplePod "b" "3.1.0", examplePod "c" "3.1.0"]
      (exampleRun 3 none (some exampleMembers3))).2.c.Members = some exampleMembers3 :=
  (reconcile_upgrade_path_one_workload exampleEnv
    [examplePod "a" "3.2.13", examplePod "b" "3.1.0", examplePod "c" "3.1.0"]
    (exampleRun 3 none (some exampleMembers3)) (by decide)).2.1

theorem mem_set_self_of_lt (l : List ClusterCondition) (i : Nat) (c : ClusterCondition)
    (h : i < l.length) : c ∈ l.set i c := by
  induction l generalizing i with
  | nil => simp at h
  | cons x xs ih =>
    cases i with
    | zero => simp
    | succ j =>
      have hj : j < xs.length := by simpa using h
      simp [ih j hj]

theorem setClusterCondition_mem (cs : ClusterStatus) (c : ClusterCondition) :
    ∃ x ∈ (cs.setClusterCondition c).Conditions, x.Type_ = c.Type_ ∧ x.Status = c.Status := by
  obtain ⟨_, hsome, hnone, _⟩ := setClusterCondition_spec cs c
  cases hf : cs.Conditions.find? (fun x => decide (c.Type_ = x.Type_)) with
  | none =>
    have := hnone hf
    exact ⟨c, by rw [this]; simp, rfl, rfl⟩
  | some cp =>
    obtain ⟨h1, h2⟩ := hsome cp hf
    by_cases hs : cp.Status = c.Status ∧ cp.Reason = c.Reason ∧ cp.Message = c.Message
    · have hout := h1 hs
      have hmem : cp ∈ cs.Conditions := List.mem_of_find?_eq_some hf
      have hty : cp.Type_ = c.Type_ := by
        have := List.find?_some hf
        exact (by simpa using this : c.Type_ = cp.Type_).symm
      exact ⟨cp, by rw [hout]; exact hmem, hty, hs.1⟩
    · obtain ⟨hlt, hout⟩ := h2 hs
      exact ⟨c, by rw [hout]; exact mem_set_self_of_lt _ _ _ hlt, rfl, rfl⟩

theorem setClusterCondition_other (cs : ClusterStatus) (c x : ClusterCondition)
    (hx : x ∈ (cs.setClusterCondition c).Conditions) (hne : x.Type_ ≠ c.Type_) :
    x ∈ cs.Conditions := by
  obtain ⟨_, _, _, hfil⟩ := setClusterCondition_spec cs c
  have h1 : x ∈ (cs.setClusterCondition c).Conditions.filter
      (fun x => decide (x.Type_ ≠ c.Type_)) := List.mem_filter.mpr ⟨hx, by simpa using hne⟩
  rw [hfil] at h1
  exact (List.mem_filter.mp h1).1

theorem setClusterCondition_fields (cs : ClusterStatus) (c : ClusterCondition) :
    (cs.setClusterCondition c).CurrentVersion = cs.CurrentVersion ∧
    (cs.setClusterCondition c).TargetVersion = cs.TargetVersion := by
  obtain ⟨h, _⟩ := setClusterCondition_spec cs c
  constructor <;> rw [h]

/-- C8. For every tracker whose conditions are unique per type: if the running set equals the
membership by name, |M| equals the desired size and every running workload's recorded version
equals the desired version, then `reconcile` returns success without a single collaborator
call and without touching the member set, and afterwards the status has no Scaling and no
Upgrading condition, the current version is the desired version, the target version is empty,
and an Available condition with status True is present. -/
theorem reconcile_steady_state (env : Env) (pods : List Pod) (r : Run)
    (hu : UniquePerType r.c.Status.Conditions)
    (heq : (PodsToMemberSet pods r.c.IsSecureClient).IsEqual r.c.members = true)
    (hsize : (r.c.members.Size : Int) = r.c.Cluster.Spec.Size)
    (hver : ∀ p ∈ pods, GetEtcdVersion p = r.c.Cluster.Spec.Version) :
    let out := reconcile env pods r
    out.1 = .ok ∧ out.2.log = r.log ∧ out.2.c.Members = r.c.Members ∧
    (∀ x ∈ out.2.c.Status.Conditions,
      x.Type_ ≠ ClusterConditionScaling ∧ x.Type_ ≠ ClusterConditionUpgrading) ∧
    out.2.c.Status.CurrentVersion = r.c.Cluster.Spec.Version ∧
    out.2.c.Status.TargetVersion = "" ∧
    (∃ x ∈ out.2.c.Status.Conditions,
      x.Type_ = ClusterConditionAvailable ∧ x.Status = ConditionTrue) ∧
    out.2.c.Status.Size = r.c.members.Size := by
  intro out
  have hguard : ¬ ((!(PodsToMemberSet pods r.c.IsSecureClient).IsEqual r.c.members ||
      decide ((r.c.members.Size : Int) ≠ r.c.Cluster.Spec.Size)) = true) := by
    simp [heq, hsize]
  have hneed : needUpgrade pods r.c.Cluster.Spec = false := by
    unfold needUpgrade
    rw [(pickOneOldMember_none_iff pods _).mpr hver]
    simp
  have hout : out = (.ok, r.setStatus
      { ((((r.c.Status.ClearCondition ClusterConditionScaling).ClearCondition
          ClusterConditionUpgrading).SetVersion r.c.Cluster.Spec.Version).SetReadyCondition
          env.now) with Size := r.c.members.Size }) := by
    simp only [out, reconcile, reconcileBody]
    rw [if_neg hguard]
    simp only [hneed]
    rfl
  have hu1 : UniquePerType (r.c.Status.ClearCondition ClusterConditionScaling).Conditions := by
    rw [ClearCondition_eq _ _ hu]
    exact filter_unique _ _ hu
  have hc1 := ClearCondition_eq r.c.Status ClusterConditionScaling hu
  have hc2 := ClearCondition_eq (r.c.Status.ClearCondition ClusterConditionScaling)
    ClusterConditionUpgrading hu1
  have hconds : ∀ x ∈ (((r.c.Status.ClearCondition ClusterConditionScaling).ClearCondition
      ClusterConditionUpgrading).SetVersion r.c.Cluster.Spec.Version).Conditions,
      x.Type_ ≠ ClusterConditionScaling ∧ x.Type_ ≠ ClusterConditionUpgrading := by
    intro x hx
    have hx2 : x ∈ ((r.c.Status.ClearCondition ClusterConditionScaling).ClearCondition
        ClusterConditionUpgrading).Conditions := hx
    rw [hc2] at hx2
    have h3 := List.mem_filter.mp hx2
    have hx3 : x ∈ (r.c.Status.ClearCondition ClusterConditionScaling).Conditions := h3.1
    rw [hc1] at hx3
    have h4 := List.mem_filter.mp hx3
    exact ⟨by simpa using h4.2, by simpa using h3.2⟩
  rw [hout]
  refine ⟨rfl, rfl, rfl, ?_, ?_, ?_, ?_, rfl⟩
  · intro x hx
    have hx1 : x ∈ ((((r.c.Status.ClearCondition ClusterConditionScaling).ClearCondition
        ClusterConditionUpgrading).SetVersion r.c.Cluster.Spec.Version).SetReadyCondition
        env.now).Conditions := hx
    by_cases hty : x.Type_ = ClusterConditionAvailable
    · rw [hty]
      exact ⟨by decide, by decide⟩
    · exact hconds x (setClusterCondition_other _ _ x hx1 hty)
  · exact (setClusterCondition_fields _ _).1
  · exact (setClusterCondition_fields _ _).2
  · exact setClusterCondition_mem _ _

/-- Witness of C8: the example cluster in its steady state (three members, three pods on the
desired version, a stale Scaling condition in the status). -/
theorem reconcile_steady_state_witness :
    (reconcile exampleEnv
      [examplePod "a" "3.2.13", examplePod "b" "3.2.13", examplePod "c" "3.2.13"]
      (exampleRun 3 none (some exampleMembers3))).1 = .ok :=
  (reconcile_steady_state exampleEnv
    [examplePod "a" "3.2.13", examplePod "b" "3.2.13", examplePod "c" "3.2.13"]
    (exampleRun 3 none (some exampleMembers3)) (by decide) (by decide) (by decide)
    (by decide)).1

/-! ### Defaults -/

theorem len_eq_zero_iff (s : String) : len s = 0 ↔ s = "" := by
  obtain ⟨cs⟩ := s
  cases cs with
  | nil => simp [len, String.utf8ByteSize, String.utf8ByteSize.go]
  | cons c cs =>
    have hpos := Char.utf8Size_pos c
    have hne : (String.mk (c :: cs)) ≠ "" := by
      intro h
      have := congrArg String.data h
      simp at this
    simp only [len, String.utf8ByteSize, String.utf8ByteSize.go, hne, iff_false]
    omega

theorem SetDefaults_Repository (e : Cluster) :
    e.SetDefaults.Spec.Repository =
      if e.Spec.Repository = "" then defaultRepository else e.Spec.Repository := by
  unfold Cluster.SetDefaults
  simp only [len_eq_zero_iff]
  by_cases h : e.Spec.Repository = "" <;> simp only [h, if_true, if_false] <;>
    (split <;> [split; skip]) <;> (first | rfl | (split <;> rfl))

theorem SetDefaults_Version (e : Cluster) :
    e.SetDefaults.Spec.Version =
      TrimLeft (if e.Spec.Version = "" then DefaultEtcdVersion else e.Spec.Version) "v" := by
  unfold Cluster.SetDefaults
  simp only [len_eq_zero_iff]
  by_cases h : e.Spec.Repository = "" <;> by_cases hv : e.Spec.Version = "" <;>
    simp only [h, hv, if_true, if_false] <;>
    (split <;> [split; skip]) <;> rfl

theorem head_dropWhile_not (p : Char → Bool) (l : List Char) (c : Char)
    (h : (l.dropWhile p).head? = some c) : p c = false := by
  induction l with
  | nil => simp at h
  | cons x xs ih =>
    by_cases hx : p x = true
    · rw [List.dropWhile_cons_of_pos hx] at h
      exact ih h
    · rw [List.dropWhile_cons_of_neg hx] at h
      simp at h
      subst h
      simpa using hx

theorem dropWhile_eq_nil_iff_all (p : Char → Bool) (l : List Char) :
    l.dropWhile p = [] ↔ ∀ c ∈ l, p c = true := by
  induction l with
  | nil => simp
  | cons x xs ih =>
    by_cases hx : p x = true
    · rw [List.dropWhile_cons_of_pos hx, ih]
      simp [hx]
    · rw [List.dropWhile_cons_of_neg hx]
      simp [hx]

theorem TrimLeft_v_head (s : String) : (TrimLeft s "v").data.head? ≠ some 'v' := by
  intro h
  have := head_dropWhile_not _ _ _ h
  simp at this

theorem TrimLeft_v_eq_empty_iff (s : String) :
    TrimLeft s "v" = "" ↔ ∀ ch ∈ s.data, ch = 'v' := by
  unfold TrimLeft
  constructor
  · intro h
    have h2 := congrArg String.data h
    simp only at h2
    have h3 : List.dropWhile (fun ch => "v".data.contains ch) s.data = [] := h2
    rw [dropWhile_eq_nil_iff_all] at h3
    intro ch hch
    simpa using h3 ch hch
  · intro h
    have h3 : List.dropWhile (fun ch => "v".data.contains ch) s.data = [] := by
      rw [dropWhile_eq_nil_iff_all]
      intro ch hch
      simpa using h ch hch
    rw [h3]

/-- C11 (as stated) fails: for the spec with empty repository and version "v" the version
is not empty, so the default is not taken, and trimming the leading "v" leaves the empty
string: after `SetDefaults` the version is empty. -/
theorem SetDefaults_version_v_becomes_empty :
    (Cluster.SetDefaults
      { exampleCluster with
        Spec := { exampleCluster.Spec with Repository := "", Version := "v" } }).Spec.Repository
      = "quay.io/coreos/etcd" ∧
    (Cluster.SetDefaults
      { exampleCluster with
        Spec := { exampleCluster.Spec with Repository := "", Version := "v" } }).Spec.Version
      = "" := by
  decide

/-- C11 (amended). For any spec, in particular one with empty repository and/or empty
version: after `SetDefaults` the repository is non-empty, an empty repository has become
"quay.io/coreos/etcd" and a non-empty one is unchanged; an empty version has become "3.2.13";
the version has no leading "v"; and the version is non-empty except when the given version
was a non-empty string made of the letter "v" only, which is trimmed to the empty string. -/
theorem SetDefaults_resolves (e : Cluster) :
    e.SetDefaults.Spec.Repository ≠ "" ∧
    (e.Spec.Repository = "" → e.SetDefaults.Spec.Repository = "quay.io/coreos/etcd") ∧
    (e.Spec.Repository ≠ "" → e.SetDefaults.Spec.Repository = e.Spec.Repository) ∧
    (e.Spec.Version = "" → e.SetDefaults.Spec.Version = "3.2.13") ∧
    e.SetDefaults.Spec.Version.data.head? ≠ some 'v' ∧
    (e.SetDefaults.Spec.Version = "" ↔
      e.Spec.Version ≠ "" ∧ ∀ ch ∈ e.Spec.Version.data, ch = 'v') := by
  rw [SetDefaults_Repository, SetDefaults_Version]
  refine ⟨?_, ?_, ?_, ?_, TrimLeft_v_head _, ?_⟩
  · by_cases h : e.Spec.Repository = ""
    · rw [if_pos h]; decide
    · rw [if_neg h]; exact h
  · intro h; rw [if_pos h]; rfl
  · intro h; rw [if_neg h]
  · intro h; rw [if_pos h]; decide
  · by_cases h : e.Spec.Version = ""
    · rw [if_pos h]
      constructor
      · intro h2; exact absurd h2 (by decide)
      · intro h2; exact absurd h h2.1
    · rw [if_neg h, TrimLeft_v_eq_empty_iff]
      exact ⟨fun h2 => ⟨h, h2⟩, fun h2 => h2.2⟩

/-- Witness of C11 (amended): the example document with empty repository and empty version. -/
theorem SetDefaults_resolves_witness :
    (Cluster.SetDefaults
      { exampleCluster with
        Spec := { exampleCluster.Spec with Repository := "", Version := "" } }).Spec.Version
      = "3.2.13" :=
  (SetDefaults_resolves
    { exampleCluster with
      Spec := { exampleCluster.Spec with Repository := "", Version := "" } }).2.2.2.1 rfl

/-- C12. `Setup` on a tracker whose phase is Creating returns `errCreatedCluster`, and `Setup`
on a tracker whose phase is none of Unset, Creating, Running (so in particular Failed) returns
the unexpected-phase error; in both cases the run is returned exactly as it was: no field of
the tracker (status, phase, member set, TLS context, stored document) is changed and no
collaborator call is made. -/
theorem Setup_rejects_phase (env : Env) (r : Run) :
    (r.c.Status.Phase = ClusterPhaseCreating → Setup env r = (.err .errCreatedCluster, r)) ∧
    (r.c.Status.Phase ≠ ClusterPhaseNone → r.c.Status.Phase ≠ ClusterPhaseCreating →
      r.c.Status.Phase ≠ ClusterPhaseRunning →
      Setup env r = (.err (.errorf ("unexpected cluster phase: " ++ r.c.Status.Phase)), r)) ∧
    (r.c.Status.Phase = ClusterPhaseFailed →
      Setup env r = (.err (.errorf "unexpected cluster phase: Failed"), r)) := by
  refine ⟨?_, ?_, ?_⟩
  · intro h
    unfold Setup
    rw [h]
    rfl
  · intro h1 h2 h3
    unfold Setup
    rw [if_neg h1, if_neg h2, if_neg h3]
  · intro h
    unfold Setup
    rw [h]
    rfl

/-- Witness of C12: the example tracker in phase Failed. -/
theorem Setup_rejects_phase_witness :
    Setup exampleEnv
        ((exampleRun 3 none none).setStatus { exampleStatus with Phase := ClusterPhaseFailed }) =
      (.err (.errorf "unexpected cluster phase: Failed"),
        (exampleRun 3 none none).setStatus { exampleStatus with Phase := ClusterPhaseFailed }) :=
  (Setup_rejects_phase exampleEnv
    ((exampleRun 3 none none).setStatus { exampleStatus with Phase := ClusterPhaseFailed })).2.2
    rfl

/-- C15 (as stated) fails: a new document with the same size, paused flag and version as the
stored one but another repository is not ignored: the stored document is replaced by it. -/
theorem handleUpdateEvent_replaces_equal_spec :
    isSpecEqual
      ({ exampleCluster with
          Spec := { exampleCluster.Spec with Repository := "example.org/etcd" } }).Spec
      (exampleRun 3 none (some exampleMembers3)).c.Cluster.Spec = true ∧
    (handleUpdateEvent
      { exampleCluster with Spec := { exampleCluster.Spec with Repository := "example.org/etcd" } }
      (exampleRun 3 none (some exampleMembers3))).2.c.Cluster ≠
      (exampleRun 3 none (some exampleMembers3)).c.Cluster ∧
    (handleUpdateEvent
      { exampleCluster with Spec := { exampleCluster.Spec with Repository := "example.org/etcd" } }
      (exampleRun 3 none (some exampleMembers3))).2.c.Cluster.Spec.Repository =
      "example.org/etcd" := by
  decide

/-- C15 (amended). For every tracker and every newer desired document, `handleUpdateEvent`
replaces the stored document by the new one and returns nil, whether or not size, paused and
version equal those of the stored document (`isSpecEqual`, which compares exactly these three
fields, only selects what is logged); the tracker's status, member set and TLS context are
unchanged and no collaborator call is made. -/
theorem handleUpdateEvent_replaces_document (cl : Cluster) (r : Run) :
    handleUpdateEvent cl r = (.ok, { r with c := { r.c with Cluster := cl } }) ∧
    (handleUpdateEvent cl r).2.c.Cluster = cl ∧
    (handleUpdateEvent cl r).2.c.Status = r.c.Status ∧
    (handleUpdateEvent cl r).2.c.Members = r.c.Members ∧
    (handleUpdateEvent cl r).2.log = r.log ∧
    (isSpecEqual cl.Spec r.c.Cluster.Spec = true ↔
      cl.Spec.Size = r.c.Cluster.Spec.Size ∧ cl.Spec.Paused = r.c.Cluster.Spec.Paused ∧
        cl.Spec.Version = r.c.Cluster.Spec.Version) := by
  have h : handleUpdateEvent cl r = (.ok, { r with c := { r.c with Cluster := cl } }) := by
    unfold handleUpdateEvent
    dsimp only
    split <;> rfl
  refine ⟨h, by rw [h], by rw [h], by rw [h], by rw [h], ?_⟩
  unfold isSpecEqual
  by_cases h1 : cl.Spec.Size = r.c.Cluster.Spec.Size <;>
    by_cases h2 : cl.Spec.Paused = r.c.Cluster.Spec.Paused <;>
    by_cases h3 : cl.Spec.Version = r.c.Cluster.Spec.Version <;> simp [h1, h2, h3]

/-- C18. For every tracker state, running pod list and answers of the collaborators, in the
run in which `reconcile` ends, whether with success, with an error (lost quorum, failed add,
failed remove, failed upgrade) or with a panic, the status size equals the size of the
tracker's member set in that run. -/
theorem reconcile_status_size_eq_members_size (env : Env) (pods : List Pod) (r : Run) :
    (reconcile env pods r).2.c.Status.Size = ((reconcile env pods r).2.c.members.Size : Int) := by
  unfold reconcile
  rfl

/-! ### Polling -/

theorem pollLoop_eq (uid : String) (items : List Pod) (running pending : List Pod) :
    pollLoop uid items (running, pending) =
      (running ++ items.filter (fun p => keptByPoll uid p && decide (p.Phase = PodRunning)),
       pending ++ items.filter (fun p => keptByPoll uid p && decide (p.Phase = PodPending))) := by
  induction items generalizing running pending with
  | nil => simp [pollLoop]
  | cons pod rest ih =>
    unfold pollLoop
    by_cases h1 : pod.DeletionTimestamp.isSome = true
    · have hk : keptByPoll uid pod = false := by
        simp only [keptByPoll]
        cases hd : pod.DeletionTimestamp with
        | none => rw [hd] at h1; simp at h1
        | some t => simp
      rw [if_pos h1, ih]
      simp [List.filter_cons, hk]
    · rw [if_neg h1]
      have hnone : pod.DeletionTimestamp.isNone = true := by
        cases hd : pod.DeletionTimestamp with
        | none => rfl
        | some t => rw [hd] at h1; simp at h1
      by_cases h2 : pod.OwnerReferences.length < 1
      · have hk : keptByPoll uid pod = false := by
          simp only [keptByPoll]
          have : ¬ (1 ≤ pod.OwnerReferences.length) := by omega
          simp [this]
        rw [if_pos h2, ih]
        simp [List.filter_cons, hk]
      · rw [if_neg h2]
        by_cases h3 : pod.OwnerReferences.head? ≠ some uid
        · have hk : keptByPoll uid pod = false := by
            simp only [keptByPoll]
            simp [h3]
          rw [if_pos h3, ih]
          simp [List.filter_cons, hk]
        · rw [if_neg h3]
          have hk : keptByPoll uid pod = true := by
            simp only [keptByPoll]
            have h2b : 1 ≤ pod.OwnerReferences.length := by omega
            have h3b : pod.OwnerReferences.head? = some uid := not_not.mp h3
            simp [hnone, h2b, h3b]
          by_cases hr : pod.Phase = PodRunning
          · have hne : ¬ (PodRunning = PodPending) := by decide
            rw [if_pos hr, ih]
            simp [List.filter_cons, hk, hr, hne]
          · rw [if_neg hr]
            by_cases hp : pod.Phase = PodPending
            · have hne : ¬ (PodPending = PodRunning) := by decide
              rw [if_pos hp, ih]
              simp [List.filter_cons, hk, hp, hne]
            · rw [if_neg hp, ih]
              simp [List.filter_cons, hk, hr, hp]

theorem PollPods_ok (env : Env) (r : Run) (items : List Pod)
    (h : env.podList r.c.Cluster.Namespace r.c.Cluster.Name = .ok items) :
    PollPods env r =
      (.ok (items.filter (fun p => keptByPoll r.c.Cluster.UID p && decide (p.Phase = PodRunning)),
            items.filter (fun p => keptByPoll r.c.Cluster.UID p && decide (p.Phase = PodPending))),
        r.call (.podList r.c.Cluster.Namespace r.c.Cluster.Name)) := by
  unfold PollPods
  simp only [h, pollLoop_eq, List.nil_append]

/-- C20 (as stated) fails: a listed pod of the cluster that is not marked for deletion and
whose phase is Failed is not discarded by any of the three tests, yet it appears in neither
returned list: it is not put among the pending pods. -/
theorem PollPods_drops_failed_pod :
    keptByPoll "uid-1" { examplePod "a" "3.2.13" with Phase := "Failed" } = true ∧
    (PollPods (exampleEnvPolling [{ examplePod "a" "3.2.13" with Phase := "Failed" }])
      (exampleRun 3 none (some exampleMembers3))).1 = .ok ([], []) :=
  ⟨by decide, rfl⟩

/-- C20 (amended). For every list of workloads returned by the orchestration collaborator,
`PollPods` discards exactly the entries that are marked for deletion, have no owner
reference, or whose first owner UID differs from the cluster's UID, and sorts the rest by
reported phase: the running list is the sublist, in list order, of the kept entries whose
phase is Running, the pending list is the sublist of the kept entries whose phase is Pending,
and a kept entry in any other phase appears in neither list. No entry appears in both and no
discarded entry appears in either. -/
theorem PollPods_partition (env : Env) (r : Run) (items : List Pod)
    (h : env.podList r.c.Cluster.Namespace r.c.Cluster.Name = .ok items) :
    ∃ running pending,
      PollPods env r =
        (.ok (running, pending), r.call (.podList r.c.Cluster.Namespace r.c.Cluster.Name)) ∧
      running = items.filter
        (fun p => keptByPoll r.c.Cluster.UID p && decide (p.Phase = PodRunning)) ∧
      pending = items.filter
        (fun p => keptByPoll r.c.Cluster.UID p && decide (p.Phase = PodPending)) ∧
      (∀ p, p ∈ running ↔ p ∈ items ∧ keptByPoll r.c.Cluster.UID p = true ∧
        p.Phase = PodRunning) ∧
      (∀ p, p ∈ pending ↔ p ∈ items ∧ keptByPoll r.c.Cluster.UID p = true ∧
        p.Phase = PodPending) ∧
      (∀ p, ¬ (p ∈ running ∧ p ∈ pending)) ∧
      (∀ p, keptByPoll r.c.Cluster.UID p = true →
        (p.DeletionTimestamp = none ∧ p.OwnerReferences ≠ [] ∧
          p.OwnerReferences.head? = some r.c.Cluster.UID)) := by
  refine ⟨_, _, PollPods_ok env r items h, rfl, rfl, ?_, ?_, ?_, ?_⟩
  · intro p
    simp [List.mem_filter]
  · intro p
    simp [List.mem_filter]
  · intro p hp
    have h1 := (List.mem_filter.mp hp.1).2
    have h2 := (List.mem_filter.mp hp.2).2
    simp only [Bool.and_eq_true, decide_eq_true_eq] at h1 h2
    have : PodRunning = PodPending := h1.2.symm.trans h2.2
    exact absurd this (by decide)
  · intro p hk
    simp only [keptByPoll, Bool.and_eq_true, decide_eq_true_eq] at hk
    obtain ⟨⟨h1, h2⟩, h3⟩ := hk
    refine ⟨by simpa using h1, ?_, h3⟩
    intro hnil
    rw [hnil] at h2
    simp at h2

/-- Witness of C20 (amended): a poll that lists a running, a pending and a foreign pod. -/
theorem PollPods_partition_witness :
    (PollPods
      (exampleEnvPolling [examplePod "a" "3.2.13",
        { examplePod "b" "3.2.13" with Phase := PodPending },
        { examplePod "z" "3.2.13" with OwnerReferences := ["uid-2"] }])
      (exampleRun 3 none (some exampleMembers3))).1 =
      .ok ([examplePod "a" "3.2.13"], [{ examplePod "b" "3.2.13" with Phase := PodPending }]) := by
  obtain ⟨running, pending, h1, h2, h3, _⟩ := PollPods_partition
    (exampleEnvPolling [examplePod "a" "3.2.13",
      { examplePod "b" "3.2.13" with Phase := PodPending },
      { examplePod "z" "3.2.13" with OwnerReferences := ["uid-2"] }])
    (exampleRun 3 none (some exampleMembers3)) _ rfl
  rw [h1, h2, h3]
  rfl

/-! ### The pass -/

theorem UpdateCRStatus_Status (env : Env) (r : Run) :
    (UpdateCRStatus env r).2.c.Status = r.c.Status := by
  unfold UpdateCRStatus
  split <;> rfl

theorem UpdateCRStatus_Members (env : Env) (r : Run) :
    (UpdateCRStatus env r).2.c.Members = r.c.Members := by
  unfold UpdateCRStatus
  split <;> rfl

theorem UpdateCRStatus_log (env : Env) (r : Run) :
    ∃ ext, (UpdateCRStatus env r).2.log = r.log ++ ext := by
  unfold UpdateCRStatus
  split
  · exact ⟨[], by simp⟩
  · exact ⟨[_], rfl⟩

theorem UpdateMembers_log (env : Env) (known : MemberSet) (r : Run) :
    (UpdateMembers env known r).2.log = r.log ++ [.ListMembers (known.ClientURLs env)] := by
  unfold UpdateMembers
  dsimp only
  split
  · rfl
  · split <;> rfl

theorem reconcile_log (env : Env) (pods : List Pod) (r : Run) :
    ∃ ext, (reconcile env pods r).2.log = r.log ++ ext := by
  obtain ⟨ext, h, _⟩ := reconcileBody_change env pods r
  exact ⟨ext, h⟩

theorem checkFromPoll_log (env : Env) (r : Run) :
    ∃ rest, (checkFromPoll env r).2.log =
      r.log ++ Call.podList r.c.Cluster.Namespace r.c.Cluster.Name :: rest := by
  unfold checkFromPoll
  have hrun : (PollPods env r).2 = r.call (.podList r.c.Cluster.Namespace r.c.Cluster.Name) := by
    unfold PollPods
    dsimp only
    split <;> rfl
  cases hp : PollPods env r with
  | mk res r1 =>
    rw [hp] at hrun
    simp only at hrun
    subst hrun
    cases res with
    | error e => exact ⟨[], rfl⟩
    | ok lists =>
      obtain ⟨running, pending⟩ := lists
      simp only
      split
      · exact ⟨[], rfl⟩
      · have href : ∃ ext, (if (r.call (.podList r.c.Cluster.Namespace
            r.c.Cluster.Name)).c.Members.isNone = true then
              UpdateMembers env (PodsToMemberSet running
                (r.call (.podList r.c.Cluster.Namespace r.c.Cluster.Name)).c.IsSecureClient)
                (r.call (.podList r.c.Cluster.Namespace r.c.Cluster.Name))
            else (Outcome.ok, r.call (.podList r.c.Cluster.Namespace r.c.Cluster.Name))).2.log =
            r.log ++ Call.podList r.c.Cluster.Namespace r.c.Cluster.Name :: ext := by
          split
          · exact ⟨[.ListMembers (MemberSet.ClientURLs env
              (PodsToMemberSet running r.c.IsSecureClient))], by rw [UpdateMembers_log]; simp⟩
          · exact ⟨[], rfl⟩
        obtain ⟨ext, hext⟩ := href
        generalize (if (r.call (.podList r.c.Cluster.Namespace
            r.c.Cluster.Name)).c.Members.isNone = true then
              UpdateMembers env (PodsToMemberSet running
                (r.call (.podList r.c.Cluster.Namespace r.c.Cluster.Name)).c.IsSecureClient)
                (r.call (.podList r.c.Cluster.Namespace r.c.Cluster.Name))
            else (Outcome.ok, r.call (.podList r.c.Cluster.Namespace r.c.Cluster.Name))) =
            refreshed at hext
        obtain ⟨o, r2⟩ := refreshed
        simp only at hext
        cases o with
        | ok =>
          simp only
          obtain ⟨ext3, h3⟩ := reconcile_log env running r2
          cases hrec : reconcile env running r2 with
          | mk o3 r3 =>
            rw [hrec] at h3
            simp only at h3
            cases o3 with
            | ok =>
              simp only
              obtain ⟨ext4, h4⟩ := UpdateCRStatus_log env (updateMemberStatus running r3)
              refine ⟨ext ++ ext3 ++ ext4, ?_⟩
              rw [h4]
              simp [updateMemberStatus, h3, hext]
            | err e => exact ⟨ext ++ ext3, by simp [h3, hext]⟩
            | panic => exact ⟨ext ++ ext3, by simp [h3, hext]⟩
        | err e => exact ⟨ext, hext⟩
        | panic => exact ⟨ext, hext⟩

theorem checkFromPoll_ne_err (env : Env) (r : Run) (e : Error) :
    (checkFromPoll env r).1 ≠ .err e := by
  unfold checkFromPoll
  cases PollPods env r with
  | mk res r1 =>
    cases res with
    | error e0 => simp
    | ok lists =>
      obtain ⟨running, pending⟩ := lists
      simp only
      split
      · simp
      · generalize (if r1.c.Members.isNone = true then
            UpdateMembers env (PodsToMemberSet running r1.c.IsSecureClient) r1
          else (Outcome.ok, r1)) = refreshed
        obtain ⟨o, r2⟩ := refreshed
        cases o with
        | ok =>
          simp only
          generalize reconcile env running r2 = rec
          obtain ⟨o3, r3⟩ := rec
          cases o3 <;> simp
        | err e1 => simp
        | panic => simp

theorem Check_ne_err (env : Env) (r : Run) (e : Error) : (Check env r).1 ≠ .err e := by
  unfold Check
  split
  · simp
  · exact checkFromPoll_ne_err env _ e

theorem Do_ne_err (env : Env) (cl : Cluster) (h : Handler) (e : Error) :
    (Do env cl h).1 ≠ .err e := by
  unfold Do
  cases h.MetaCache.Cache env cl with
  | none => simp
  | some res =>
    obtain ⟨cache, cached⟩ := res
    simp only
    cases cached.tracker with
    | none => simp
    | some t =>
      simp only
      generalize (if (!cached.existed) = true then doFirstSeen env { c := t, log := h.log }
        else (Outcome.ok, { c := t, log := h.log })) = first
      obtain ⟨o, r1⟩ := first
      cases o with
      | panic => simp
      | ok =>
        simp only
        generalize Check env r1 = chk
        obtain ⟨o2, r2⟩ := chk
        cases o2 <;> simp
      | err e1 =>
        simp only
        generalize Check env r1 = chk
        obtain ⟨o2, r2⟩ := chk
        cases o2 <;> simp

/-- C16. For every tracker whose desired spec has paused = true, one pass (`Check`) sets the
control-paused flag of the status to true and does nothing else: every other status field,
the member set and the stored document are unchanged, no collaborator call (no poll, no
workload-API or admin-API call) is made, and the pass returns success. When paused = false
the pass clears the control-paused flag first: the rest of the pass runs on the tracker with
the flag cleared, and the first call it makes is the poll. -/
theorem Check_paused_only_sets_flag (env : Env) (r : Run) :
    (r.c.Cluster.Spec.Paused = true →
      Check env r = (.ok, r.setStatus { r.c.Status with ControlPaused := true }) ∧
      (Check env r).2.log = r.log ∧ (Check env r).2.c.Members = r.c.Members ∧
      (Check env r).2.c.Cluster = r.c.Cluster) ∧
    (r.c.Cluster.Spec.Paused = false →
      Check env r = checkFromPoll env (r.setStatus { r.c.Status with ControlPaused := false }) ∧
      ∃ rest, (Check env r).2.log =
        r.log ++ Call.podList r.c.Cluster.Namespace r.c.Cluster.Name :: rest) := by
  constructor
  · intro hp
    have h : Check env r = (.ok, r.setStatus { r.c.Status with ControlPaused := true }) := by
      unfold Check
      rw [if_pos hp]
      rfl
    exact ⟨h, by rw [h]; rfl, by rw [h]; rfl, by rw [h]; rfl⟩
  · intro hp
    have h : Check env r =
        checkFromPoll env (r.setStatus { r.c.Status with ControlPaused := false }) := by
      unfold Check
      rw [hp]
      rfl
    refine ⟨h, ?_⟩
    rw [h]
    exact checkFromPoll_log env _

/-- Witness of C16: the example tracker with a paused spec. -/
theorem Check_paused_only_sets_flag_witness :
    (Check exampleEnv
      { (exampleRun 3 none (some exampleMembers3)) with
        c := { (exampleRun 3 none (some exampleMembers3)).c with
          Cluster := { exampleCluster with Spec := { exampleCluster.Spec with Paused := true } } } }
      ).2.log = [] :=
  ((Check_paused_only_sets_flag exampleEnv
      { (exampleRun 3 none (some exampleMembers3)) with
        c := { (exampleRun 3 none (some exampleMembers3)).c with
          Cluster := { exampleCluster with Spec := { exampleCluster.Spec with Paused := true } } } }
      ).1 rfl).2.1

/-- C17 (as stated) fails for a previous status that has the control-paused flag set: the
spec is unpaused and the poll returns a pending pod of the cluster, so the pass stops after
the poll, but it has cleared the flag: the status is not what it was before the pass. -/
theorem Check_pending_clears_paused_flag :
    ((exampleRun 3 none (some exampleMembers3)).setStatus
      { exampleStatus with ControlPaused := true }).c.Cluster.Spec.Paused = false ∧
    (PollPods (exampleEnvPolling [{ examplePod "b" "3.2.13" with Phase := PodPending }])
      ((exampleRun 3 none (some exampleMembers3)).setStatus
        { exampleStatus with ControlPaused := true })).1 =
      .ok ([], [{ examplePod "b" "3.2.13" with Phase := PodPending }]) ∧
    (Check (exampleEnvPolling [{ examplePod "b" "3.2.13" with Phase := PodPending }])
      ((exampleRun 3 none (some exampleMembers3)).setStatus
        { exampleStatus with ControlPaused := true })).2.c.Status ≠
      ((exampleRun 3 none (some exampleMembers3)).setStatus
        { exampleStatus with ControlPaused := true }).c.Status :=
  ⟨rfl, rfl, by decide⟩

/-- C17 (amended). For every unpaused tracker, if the poll returns at least one pending
workload owned by the cluster, the pass (`Check`) returns success after the poll alone: no
admin-API call, no workload create, delete or patch, no membership refresh and no status
persistence is made, the member set and the stored document are exactly as before, and the
status is as before except that the control-paused flag is cleared (so it is exactly as
before when the flag was not set). -/
theorem Check_pending_only_polls (env : Env) (r : Run) (items : List Pod)
    (hp : r.c.Cluster.Spec.Paused = false)
    (hlist : env.podList r.c.Cluster.Namespace r.c.Cluster.Name = .ok items)
    (hpend : ∃ p ∈ items, keptByPoll r.c.Cluster.UID p = true ∧ p.Phase = PodPending) :
    Check env r =
      (.ok, (r.setStatus { r.c.Status with ControlPaused := false }).call
        (.podList r.c.Cluster.Namespace r.c.Cluster.Name)) ∧
    (Check env r).2.log = r.log ++ [.podList r.c.Cluster.Namespace r.c.Cluster.Name] ∧
    (Check env r).2.c.Members = r.c.Members ∧
    (Check env r).2.c.Status = { r.c.Status with ControlPaused := false } ∧
    (r.c.Status.ControlPaused = false → (Check env r).2.c.Status = r.c.Status) := by
  have hpoll := PollPods_ok env (r.setStatus { r.c.Status with ControlPaused := false }) items
    hlist
  have hne : (items.filter
      (fun p => keptByPoll r.c.Cluster.UID p && decide (p.Phase = PodPending))).length > 0 := by
    obtain ⟨p, hmem, hk, hph⟩ := hpend
    apply List.length_pos_of_mem
    exact List.mem_filter.mpr ⟨hmem, by simp [hk, hph]⟩
  have h : Check env r =
      (.ok, (r.setStatus { r.c.Status with ControlPaused := false }).call
        (.podList r.c.Cluster.Namespace r.c.Cluster.Name)) := by
    unfold Check
    rw [hp]
    simp only [Bool.false_eq_true, if_false, ClusterStatus.Control]
    unfold checkFromPoll
    rw [hpoll]
    simp only [Run.setStatus_Cluster]
    rw [if_pos hne]
  refine ⟨h, by rw [h]; rfl, by rw [h]; rfl, by rw [h]; rfl, ?_⟩
  intro hflag
  rw [h]
  show ({ r.c.Status with ControlPaused := false } : ClusterStatus) = r.c.Status
  rw [← hflag]

/-- Witness of C17 (amended): the example tracker and a poll that returns a pending pod. -/
theorem Check_pending_only_polls_witness :
    (Check (exampleEnvPolling [{ examplePod "b" "3.2.13" with Phase := PodPending }])
      (exampleRun 3 none (some exampleMembers3))).2.log = [.podList "default" "example"] :=
  (Check_pending_only_polls
    (exampleEnvPolling [{ examplePod "b" "3.2.13" with Phase := PodPending }])
    (exampleRun 3 none (some exampleMembers3))
    [{ examplePod "b" "3.2.13" with Phase := PodPending }] rfl rfl
    ⟨_, List.mem_singleton.mpr rfl, by decide, rfl⟩).2.1

/-! ### `reconcile` never writes the status back -/

theorem removeMember_noStatusWrite (env : Env) (t : Option Member) (r : Run) :
    OnlyCallsOutside Call.isUpdateCluster r (removeMember env t r).2 := by
  cases t with
  | none => exact OnlyCallsOutside.refl _ _ _ (by simp [removeMember])
  | some m =>
    rcases removeMember_run env m r with h | h | h <;> rw [h]
    · exact ⟨[_], rfl, by simp [Call.isUpdateCluster]⟩
    · exact ⟨_, by simp only [Run.call_log, Run.setMembers_log, List.append_assoc]; rfl,
        by simp [Call.isUpdateCluster]⟩
    · exact ⟨_, by simp only [Run.call_log, Run.setMembers_log, List.append_assoc]; rfl,
        by simp [Call.isUpdateCluster]⟩

theorem addOneMember_noStatusWrite (env : Env) (r : Run) :
    OnlyCallsOutside Call.isUpdateCluster r (addOneMember env r).2 := by
  rw [addOneMember_eq]
  dsimp only
  split
  · exact ⟨[_], rfl, by simp [Call.isUpdateCluster]⟩
  · split
    · exact ⟨_, by simp only [List.append_assoc]; rfl, by simp [Call.isUpdateCluster]⟩
    · rename_i id hadd
      split
      · exact ⟨_, by simp only [List.append_assoc]; rfl, by simp [Call.isUpdateCluster]⟩
      · rename_i ms hms
        generalize hnm : ({ (MetaCluster.newMember env r.c) with ID := id } : Member) = nm
        generalize hr4 : (Run.mk _ _) = r4
        obtain ⟨ext, hlog, hwc⟩ := createPod_log env (ms.Add nm) nm "existing" r4
        have hext : ∀ k ∈ ext, k.isUpdateCluster = false := by
          intro k hk
          have := hwc k hk
          cases k <;> simp_all [Call.isWorkloadCreate, Call.isUpdateCluster]
        have h04 : OnlyCallsOutside Call.isUpdateCluster r r4 :=
          ⟨_, by rw [← hr4]; simp only [List.append_assoc]; rfl,
            by simp [Call.isUpdateCluster]⟩
        have h45 : OnlyCallsOutside Call.isUpdateCluster r4
            (createPod env (ms.Add nm) nm "existing" r4).2 := ⟨ext, hlog, hext⟩
        cases hcp : createPod env (ms.Add nm) nm "existing" r4 with
        | mk o r5 =>
          rw [hcp] at h45
          simp only at h45
          have h05 := OnlyCallsOutside.trans r4 h04 h45
          cases o with
          | ok =>
            exact OnlyCallsOutside.trans r5 h05 ⟨[_], rfl, by simp [Call.isUpdateCluster]⟩
          | err e => exact h05
          | panic => exact h05

theorem resize_noStatusWrite (env : Env) (r : Run) :
    OnlyCallsOutside Call.isUpdateCluster r (resize env r).2 := by
  unfold resize
  split
  · exact OnlyCallsOutside.refl _ _ _ rfl
  · split
    · exact addOneMember_noStatusWrite env r
    · exact OnlyCallsOutside.trans _ (OnlyCallsOutside.refl _ r _ rfl)
        (removeMember_noStatusWrite env _ _)

theorem removeUnknownPods_noStatusWrite (env : Env) (ms : List Member) (r : Run) :
    OnlyCallsOutside Call.isUpdateCluster r (removeUnknownPods env ms r).2 := by
  obtain ⟨ext, hlog, hext⟩ := removeUnknownPods_log env ms r
  refine ⟨ext, hlog, ?_⟩
  intro k hk
  obtain ⟨name, rfl⟩ := hext k hk
  rfl

theorem removeDeadMember_noStatusWrite (env : Env) (t : Option Member) (r : Run) :
    OnlyCallsOutside Call.isUpdateCluster r (removeDeadMember env t r).2 := by
  cases t with
  | none => exact OnlyCallsOutside.refl _ _ _ rfl
  | some m =>
    exact OnlyCallsOutside.trans (r.call (.eventCreate (.ReplacingDeadMemberEvent m.Name)))
      ⟨[_], rfl, by simp [Call.isUpdateCluster]⟩ (removeMember_noStatusWrite env _ _)

theorem reconcileMembers_noStatusWrite (env : Env) (running : MemberSet) (r : Run) :
    OnlyCallsOutside Call.isUpdateCluster r (reconcileMembers env running r).2 := by
  unfold reconcileMembers
  dsimp only
  have h1 := removeUnknownPods_noStatusWrite env (running.Diff r.c.members) r
  cases hp : removeUnknownPods env (running.Diff r.c.members) r with
  | mk o r1 =>
    rw [hp] at h1
    simp only at h1
    cases o with
    | ok =>
      simp only
      split
      · exact OnlyCallsOutside.trans r1 h1 (resize_noStatusWrite env r1)
      · split
        · exact h1
        · exact OnlyCallsOutside.trans r1 h1 (removeDeadMember_noStatusWrite env _ r1)
    | err e => exact h1
    | panic => exact h1

theorem upgradeOneMember_noStatusWrite (env : Env) (memberName : String) (r : Run) :
    OnlyCallsOutside Call.isUpdateCluster r (upgradeOneMember env memberName r).2 := by
  rw [upgradeOneMember_eq]
  dsimp only
  split
  · exact ⟨[_], rfl, by simp [Call.isUpdateCluster]⟩
  · split
    · exact ⟨[_], rfl, by simp [Call.isUpdateCluster]⟩
    · split
      · exact ⟨_, by simp only [List.append_assoc]; rfl, by simp [Call.isUpdateCluster]⟩
      · exact ⟨_, by simp only [List.append_assoc]; rfl, by simp [Call.isUpdateCluster]⟩

/-- None of the calls of `reconcile` is the write-back of the stored document. -/
theorem reconcile_noStatusWrite (env : Env) (pods : List Pod) (r : Run) :
    OnlyCallsOutside Call.isUpdateCluster r (reconcile env pods r).2 := by
  have hb : OnlyCallsOutside Call.isUpdateCluster r (reconcileBody env pods r).2 := by
    unfold reconcileBody
    dsimp only
    split
    · exact reconcileMembers_noStatusWrite env _ r
    · split
      · split
        · exact OnlyCallsOutside.refl _ _ _ rfl
        · exact OnlyCallsOutside.trans _ (OnlyCallsOutside.refl _ r _ rfl)
            (upgradeOneMember_noStatusWrite env _ _)
      · exact OnlyCallsOutside.refl _ _ _ rfl
  obtain ⟨ext, hlog, hp⟩ := hb
  exact ⟨ext, by unfold reconcile; exact hlog, hp⟩

/-! ### Where a failing pass ends -/

theorem PollPods_run (env : Env) (r : Run) :
    (PollPods env r).2 = r.call (.podList r.c.Cluster.Namespace r.c.Cluster.Name) := by
  unfold PollPods
  dsimp only
  split <;> rfl

theorem UpdateMembers_err_run (env : Env) (known : MemberSet) (r : Run) (e : Error)
    (h : (UpdateMembers env known r).1 = .err e) :
    (UpdateMembers env known r).2 = r.call (.ListMembers (known.ClientURLs env)) := by
  unfold UpdateMembers at h ⊢
  dsimp only at h ⊢
  cases hl : env.ListMembers (known.ClientURLs env) with
  | error e0 => rfl
  | ok listed =>
    rw [hl] at h
    simp only at h ⊢
    cases hm : membersFromList env (r.call (.ListMembers (known.ClientURLs env))).c listed [] with
    | none => rfl
    | some res =>
      cases res with
      | error e0 => rfl
      | ok members =>
        rw [hm] at h
        simp at h

/-- A membership refresh that fails ends the pass: `Check` returns nil right after the
listing of the members, without a call of `reconcile`. -/
theorem checkFromPoll_refresh_error (env : Env) (r : Run) (running : List Pod) (e1 : Error)
    (hp : (PollPods env r).1 = .ok (running, []))
    (hm : r.c.Members = none)
    (hu : (UpdateMembers env (PodsToMemberSet running r.c.IsSecureClient)
      (r.call (.podList r.c.Cluster.Namespace r.c.Cluster.Name))).1 = .err e1) :
    checkFromPoll env r =
      (.ok, (r.call (.podList r.c.Cluster.Namespace r.c.Cluster.Name)).call
        (.ListMembers ((PodsToMemberSet running r.c.IsSecureClient).ClientURLs env))) := by
  have hrun := PollPods_run env r
  have hrun2 := UpdateMembers_err_run env _ _ e1 hu
  unfold checkFromPoll
  cases hpp : PollPods env r with
  | mk res r1 =>
    rw [hpp] at hp hrun
    simp only at hp hrun
    subst hp hrun
    have hnone : (r.call (.podList r.c.Cluster.Namespace r.c.Cluster.Name)).c.Members.isNone
        = true := by
      show r.c.Members.isNone = true
      rw [hm]; rfl
    simp only [List.length_nil, gt_iff_lt, lt_self_iff_false, if_false, hnone, if_true]
    cases hU : UpdateMembers env (PodsToMemberSet running
        (r.call (.podList r.c.Cluster.Namespace r.c.Cluster.Name)).c.IsSecureClient)
        (r.call (.podList r.c.Cluster.Namespace r.c.Cluster.Name)) with
    | mk o ru =>
      have hu2 : o = .err e1 := by
        have := hu
        rw [show (PodsToMemberSet running r.c.IsSecureClient) = PodsToMemberSet running
          (r.call (.podList r.c.Cluster.Namespace r.c.Cluster.Name)).c.IsSecureClient from rfl,
          hU] at this
        exact this
      have hr2 : ru = (r.call (.podList r.c.Cluster.Namespace r.c.Cluster.Name)).call
          (.ListMembers ((PodsToMemberSet running r.c.IsSecureClient).ClientURLs env)) := by
        have := hrun2
        rw [show (PodsToMemberSet running r.c.IsSecureClient) = PodsToMemberSet running
          (r.call (.podList r.c.Cluster.Namespace r.c.Cluster.Name)).c.IsSecureClient from rfl,
          hU] at this
        exact this
      subst hu2 hr2
      rfl

/-- An error of `reconcile` ends the pass: `Check` returns nil in the state `reconcile` left,
and the pass contains no write-back of the stored document. -/
theorem checkFromPoll_reconcile_error (env : Env) (r : Run) (running : List Pod) (r2 : Run)
    (e1 : Error)
    (hp : (PollPods env r).1 = .ok (running, []))
    (href : (if r.c.Members.isNone then
        UpdateMembers env (PodsToMemberSet running r.c.IsSecureClient)
          (r.call (.podList r.c.Cluster.Namespace r.c.Cluster.Name))
      else (.ok, r.call (.podList r.c.Cluster.Namespace r.c.Cluster.Name))) = (.ok, r2))
    (hrec : (reconcile env running r2).1 = .err e1) :
    checkFromPoll env r = (.ok, (reconcile env running r2).2) ∧
    OnlyCallsOutside Call.isUpdateCluster r (reconcile env running r2).2 := by
  have hrun := PollPods_run env r
  have h12 : OnlyCallsOutside Call.isUpdateCluster r r2 := by
    by_cases hn : r.c.Members.isNone = true
    · rw [if_pos hn] at href
      have hl := UpdateMembers_log env (PodsToMemberSet running r.c.IsSecureClient)
        (r.call (.podList r.c.Cluster.Namespace r.c.Cluster.Name))
      rw [href] at hl
      exact ⟨_, by rw [hl]; simp only [Run.call_log, List.append_assoc]; rfl,
        by simp [Call.isUpdateCluster]⟩
    · rw [if_neg hn] at href
      have h2 : r2 = r.call (.podList r.c.Cluster.Namespace r.c.Cluster.Name) :=
        (congrArg Prod.snd href).symm
      rw [h2]
      exact ⟨[_], rfl, by simp [Call.isUpdateCluster]⟩
  refine ⟨?_, OnlyCallsOutside.trans r2 h12 (reconcile_noStatusWrite env running r2)⟩
  unfold checkFromPoll
  cases hpp : PollPods env r with
  | mk res r1 =>
    rw [hpp] at hp hrun
    simp only at hp hrun
    subst hp hrun
    simp only [List.length_nil, gt_iff_lt, lt_self_iff_false, if_false]
    rw [show (if (r.call (.podList r.c.Cluster.Namespace r.c.Cluster.Name)).c.Members.isNone
        = true then
          UpdateMembers env (PodsToMemberSet running
            (r.call (.podList r.c.Cluster.Namespace r.c.Cluster.Name)).c.IsSecureClient)
            (r.call (.podList r.c.Cluster.Namespace r.c.Cluster.Name))
        else (Outcome.ok, r.call (.podList r.c.Cluster.Namespace r.c.Cluster.Name))) =
        (.ok, r2) from href]
    simp only
    cases hR : reconcile env running r2 with
    | mk o r3 =>
      rw [hR] at hrec
      simp only at hrec
      subst hrec
      rfl

/-- C19 (as stated) fails: in the example cluster (three members) with only pod `a` running,
`reconcile` returns `ErrLostQuorum` to `Check`, but `Check` returns nil to `Do` and `Do`
returns nil to its caller. -/
theorem Check_and_Do_swallow_lost_quorum :
    (reconcile (exampleEnvPolling [examplePod "a" "3.2.13"]) [examplePod "a" "3.2.13"]
      (exampleRun 3 none (some exampleMembers3))).1 = .err .ErrLostQuorum ∧
    (Check (exampleEnvPolling [examplePod "a" "3.2.13"])
      (exampleRun 3 none (some exampleMembers3))).1 = .ok ∧
    (Do (exampleEnvPolling [examplePod "a" "3.2.13"]) exampleCluster exampleHandler).1 = .ok := by
  decide

/-- C19 (amended). `PollPods`, `UpdateMembers` and `reconcile` return their error to their
immediate caller, `Check`; `Check` logs it, ends the pass and returns nil, and `Do` returns
nil whatever `Setup` and `Check` returned: for every pass, neither `Check` nor `Do` ever
returns a non-nil error. A failed poll ends the pass with success right after the poll; a
failed membership refresh ends it right after the listing of the members, before
`reconcile`; a failed `reconcile` ends it in the state `reconcile` left (same calls, same
status, same member set), and the pass contains no write-back of the stored document. -/
theorem Check_and_Do_never_return_error (env : Env) (e : Error) :
    (∀ r : Run, (Check env r).1 ≠ .err e) ∧
    (∀ (cl : Cluster) (h : Handler), (Do env cl h).1 ≠ .err e) ∧
    (∀ (r : Run) (e0 : Error), r.c.Cluster.Spec.Paused = false →
      env.podList r.c.Cluster.Namespace r.c.Cluster.Name = .error e0 →
      (PollPods env (r.setStatus r.c.Status.Control)).1 =
        .error (.errorf ("failed to list running pods: " ++ e0.Error)) ∧
      Check env r = (.ok, (r.setStatus r.c.Status.Control).call
        (.podList r.c.Cluster.Namespace r.c.Cluster.Name))) ∧
    (∀ (r : Run) (running : List Pod) (e1 : Error), r.c.Cluster.Spec.Paused = false →
      (PollPods env (r.setStatus r.c.Status.Control)).1 = .ok (running, []) →
      r.c.Members = none →
      (UpdateMembers env (PodsToMemberSet running r.c.IsSecureClient)
        ((r.setStatus r.c.Status.Control).call
          (.podList r.c.Cluster.Namespace r.c.Cluster.Name))).1 = .err e1 →
      Check env r = (.ok, ((r.setStatus r.c.Status.Control).call
        (.podList r.c.Cluster.Namespace r.c.Cluster.Name)).call
        (.ListMembers ((PodsToMemberSet running r.c.IsSecureClient).ClientURLs env)))) ∧
    (∀ (r : Run) (running : List Pod) (r2 : Run) (e1 : Error),
      r.c.Cluster.Spec.Paused = false →
      (PollPods env (r.setStatus r.c.Status.Control)).1 = .ok (running, []) →
      (if r.c.Members.isNone then
        UpdateMembers env (PodsToMemberSet running r.c.IsSecureClient)
          ((r.setStatus r.c.Status.Control).call
            (.podList r.c.Cluster.Namespace r.c.Cluster.Name))
      else (.ok, (r.setStatus r.c.Status.Control).call
        (.podList r.c.Cluster.Namespace r.c.Cluster.Name))) = (.ok, r2) →
      (reconcile env running r2).1 = .err e1 →
      (Check env r).1 = .ok ∧
      (Check env r).2.log = (reconcile env running r2).2.log ∧
      (Check env r).2.c.Status = (reconcile env running r2).2.c.Status ∧
      (Check env r).2.c.Members = (reconcile env running r2).2.c.Members ∧
      ((Check env r).2.callsSince r).any Call.isUpdateCluster = false) := by
  refine ⟨fun r => Check_ne_err env r e, fun cl h => Do_ne_err env cl h e, ?_, ?_, ?_⟩
  · intro r e0 hp hlist
    have hpoll : PollPods env (r.setStatus r.c.Status.Control) =
        (.error (.errorf ("failed to list running pods: " ++ e0.Error)),
          (r.setStatus r.c.Status.Control).call
            (.podList r.c.Cluster.Namespace r.c.Cluster.Name)) := by
      unfold PollPods
      simp only [Run.setStatus_Cluster, hlist]
    refine ⟨by rw [hpoll], ?_⟩
    unfold Check
    rw [hp]
    simp only [Bool.false_eq_true, if_false]
    unfold checkFromPoll
    rw [hpoll]
  · intro r running e1 hp hpoll hm hu
    unfold Check
    rw [hp]
    simp only [Bool.false_eq_true, if_false]
    exact checkFromPoll_refresh_error env (r.setStatus r.c.Status.Control) running e1 hpoll hm hu
  · intro r running r2 e1 hp hpoll href hrec
    have hC : Check env r = checkFromPoll env (r.setStatus r.c.Status.Control) := by
      unfold Check
      rw [hp]
      simp only [Bool.false_eq_true, if_false]
    obtain ⟨h1, h2⟩ := checkFromPoll_reconcile_error env (r.setStatus r.c.Status.Control)
      running r2 e1 hpoll href hrec
    rw [hC, h1]
    refine ⟨rfl, rfl, rfl, rfl, ?_⟩
    have h3 : OnlyCallsOutside Call.isUpdateCluster r (reconcile env running r2).2 :=
      OnlyCallsOutside.trans (r.setStatus r.c.Status.Control)
        (OnlyCallsOutside.refl _ r _ rfl) h2
    exact h3.any_false

/-- Witness of C19 (amended): a pass of the example tracker in which the poll fails, one
without a member set in which the listing of the members fails, and one in which only pod
`a` of three members runs, so that `reconcile` fails with the lost-quorum error. -/
theorem Check_and_Do_never_return_error_witness :
    (Check { exampleEnv with podList := fun _ _ => .error (.other "connection refused") }
      (exampleRun 3 none (some exampleMembers3))).1 = .ok ∧
    (Check { exampleEnvPolling [examplePod "a" "3.2.13"] with
        ListMembers := fun _ => .error (.other "unreachable") }
      (exampleRun 3 none none)).2.log =
      [.podList "default" "example", .ListMembers ["http://a:2379"]] ∧
    (Check (exampleEnvPolling [examplePod "a" "3.2.13"])
      (exampleRun 3 none (some exampleMembers3))).1 = .ok ∧
    ((Check (exampleEnvPolling [examplePod "a" "3.2.13"])
      (exampleRun 3 none (some exampleMembers3))).2.callsSince
      (exampleRun 3 none (some exampleMembers3))).any Call.isUpdateCluster = false :=
  ⟨congrArg Prod.fst
    (((Check_and_Do_never_return_error
      { exampleEnv with podList := fun _ _ => .error (.other "connection refused") }
      .ErrLostQuorum).2.2.1
      (exampleRun 3 none (some exampleMembers3)) (.other "connection refused") rfl rfl).2),
   congrArg (fun res => res.2.log)
    ((Check_and_Do_never_return_error
      { exampleEnvPolling [examplePod "a" "3.2.13"] with
        ListMembers := fun _ => .error (.other "unreachable") }
      .ErrLostQuorum).2.2.2.1
      (exampleRun 3 none none) [examplePod "a" "3.2.13"] (.other "unreachable")
      rfl rfl rfl rfl),
   ((Check_and_Do_never_return_error (exampleEnvPolling [examplePod "a" "3.2.13"])
      .ErrLostQuorum).2.2.2.2
      (exampleRun 3 none (some exampleMembers3)) [examplePod "a" "3.2.13"]
      (((exampleRun 3 none (some exampleMembers3)).setStatus
        (exampleRun 3 none (some exampleMembers3)).c.Status.Control).call
        (.podList "default" "example"))
      .ErrLostQuorum rfl rfl rfl (by decide)).1,
   ((Check_and_Do_never_return_error (exampleEnvPolling [examplePod "a" "3.2.13"])
      .ErrLostQuorum).2.2.2.2
      (exampleRun 3 none (some exampleMembers3)) [examplePod "a" "3.2.13"]
      (((exampleRun 3 none (some exampleMembers3)).setStatus
        (exampleRun 3 none (some exampleMembers3)).c.Status.Control).call
        (.podList "default" "example"))
      .ErrLostQuorum rfl rfl rfl (by decide)).2.2.2.2⟩

/-! ### First observation of a cluster -/

theorem doFirstSeen_setup_error_ends_running (env : Env) (r : Run) (e : Error)
    (h : (Setup env r).1 = .err e) :
    (doFirstSeen env r).1 = .ok ∧
    (doFirstSeen env r).2.c.Status.Phase = ClusterPhaseRunning := by
  unfold doFirstSeen
  cases hs : Setup env r with
  | mk o r1 =>
    rw [hs] at h
    simp only at h
    subst h
    refine ⟨rfl, ?_⟩
    show (UpdateCRStatus env _).2.c.Status.Phase = ClusterPhaseRunning
    rw [UpdateCRStatus_Status]
    rfl

/-- C13 (the code at the failing input). A document seen for the first time while its
status says Creating: `Setup` returns `errCreatedCluster`; `Do` records the reason and the
phase Failed and persists them, and then, in the same error branch, sets the services up and
sets the phase to Running. When `Do` returns, the tracker held by the registry is in phase
Running (not Failed) with the text of the setup error as its reason. -/
theorem Do_setup_failure_ends_running :
    (Setup exampleEnv
      { c := { Name := "", Cluster := exampleCreatingCluster,
               Status := exampleCreatingCluster.Status, Members := none, tlsConfig := none },
        log := [] }).1 = .err .errCreatedCluster ∧
    (Do exampleEnv exampleCreatingCluster { MetaCache := [], log := [] }).1 = .ok ∧
    (((Do exampleEnv exampleCreatingCluster { MetaCache := [], log := [] }).2.MetaCache.Load
      "default/example").map
      (fun tracker => tracker.map (fun t => (t.Status.Phase, t.Status.Reason)))) =
      some (some ("Running", "cluster failed to be created")) := by
  decide

/-- C14 (the code at the failing input). A document whose name is longer than the maximum:
`newCluster` returns nil and the first `Cache` returns the nil tracker with existed = false,
but `Add` has stored that nil pointer, so the registry does hold an entry under the key; the
second `Cache` of the same document finds the entry and panics on it in the update path, and
`Do` on the document panics when it dereferences the nil tracker. -/
theorem Cache_stores_nil_tracker_for_long_name :
    len exampleLongNameCluster.Name > exampleEnv.MaxNameLength ∧
    newCluster exampleEnv exampleLongNameCluster = none ∧
    MetaMap.Cache exampleEnv [] exampleLongNameCluster =
      some ([("default/a-cluster-name-that-is-longer-than-the-fifty-two-bytes-allowed", none)],
        { tracker := none, existed := false }) ∧
    MetaMap.Load
      [("default/a-cluster-name-that-is-longer-than-the-fifty-two-bytes-allowed", none)]
      "default/a-cluster-name-that-is-longer-than-the-fifty-two-bytes-allowed" = some none ∧
    MetaMap.Cache exampleEnv
      [("default/a-cluster-name-that-is-longer-than-the-fifty-two-bytes-allowed", none)]
      exampleLongNameCluster = none ∧
    (Do exampleEnv exampleLongNameCluster { MetaCache := [], log := [] }).1 = .panic := by
  decide

/-! ### The pick of the dead member -/

theorem Diff_Diff_subset (running M : MemberSet) :
    ∀ x ∈ running.Diff (running.Diff M), M.has x.Name = true := by
  intro x hx
  rw [Diff_Diff] at hx
  exact (List.mem_filter.mp hx).2

theorem Diff_inter_ne_nil (running M : MemberSet) (hr : running.WF) (hm : M.WF)
    (hne : (running.Diff (running.Diff M)).Size ≠ M.Size) :
    M.Diff (running.Diff (running.Diff M)) ≠ [] := by
  intro hnil
  apply hne
  have hle := Size_inter_le running M hr
  have hnd : (M.map Member.Name).Nodup := hm
  have hsub : M.map Member.Name ⊆ (running.Diff (running.Diff M)).map Member.Name := by
    intro n hn
    obtain ⟨m, hmem, rfl⟩ := List.mem_map.mp hn
    unfold MemberSet.Diff at hnil
    rw [List.filter_eq_nil_iff] at hnil
    have := hnil m hmem
    have hhas : MemberSet.has (MemberSet.Diff running (MemberSet.Diff running M)) m.Name = true := by
      unfold MemberSet.Diff
      simpa using this
    exact (has_iff _ _).mp hhas
  have hge := (List.subperm_of_subset hnd hsub).length_le
  simp only [List.length_map] at hge
  simp only [MemberSet.Size] at hle ⊢
  omega

theorem dead_member_not_running (running M : MemberSet) (m : Member)
    (hmem : m ∈ M.Diff (running.Diff (running.Diff M))) :
    m ∈ M ∧ running.has m.Name = false := by
  unfold MemberSet.Diff at hmem
  obtain ⟨hM, hnot⟩ := List.mem_filter.mp hmem
  refine ⟨hM, ?_⟩
  rw [Bool.eq_false_iff]
  intro hrun
  rw [MemberSet.has, List.any_eq_true] at hrun
  obtain ⟨x, hx, hxn⟩ := hrun
  have hxn2 : x.Name = m.Name := by simpa using hxn
  have hMhas : M.has m.Name = true := (has_iff M m.Name).mpr (List.mem_map_of_mem _ hM)
  have hxL : x ∈ running.Diff (running.Diff M) := by
    rw [Diff_Diff]
    exact List.mem_filter.mpr ⟨hx, by rw [hxn2]; exact hMhas⟩
  have hLhas : MemberSet.has (running.Diff (running.Diff M)) m.Name = true := by
    rw [MemberSet.has, List.any_eq_true]
    exact ⟨x, hxL, by simpa using hxn2⟩
  have : MemberSet.has (MemberSet.Diff running (MemberSet.Diff running M)) m.Name = true := hLhas
  unfold MemberSet.Diff at this
  rw [this] at hnot
  simp at hnot

theorem removeMember_some_ne_panic (env : Env) (m : Member) (r : Run) :
    (removeMember env (some m) r).1 ≠ .panic := by
  have hdef : ∀ x : Outcome × Run, x.1 ≠ .panic → (removeMemberDeferred m x).1 ≠ .panic := by
    intro x hx
    obtain ⟨o, q⟩ := x
    cases o with
    | ok => simp [removeMemberDeferred]
    | err e => simp [removeMemberDeferred]
    | panic => exact absurd rfl hx
  have hrest : ∀ r3 : Run,
      (match removePod env m.Name r3 with
        | (.ok, r4) =>
          if r4.c.isPodPVEnabled then removePVC env (env.PVCNameFromMember m.Name) r4
          else (.ok, r4)
        | res => res).1 ≠ .panic := by
    intro r3
    have hp := removePod_ne_panic env m.Name r3
    cases hrp : removePod env m.Name r3 with
    | mk o q =>
      rw [hrp] at hp
      cases o with
      | ok =>
        simp only
        split
        · exact removePVC_ne_panic env _ q
        · simp
      | err e => simp
      | panic => exact absurd rfl hp
  unfold removeMember
  apply hdef
  dsimp only
  split
  · split
    · exact hrest _
    · simp
  · exact hrest _

theorem removeDeadMember_some_log (env : Env) (m : Member) (r : Run) :
    ∃ ext, (removeDeadMember env (some m) r).2.log =
      r.log ++ Call.eventCreate (.ReplacingDeadMemberEvent m.Name) :: ext := by
  obtain ⟨ext, h, _⟩ := removeMember_change env (some m)
    (r.call (.eventCreate (.ReplacingDeadMemberEvent m.Name)))
  refine ⟨ext, ?_⟩
  show (removeMember env (some m)
    (r.call (.eventCreate (.ReplacingDeadMemberEvent m.Name)))).2.log = _
  rw [h]
  simp

/-- C21. Whenever `reconcileMembers` reaches the dead-member removal (member sets being maps,
that is, with pairwise distinct names): L = R \ (R \ M) is a subset of M by name with
|L| ≠ |M|, the set M \ L that is picked from is non-empty, so the pick yields a member and
the call does not panic, and the member handed to `removeDeadMember` is a member of M that
has no running workload. -/
theorem dead_member_pick_is_dead_member (env : Env) (running : MemberSet) (r : Run)
    (hr : running.WF) (hm : r.c.members.WF)
    (hb : TakesDeadMemberBranch env running r = true) :
    (∀ x ∈ running.Diff (running.Diff r.c.members), r.c.members.has x.Name = true) ∧
    (running.Diff (running.Diff r.c.members)).Size ≠ r.c.members.Size ∧
    r.c.members.Diff (running.Diff (running.Diff r.c.members)) ≠ [] ∧
    ∃ m, (r.c.members.Diff (running.Diff (running.Diff r.c.members))).PickOne = some m ∧
      m ∈ r.c.members ∧ running.has m.Name = false ∧
      reconcileMembers env running r =
        removeDeadMember env (some m)
          (removeUnknownPods env (running.Diff r.c.members) r).2 ∧
      (reconcileMembers env running r).1 ≠ .panic ∧
      ReachesDeadMemberRemoval env running r = true := by
  unfold TakesDeadMemberBranch at hb
  simp only [Bool.and_eq_true, decide_eq_true_eq] at hb
  obtain ⟨⟨hok, hne⟩, hq⟩ := hb
  have hnil := Diff_inter_ne_nil running r.c.members hr hm hne
  refine ⟨Diff_Diff_subset running r.c.members, hne, hnil, ?_⟩
  cases hpick : r.c.members.Diff (running.Diff (running.Diff r.c.members)) with
  | nil => exact absurd hpick hnil
  | cons m rest =>
    have hmem : m ∈ r.c.members.Diff (running.Diff (running.Diff r.c.members)) := by
      rw [hpick]; simp
    obtain ⟨hM, hdead⟩ := dead_member_not_running running r.c.members m hmem
    have hc := removeUnknownPods_c env (running.Diff r.c.members) r
    obtain ⟨ext1, hlog1, _⟩ := removeUnknownPods_log env (running.Diff r.c.members) r
    have heq : reconcileMembers env running r =
        removeDeadMember env (some m)
          (removeUnknownPods env (running.Diff r.c.members) r).2 := by
      unfold reconcileMembers
      dsimp only
      cases hp : removeUnknownPods env (running.Diff r.c.members) r with
      | mk o r1 =>
        rw [hp] at hok hc
        simp only at hok hc
        subst hok
        simp only [hc]
        rw [if_neg hne, if_neg hq, hpick]
        rfl
    refine ⟨m, rfl, hM, hdead, heq, ?_, ?_⟩
    · rw [heq]
      exact removeMember_some_ne_panic env m _
    · unfold ReachesDeadMemberRemoval
      obtain ⟨ext2, hlog2⟩ := removeDeadMember_some_log env m
        (removeUnknownPods env (running.Diff r.c.members) r).2
      have hlog : (reconcileMembers env running r).2.log =
          r.log ++ (ext1 ++ Call.eventCreate (.ReplacingDeadMemberEvent m.Name) :: ext2) := by
        rw [heq, hlog2, hlog1, List.append_assoc]
      rw [callsSince_of_ext hlog]
      simp [Call.isReplacingDeadMember]

/-- Witness of C21: three members, pods `a` and `b` running; the member picked is `c`. -/
theorem dead_member_pick_is_dead_member_witness :
    ∃ m, (MemberSet.Diff (exampleRun 3 none (some exampleMembers3)).c.members
        (MemberSet.Diff [exampleMember "a" 0, exampleMember "b" 0]
          (MemberSet.Diff [exampleMember "a" 0, exampleMember "b" 0]
            (exampleRun 3 none (some exampleMembers3)).c.members))).PickOne = some m ∧
      m ∈ (exampleRun 3 none (some exampleMembers3)).c.members ∧
      MemberSet.has [exampleMember "a" 0, exampleMember "b" 0] m.Name = false :=
  let h := (dead_member_pick_is_dead_member exampleEnv
    [exampleMember "a" 0, exampleMember "b" 0] (exampleRun 3 none (some exampleMembers3))
    (by decide) (by decide) (by decide)).2.2.2
  h.elim (fun m hm => ⟨m, hm.1, hm.2.1, hm.2.2.1⟩)

/-! ### Applying the defaults twice -/

theorem dropWhile_dropWhile (p : Char → Bool) (l : List Char) :
    (l.dropWhile p).dropWhile p = l.dropWhile p := by
  induction l with
  | nil => rfl
  | cons x xs ih =>
    by_cases hx : p x = true
    · rw [List.dropWhile_cons_of_pos hx, ih]
    · rw [List.dropWhile_cons_of_neg hx, List.dropWhile_cons_of_neg hx]

theorem TrimLeft_TrimLeft (s cutset : String) :
    TrimLeft (TrimLeft s cutset) cutset = TrimLeft s cutset := by
  unfold TrimLeft
  simp only [dropWhile_dropWhile]

/-- The Go method `SetDefaults` in closed form: only the repository, the version and the pod
policy of the spec can change. -/
theorem SetDefaults_eq (e : Cluster) :
    e.SetDefaults =
      { e with
        Spec :=
          { e.Spec with
            Repository := if e.Spec.Repository = "" then defaultRepository else e.Spec.Repository
            Version :=
              TrimLeft (if e.Spec.Version = "" then DefaultEtcdVersion else e.Spec.Version) "v"
            Pod :=
              match e.Spec.Pod with
              | some pod =>
                if pod.AntiAffinity && pod.Affinity.isNone then
                  some { pod with Affinity := some e.Name }
                else some pod
              | none => none } } := by
  unfold Cluster.SetDefaults
  simp only [len_eq_zero_iff]
  by_cases h : e.Spec.Repository = "" <;> by_cases hv : e.Spec.Version = "" <;>
    simp only [h, hv, if_true, if_false] <;>
    cases hp : e.Spec.Pod with
    | none => simp only [hp]
    | some pod =>
      by_cases hc : (pod.AntiAffinity && pod.Affinity.isNone) = true <;>
        simp only [hp, hc, if_true, Bool.false_eq_true, if_false]

theorem SetDefaults_frame (e : Cluster) :
    e.SetDefaults.Name = e.Name ∧ e.SetDefaults.Namespace = e.Namespace ∧
    e.SetDefaults.ClusterName = e.ClusterName ∧ e.SetDefaults.UID = e.UID ∧
    e.SetDefaults.Status = e.Status ∧ e.SetDefaults.Spec.Size = e.Spec.Size ∧
    e.SetDefaults.Spec.Paused = e.Spec.Paused ∧ e.SetDefaults.Spec.TLS = e.Spec.TLS ∧
    e.SetDefaults.Spec.Password = e.Spec.Password := by
  rw [SetDefaults_eq]
  exact ⟨rfl, rfl, rfl, rfl, rfl, rfl, rfl, rfl, rfl⟩

theorem SetDefaults_Pod (e : Cluster) :
    e.SetDefaults.Spec.Pod =
      match e.Spec.Pod with
      | some pod =>
        if pod.AntiAffinity && pod.Affinity.isNone then
          some { pod with Affinity := some e.Name }
        else some pod
      | none => none := by
  rw [SetDefaults_eq]

theorem SetDefaults_Pod_twice (e : Cluster) :
    e.SetDefaults.SetDefaults.Spec.Pod = e.SetDefaults.Spec.Pod := by
  rw [SetDefaults_Pod e.SetDefaults, SetDefaults_Pod e, (SetDefaults_frame e).1]
  cases e.Spec.Pod with
  | none => rfl
  | some pod =>
    by_cases hc : (pod.AntiAffinity && pod.Affinity.isNone) = true
    · simp [hc]
    · simp only [hc, Bool.false_eq_true, if_false]

theorem SetDefaults_Repository_twice (e : Cluster) :
    e.SetDefaults.SetDefaults.Spec.Repository = e.SetDefaults.Spec.Repository := by
  rw [SetDefaults_Repository e.SetDefaults]
  have hne : e.SetDefaults.Spec.Repository ≠ "" := by
    rw [SetDefaults_Repository]
    by_cases h : e.Spec.Repository = ""
    · rw [if_pos h]; decide
    · rw [if_neg h]; exact h
  rw [if_neg hne]

theorem SetDefaults_Version_eq_empty_iff (e : Cluster) :
    e.SetDefaults.Spec.Version = "" ↔
      e.Spec.Version ≠ "" ∧ ∀ ch ∈ e.Spec.Version.data, ch = 'v' := by
  rw [SetDefaults_Version]
  by_cases h : e.Spec.Version = ""
  · rw [if_pos h]
    constructor
    · intro h2; exact absurd h2 (by decide)
    · intro h2; exact absurd h h2.1
  · rw [if_neg h, TrimLeft_v_eq_empty_iff]
    exact ⟨fun h2 => ⟨h, h2⟩, fun h2 => h2.2⟩

theorem SetDefaults_Version_twice (e : Cluster) :
    e.SetDefaults.SetDefaults.Spec.Version =
      if e.SetDefaults.Spec.Version = "" then "3.2.13" else e.SetDefaults.Spec.Version := by
  rw [SetDefaults_Version e.SetDefaults]
  by_cases h : e.SetDefaults.Spec.Version = ""
  · rw [if_pos h, if_pos h]; decide
  · rw [if_neg h, if_neg h, SetDefaults_Version e, TrimLeft_TrimLeft]

theorem Cluster_ext (a b : Cluster) (h1 : a.Name = b.Name) (h2 : a.Namespace = b.Namespace)
    (h3 : a.ClusterName = b.ClusterName) (h4 : a.UID = b.UID) (h5 : a.Status = b.Status)
    (h6 : a.Spec.Size = b.Spec.Size) (h7 : a.Spec.Repository = b.Spec.Repository)
    (h8 : a.Spec.Version = b.Spec.Version) (h9 : a.Spec.Paused = b.Spec.Paused)
    (h10 : a.Spec.Pod = b.Spec.Pod) (h11 : a.Spec.TLS = b.Spec.TLS)
    (h12 : a.Spec.Password = b.Spec.Password) : a = b := by
  obtain ⟨n, ns, cn, u, sp, st⟩ := a
  obtain ⟨n2, ns2, cn2, u2, sp2, st2⟩ := b
  obtain ⟨s1, s2, s3, s4, s5, s6, s7⟩ := sp
  obtain ⟨t1, t2, t3, t4, t5, t6, t7⟩ := sp2
  simp only at h1 h2 h3 h4 h5 h6 h7 h8 h9 h10 h11 h12
  subst h1 h2 h3 h4 h5 h6 h7 h8 h9 h10 h11 h12
  rfl

/-- C22 (as stated) fails: for the document with version "v" the first `SetDefaults` leaves
the empty version and the second replaces it by the default "3.2.13": applying it twice does
not yield the same spec as applying it once. -/
theorem SetDefaults_twice_differs_for_version_v :
    (Cluster.SetDefaults
      { exampleCluster with Spec := { exampleCluster.Spec with Version := "v" } }).Spec.Version
      = "" ∧
    (Cluster.SetDefaults (Cluster.SetDefaults
      { exampleCluster with Spec := { exampleCluster.Spec with Version := "v" } })).Spec.Version
      = "3.2.13" ∧
    (Cluster.SetDefaults (Cluster.SetDefaults
      { exampleCluster with Spec := { exampleCluster.Spec with Version := "v" } })).Spec ≠
    (Cluster.SetDefaults
      { exampleCluster with Spec := { exampleCluster.Spec with Version := "v" } }).Spec := by
  refine ⟨by decide, by decide, ?_⟩
  intro h
  exact absurd (congrArg ClusterSpec.Version h) (by decide)

/-- C22 (amended). For every cluster document (any repository, any pod policy) whose version
is empty or contains a character other than "v", applying `SetDefaults` twice yields the
same document, hence the same spec, as applying it once; these are exactly the documents for
which it does. For every document the two results agree on everything but the version
(repository, pod policy and all other fields); for a version made of the letter "v" only,
the first application leaves the empty version and the second one the default "3.2.13". -/
theorem SetDefaults_idempotent_iff (e : Cluster) :
    (e.SetDefaults.SetDefaults = e.SetDefaults ↔
      (e.Spec.Version = "" ∨ ∃ ch ∈ e.Spec.Version.data, ch ≠ 'v')) ∧
    (e.SetDefaults.SetDefaults.Spec = e.SetDefaults.Spec ↔
      (e.Spec.Version = "" ∨ ∃ ch ∈ e.Spec.Version.data, ch ≠ 'v')) ∧
    e.SetDefaults.SetDefaults =
      { e.SetDefaults with
        Spec := { e.SetDefaults.Spec with Version := e.SetDefaults.SetDefaults.Spec.Version } } ∧
    ((e.Spec.Version ≠ "" ∧ ∀ ch ∈ e.Spec.Version.data, ch = 'v') →
      e.SetDefaults.Spec.Version = "" ∧ e.SetDefaults.SetDefaults.Spec.Version = "3.2.13") := by
  have hfr1 := SetDefaults_frame e.SetDefaults
  have hcond : (e.Spec.Version = "" ∨ ∃ ch ∈ e.Spec.Version.data, ch ≠ 'v') ↔
      e.SetDefaults.Spec.Version ≠ "" := by
    rw [Ne, SetDefaults_Version_eq_empty_iff]
    constructor
    · rintro (h | ⟨ch, hch, hne⟩) ⟨h1, h2⟩
      · exact h1 h
      · exact hne (h2 ch hch)
    · intro h
      by_cases hv : e.Spec.Version = ""
      · exact Or.inl hv
      · right
        by_contra hcon
        apply h
        refine ⟨hv, ?_⟩
        intro ch hch
        by_contra hne
        exact hcon ⟨ch, hch, hne⟩
  have hframe : e.SetDefaults.SetDefaults =
      { e.SetDefaults with
        Spec := { e.SetDefaults.Spec with
          Version := e.SetDefaults.SetDefaults.Spec.Version } } := by
    apply Cluster_ext
    · exact hfr1.1
    · exact hfr1.2.1
    · exact hfr1.2.2.1
    · exact hfr1.2.2.2.1
    · exact hfr1.2.2.2.2.1
    · exact hfr1.2.2.2.2.2.1
    · exact SetDefaults_Repository_twice e
    · rfl
    · exact hfr1.2.2.2.2.2.2.1
    · exact SetDefaults_Pod_twice e
    · exact hfr1.2.2.2.2.2.2.2.1
    · exact hfr1.2.2.2.2.2.2.2.2
  have hver := SetDefaults_Version_twice e
  have hspec : e.SetDefaults.SetDefaults.Spec = e.SetDefaults.Spec ↔
      e.SetDefaults.Spec.Version ≠ "" := by
    constructor
    · intro h hv
      have h2 := congrArg ClusterSpec.Version h
      rw [hver, if_pos hv, hv] at h2
      exact absurd h2 (by decide)
    · intro hv
      rw [if_neg hv] at hver
      rw [hframe, hver]
  refine ⟨?_, by rw [hcond]; exact hspec, hframe, ?_⟩
  · rw [hcond]
    constructor
    · intro h
      exact hspec.mp (by rw [h])
    · intro hv
      rw [if_neg hv] at hver
      rw [hframe, hver]
  · intro h
    have hv := (SetDefaults_Version_eq_empty_iff e).mpr h
    exact ⟨hv, by rw [hver, if_pos hv]⟩

/-- Witness of C22 (amended): the example document with version "v3.2.13" is left unchanged
by a second `SetDefaults`, and with version "vv" the second application yields "3.2.13". -/
theorem SetDefaults_idempotent_iff_witness :
    Cluster.SetDefaults (Cluster.SetDefaults
      { exampleCluster with Spec := { exampleCluster.Spec with Version := "v3.2.13" } }) =
    Cluster.SetDefaults
      { exampleCluster with Spec := { exampleCluster.Spec with Version := "v3.2.13" } } ∧
    (Cluster.SetDefaults (Cluster.SetDefaults
      { exampleCluster with Spec := { exampleCluster.Spec with Version := "vv" } })).Spec.Version
      = "3.2.13" :=
  ⟨(SetDefaults_idempotent_iff
    { exampleCluster with Spec := { exampleCluster.Spec with Version := "v3.2.13" } }).1.mpr
      (Or.inr ⟨'3', by decide, by decide⟩),
   ((SetDefaults_idempotent_iff
    { exampleCluster with Spec := { exampleCluster.Spec with Version := "vv" } }).2.2.2
    ⟨by decide, by decide⟩).2⟩

end EtcdOperator
